import Mathlib

/-!
libhttpserver: the dispatch engine of `src/webserver.cpp`.

A shallow embedding of the routing, IP-policy, response-cache and request
life-cycle code of `webserver.cpp`, followed by theorems about it.

Conventions of the embedding.

* A `std::string` or `char*` is the list of its characters (`cstring`).
* A `std::map` / `std::set` is the list of its entries in iteration order.
* A pointer that may be null is an `Option`.
* `gettimeofday` is an explicit argument `now` (the value of `tv_sec`).
* A virtual call on a user object is a field of function type of the object.
-/

namespace httpserver

/-! ## Strings -/

/-- A `std::string` / `char*` value: the sequence of its characters. -/
abbrev cstring := List Char

/-- The `operator<` of `std::string` (the order of `std::map<string, _>`):
lexicographic on the character codes. -/
def str_lt : cstring → cstring → Bool
  | [], [] => false
  | [], _ :: _ => true
  | _ :: _, [] => false
  | a :: as, b :: bs =>
    if a.toNat < b.toNat then true
    else if b.toNat < a.toNat then false
    else str_lt as bs

/-! ## `std::map` as a key-ordered association list -/

section smap
variable {K V : Type}

/-- The `std::map::find` of a map ordered by `lt`: walk the entries in key
order; an entry is the one looked for when neither key is below the other. -/
def smap_find (lt : K → K → Bool) (k : K) : List (K × V) → Option (K × V)
  | [] => none
  | (k', v) :: rest =>
    if lt k' k then smap_find lt k rest
    else if lt k k' then none
    else some (k', v)

/-- The statement `m[k] = v` on a `std::map`: the value of an equivalent key is
replaced (the stored key object stays), otherwise `(k, v)` is inserted at its
place in the key order. -/
def smap_assign (lt : K → K → Bool) (k : K) (v : V) : List (K × V) → List (K × V)
  | [] => [(k, v)]
  | (k', v') :: rest =>
    if lt k' k then (k', v') :: smap_assign lt k v rest
    else if lt k k' then (k, v) :: (k', v') :: rest
    else (k', v) :: rest

/-- The call `m.insert(pair(k, v))` on a `std::map`: nothing changes when an
equivalent key is present. The result is the map, the entry at the returned
iterator, and whether the pair was inserted (`pair<iterator, bool>`). -/
def smap_insert (lt : K → K → Bool) (k : K) (v : V) :
    List (K × V) → List (K × V) × (K × V) × Bool
  | [] => ([(k, v)], (k, v), true)
  | (k', v') :: rest =>
    if lt k' k then
      ((k', v') :: (smap_insert lt k v rest).1, (smap_insert lt k v rest).2)
    else if lt k k' then ((k, v) :: (k', v') :: rest, (k, v), true)
    else ((k', v') :: rest, (k', v'), false)

/-- The call `m.erase(k)` on a `std::map`. -/
def smap_erase (lt : K → K → Bool) (k : K) : List (K × V) → List (K × V)
  | [] => []
  | (k', v') :: rest =>
    if lt k' k then (k', v') :: smap_erase lt k rest
    else if lt k k' then (k', v') :: rest
    else rest

/-- The class invariant of a `std::map`: the keys are strictly increasing in
iteration order. -/
def smap_wf (lt : K → K → Bool) : List (K × V) → Bool
  | [] => true
  | (k, _) :: rest => rest.all (fun e => lt k e.1) && smap_wf lt rest

end smap

/-! ## Endpoint patterns (`http_endpoint`) -/

/-- Modelled from the spec: the kind of a path segment of an endpoint pattern
(`http_endpoint.hpp` is not among the sources; spec section 3: each segment
is literal, a named parameter, or a regex fragment). -/
inductive segment_kind
  | literal
  | parameter
  | regex
  deriving DecidableEq, Repr

/-- Modelled from the spec: one path segment of an endpoint with its kind. -/
structure url_piece where
  text : cstring
  kind : segment_kind
  deriving DecidableEq, Repr

/-- Modelled from the spec: the class `http_endpoint` (`http_endpoint.hpp` is
not among the sources). Spec section 3: the original URL template string, the
sequence of path segments with their kinds, and the family flag. -/
structure http_endpoint where
  url_complete : cstring
  url_pieces : List url_piece
  family_url : Bool
  deriving DecidableEq, Repr

/-- Split a string on `/`; `cur` holds the segment being read, reversed. -/
def split_slash : cstring → cstring → List cstring
  | [], cur => [cur.reverse]
  | c :: cs, cur =>
    if c = '/' then cur.reverse :: split_slash cs [] else split_slash cs (c :: cur)

/-- Remove the empty segments at the end of a segment list. -/
def drop_trailing_empty : List cstring → List cstring
  | [] => []
  | s :: rest =>
    match drop_trailing_empty rest with
    | [] => if s = [] then [] else [s]
    | r :: rs => s :: r :: rs

/-- Modelled from the spec: decomposition of a URL into segments (spec 4.1:
split on `/`, empty trailing segments are discarded). The empty segment in
front of a leading `/` is not a segment either: the spec counts two pieces in
`/a/b`. -/
def tokenize_url (url : cstring) : List cstring :=
  match split_slash url [] with
  | [] => []
  | s :: rest => drop_trailing_empty (if s = [] then rest else s :: rest)

/-- Modelled from the spec: a segment beginning with `{` and ending with `}`
is a named parameter (spec 4.1). -/
def is_parameter_segment (s : cstring) : Bool :=
  decide (2 ≤ s.length) && (s.head? == some '{') && (s.getLast? == some '}')

/-- Modelled from the spec: the name of a parameter segment is its inner
text. -/
def parameter_name (s : cstring) : cstring := (s.drop 1).dropLast

/-- Modelled from the spec: the regex metacharacters (spec 4.1 names none;
the metacharacters of POSIX extended regular expressions are taken). -/
def is_regex_metachar (c : Char) : Bool :=
  c ∈ ['.', '^', '$', '*', '+', '?', '(', ')', '[', ']', '{', '}', '|', Char.ofNat 92]

/-- Modelled from the spec: the kind of a segment at construction. Only a
registered pattern (`registration`) has parameters and regex fragments; a
request URL is a sequence of plain segments. A regex fragment exists only in
regex mode. -/
def classify_segment (registration use_regex : Bool) (s : cstring) : segment_kind :=
  if !registration then segment_kind.literal
  else if is_parameter_segment s then segment_kind.parameter
  else if use_regex && s.any is_regex_metachar then segment_kind.regex
  else segment_kind.literal

/-- Modelled from the spec: the constructor
`http_endpoint(url, family, registration, use_regex)` (spec 4.1). -/
def http_endpoint.make (url : cstring) (family registration use_regex : Bool) : http_endpoint :=
  { url_complete := url
    url_pieces := (tokenize_url url).map
      (fun s => { text := s, kind := classify_segment registration use_regex s })
    family_url := family }

/-- Modelled from the spec: `get_url_pieces_num`, the piece count. -/
def http_endpoint.get_url_pieces_num (e : http_endpoint) : Nat := e.url_pieces.length

/-- Modelled from the spec: `get_url_complete_size`, the character length of
the template. -/
def http_endpoint.get_url_complete_size (e : http_endpoint) : Nat := e.url_complete.length

/-- Modelled from the spec: `get_url_pieces`, the segments as strings. -/
def http_endpoint.get_url_pieces (e : http_endpoint) : List cstring :=
  e.url_pieces.map (fun p => p.text)

/-- Modelled from the spec: `get_url_pars`, the names of the parameter
segments in order. -/
def http_endpoint.get_url_pars (e : http_endpoint) : List cstring :=
  (e.url_pieces.filter (fun p => p.kind = segment_kind.parameter)).map
    (fun p => parameter_name p.text)

/-- Positions, counted from `i`, of the parameter segments of a list. -/
def chunk_positions_from : Nat → List url_piece → List Nat
  | _, [] => []
  | i, p :: ps =>
    if p.kind = segment_kind.parameter then i :: chunk_positions_from (i + 1) ps
    else chunk_positions_from (i + 1) ps

/-- Modelled from the spec: `get_chunk_positions`, the segment positions of
the parameters. -/
def http_endpoint.get_chunk_positions (e : http_endpoint) : List Nat :=
  chunk_positions_from 0 e.url_pieces

/-- Segments joined by `/`. -/
def join_slash : List cstring → cstring
  | [] => []
  | [s] => s
  | s :: t :: rest => s ++ '/' :: join_slash (t :: rest)

/-- Modelled from the spec: the normalised pattern string by which endpoints
are compared (spec section 3). -/
def http_endpoint.url_normalized (e : http_endpoint) : cstring :=
  '/' :: join_slash e.get_url_pieces

/-- Modelled from the spec: `operator<` of `http_endpoint`, the key order of
the route table. Spec section 3 fixes equality (by normalised pattern string);
the order taken is the string order of that string. -/
def http_endpoint.lt (a b : http_endpoint) : Bool :=
  str_lt a.url_normalized b.url_normalized

/-- Modelled from the spec: whether one pattern segment matches a URL segment
(spec 4.1). `re frag s` says whether `s` fully matches the compiled regex
fragment `frag`; the regex library is external. -/
def segment_matches (re : cstring → cstring → Bool) (p : url_piece) (s : cstring) : Bool :=
  match p.kind with
  | segment_kind.literal => p.text == s
  | segment_kind.parameter => s != []
  | segment_kind.regex => re p.text s

/-- Modelled from the spec: each pattern segment matches the corresponding
URL segment. -/
def segments_match (re : cstring → cstring → Bool) : List url_piece → List cstring → Bool
  | [], _ => true
  | _ :: _, [] => false
  | p :: ps, s :: ss => segment_matches re p s && segments_match re ps ss

/-- Modelled from the spec: `http_endpoint::match` (spec 4.1). With the
family flag the URL has at least as many segments as the pattern, otherwise
the segment counts are equal. -/
def http_endpoint.matches (re : cstring → cstring → Bool) (p url : http_endpoint) : Bool :=
  if p.family_url then
    decide (p.url_pieces.length ≤ url.url_pieces.length)
      && segments_match re p.url_pieces url.get_url_pieces
  else
    decide (p.url_pieces.length = url.url_pieces.length)
      && segments_match re p.url_pieces url.get_url_pieces

/-! ## Requests, responses, handlers -/

/-- Modelled from the spec: the class `http_request` (`http_request.hpp` is
not among the sources), with the attributes of spec section 3. The maps are
`std::map<string, string>` ordered by the string order. -/
structure http_request where
  path : cstring
  method : cstring
  version : cstring
  querystring : cstring
  args : List (cstring × cstring)
  headers : List (cstring × cstring)
  footers : List (cstring × cstring)
  cookies : List (cstring × cstring)
  requestor : cstring
  requestor_port : Nat
  user : cstring
  pass : cstring
  digested_user : cstring
  content : cstring
  underlying_connection : Option Nat
  deriving DecidableEq, Repr

/-- The default-constructed request, `http_request()`. -/
def http_request.new : http_request :=
  { path := [], method := [], version := [], querystring := [], args := [],
    headers := [], footers := [], cookies := [], requestor := [],
    requestor_port := 0, user := [], pass := [], digested_user := [],
    content := [], underlying_connection := none }

/-- Modelled from the spec: `set_arg(key, value)`, assignment in the
argument mapping. -/
def http_request.set_arg (r : http_request) (key value : cstring) : http_request :=
  { r with args := smap_assign str_lt key value r.args }

/-- Modelled from the spec: `get_arg(key)`, lookup in the argument mapping. -/
def http_request.get_arg (r : http_request) (key : cstring) : Option cstring :=
  (smap_find str_lt key r.args).map (fun e => e.2)

/-- Modelled from the spec: `set_header(key, value)`. -/
def http_request.set_header (r : http_request) (key value : cstring) : http_request :=
  { r with headers := smap_assign str_lt key value r.headers }

/-- Modelled from the spec: `set_footer(key, value)`. -/
def http_request.set_footer (r : http_request) (key value : cstring) : http_request :=
  { r with footers := smap_assign str_lt key value r.footers }

/-- Modelled from the spec: `set_cookie(key, value)`. -/
def http_request.set_cookie (r : http_request) (key value : cstring) : http_request :=
  { r with cookies := smap_assign str_lt key value r.cookies }

/-- Modelled from the spec: `grow_content(data, size)`, the chunk is appended
to the raw body buffer (spec 4.5). -/
def http_request.grow_content (r : http_request) (data : cstring) (size : Nat) : http_request :=
  { r with content := r.content ++ data.take size }

/-- The static bodies of the error pages (`NOT_FOUND_ERROR`, `METHOD_ERROR`,
`NOT_METHOD_ERROR`, `GENERIC_ERROR`; their texts are defined outside the
sources). -/
inductive static_body
  | NOT_FOUND_ERROR
  | METHOD_ERROR
  | NOT_METHOD_ERROR
  | GENERIC_ERROR
  deriving DecidableEq, Repr

/-- What a response carries: one of the static bodies or content built by a
handler. -/
inductive response_body
  | fixed (b : static_body)
  | dynamic (s : cstring)
  deriving DecidableEq, Repr

/-- What a `catch` clause can tell about a thrown value: a
`file_access_exception`, another `std::exception`, or anything else. -/
inductive exception_kind
  | file_access
  | std_exception
  | other
  deriving DecidableEq, Repr

/-- Modelled from the spec: the class `http_response` (`http_response.hpp` is
not among the sources; spec section 3). `raw_failure` is what
`get_raw_response` throws for this response (`none`: it succeeds),
`enqueue_result` what `enqueue_response` returns, `ca` the completion
action. -/
structure http_response where
  content : response_body
  response_code : Nat
  autodelete : Bool
  ca : Option Nat
  underlying_connection : Option Nat
  raw_failure : Option exception_kind
  enqueue_result : Int
  deriving DecidableEq, Repr

/-- The status codes `http_utils::http_not_found`,
`http_utils::http_method_not_allowed`, `MHD_HTTP_METHOD_NOT_ACCEPTABLE` and
`http_utils::http_internal_server_error`. -/
def http_not_found : Nat := 404

/-- See `http_not_found`. -/
def http_method_not_allowed : Nat := 405

/-- See `http_not_found`. -/
def http_method_not_acceptable : Nat := 406

/-- See `http_not_found`. -/
def http_internal_server_error : Nat := 500

/-- The constants `MHD_YES` and `MHD_NO` of the parser library. -/
def MHD_YES : Int := 1

/-- See `MHD_YES`. -/
def MHD_NO : Int := 0

/-- Modelled from the spec: `new http_string_response(body, code)` for one of
the static bodies; rendering a static buffer does not fail. -/
def http_string_response (b : static_body) (code : Nat) : http_response :=
  { content := response_body.fixed b, response_code := code, autodelete := true,
    ca := none, underlying_connection := none, raw_failure := none,
    enqueue_result := MHD_YES }

/-- The member-function pointers `&http_resource::render_X` stored in
`modded_request::callback`. -/
inductive render_hook
  | render_GET
  | render_POST
  | render_PUT
  | render_DELETE
  | render_HEAD
  | render_CONNECT
  | render_TRACE
  | render_not_acceptable
  deriving DecidableEq, Repr

/-- What a call of a hook `(resource->*callback)(request, &dhrs)` does to its
caller: `written` is the response it stored through the slot (`none`: the
slot is left as it was), `thrown` the exception it left with (`none`: it
returned). -/
structure hook_result where
  written : Option http_response
  thrown : Option exception_kind
  deriving DecidableEq, Repr

/-- Modelled from the spec: the class `http_resource` (`http_resource.hpp` is
not among the sources; spec 6.2): the predicate `is_allowed(method)`, the
per-method hooks, and the not-acceptable override reference that
`register_resource` sets. -/
inductive http_resource
  | mk (is_allowed : cstring → Bool)
       (render : render_hook → http_request → hook_result)
       (method_not_acceptable_resource : Option http_resource)

/-- The virtual call `resource->is_allowed(method)`. -/
def http_resource.is_allowed : http_resource → cstring → Bool
  | http_resource.mk a _ _ => a

/-- The call `(resource->*hook)(request, &dhrs)`. -/
def http_resource.render : http_resource → render_hook → http_request → hook_result
  | http_resource.mk _ r _ => r

/-- The field `resource->method_not_acceptable_resource`. -/
def http_resource.method_not_acceptable_resource : http_resource → Option http_resource
  | http_resource.mk _ _ m => m

/-- The assignment `resource->method_not_acceptable_resource = m`. -/
def http_resource.set_method_not_acceptable_resource (m : Option http_resource) :
    http_resource → http_resource
  | http_resource.mk a r _ => http_resource.mk a r m

/-! ## IP policy types -/

/-- The enumeration `http_utils::policy_T`. -/
inductive policy_T
  | ACCEPT
  | REJECT
  deriving DecidableEq, Repr

/-- Modelled from the spec: the class `ip_representation` (`http_utils.hpp`
is not among the sources; spec 4.3): the normalised, comparable form of an
address with an optional CIDR length. `address` is the address as a 128-bit
number (an IPv4 address `a.b.c.d` is `::ffff:a.b.c.d`), `mask_bits` the number
of leading bits that are significant. -/
structure ip_representation where
  address : Nat
  mask_bits : Nat
  deriving DecidableEq, Repr

/-- Modelled from the spec: the weight of an address; a more specific address
has a lower weight (spec 4.3). -/
def ip_representation.weight (ip : ip_representation) : Nat := 128 - ip.mask_bits

/-- Modelled from the spec: the normalised form of the IPv4 address
`a.b.c.d/cidr`. -/
def ip_representation.of_ipv4 (a b c d cidr : Nat) : ip_representation :=
  { address := 0xFFFF * 2 ^ 32
      + ((a % 256) * 2 ^ 24 + (b % 256) * 2 ^ 16 + (c % 256) * 2 ^ 8 + d % 256)
    mask_bits := 96 + min cidr 32 }

/-- The leading `m` bits of a 128-bit address. -/
def leading_bits (address m : Nat) : Nat := address / 2 ^ (128 - m)

/-- Modelled from the spec: `operator<` of `ip_representation`, the order of
the ban and allowance sets. Two representations are compared on the bits that
are significant in both, so that a representation is equivalent to every
address it covers. -/
def ip_representation.lt (a b : ip_representation) : Bool :=
  decide (leading_bits a.address (min a.mask_bits b.mask_bits)
    < leading_bits b.address (min a.mask_bits b.mask_bits))

/-- A peer address as the parser hands it over (`const struct sockaddr*`):
an IPv4 or an IPv6 socket address. -/
inductive sockaddr
  | in4 (a b c d : Nat) (port : Nat)
  | in6 (address : Nat) (port : Nat)
  deriving DecidableEq, Repr

/-- Modelled from the spec: the conversion `ip_representation(const struct
sockaddr*)` that `count(addr)` applies; a peer is a full address. -/
def ip_representation.of_sockaddr : sockaddr → ip_representation
  | sockaddr.in4 a b c d _ => ip_representation.of_ipv4 a b c d 32
  | sockaddr.in6 address _ => { address := address % 2 ^ 128, mask_bits := 128 }

/-- The call `s.count(k)` on a `std::set` ordered by `lt`: walk the elements
in order; an element is counted when neither is below the other. -/
def sset_count {K : Type} (lt : K → K → Bool) (k : K) : List K → Nat
  | [] => 0
  | k' :: rest =>
    if lt k' k then sset_count lt k rest
    else if lt k k' then 0
    else 1

/-- The class invariant of a `std::set`: strictly increasing elements. -/
def sset_wf {K : Type} (lt : K → K → Bool) : List K → Bool
  | [] => true
  | k :: rest => rest.all (fun e => lt k e) && sset_wf lt rest

/-- The call `s.find(k)` on a `std::set` ordered by `lt`. -/
def sset_find {K : Type} (lt : K → K → Bool) (k : K) : List K → Option K
  | [] => none
  | k' :: rest =>
    if lt k' k then sset_find lt k rest
    else if lt k k' then none
    else some k'

/-- The call `s.insert(k)` on a `std::set` ordered by `lt`: nothing changes
when an equivalent element is present. -/
def sset_insert {K : Type} (lt : K → K → Bool) (k : K) : List K → List K
  | [] => [k]
  | k' :: rest =>
    if lt k' k then k' :: sset_insert lt k rest
    else if lt k k' then k :: k' :: rest
    else k' :: rest

/-- The call `s.erase(it)` for the iterator `it = s.find(k)`. -/
def sset_erase {K : Type} (lt : K → K → Bool) (k : K) : List K → List K
  | [] => []
  | k' :: rest =>
    if lt k' k then k' :: sset_erase lt k rest
    else if lt k k' then k' :: rest
    else rest

/-! ## Cache types -/

/-- The struct `cache_entry`, lines 198-285, without its locks: the
timestamp `ts`, the validity window and the response pointer. The per-entry
lock only orders concurrent threads and holds no data. -/
structure cache_entry where
  ts : Int
  validity : Int
  response : Option http_response
  deriving DecidableEq, Repr

/-- The constructor `cache_entry(response, ts = -1, validity = -1)`,
lines 240-247. -/
def cache_entry.new (response : Option http_response) (ts : Int) (validity : Int) :
    cache_entry :=
  { ts := ts, validity := validity, response := response }

/-- A `cache_entry*`: the address of a heap-allocated entry. -/
abbrev cache_entry_ptr := Nat

/-! ## The server -/

/-- The enumeration `http_utils::start_method_T` (declared outside the
sources): the two values that the code names and the remaining ones, which it
treats alike. -/
inductive start_method_T
  | INTERNAL_SELECT
  | INTERNAL_REMANAGED
  | other (flags : Nat)
  deriving DecidableEq, Repr

/-- The builder `create_webserver` (declared outside the sources): the
parameters that the constructor at lines 472-510 copies and that the embedded
code reads. -/
structure create_webserver where
  _unescaper_pointer : Option (cstring → cstring)
  _default_policy : policy_T
  _basic_auth_enabled : Bool
  _digest_auth_enabled : Bool
  _regex_checking : Bool
  _ban_system_enabled : Bool
  _post_process_enabled : Bool
  _single_resource : Option http_resource
  _not_found_resource : Option http_resource
  _method_not_allowed_resource : Option http_resource
  _method_not_acceptable_resource : Option http_resource
  _internal_error_resource : Option http_resource
  _start_method : start_method_T
  _max_threads : Int

/-- The class `webserver`: the fields that the embedded code reads or
writes. `unescaper_pointer` is the configured unescaper (its virtual
`unescape` as a function on the buffer). An entry of `response_cache` is the
`cache_entry*` stored in the map together with the entry it points to;
`next_cache_entry` is the address that the next `new cache_entry` returns.
`daemons` and `threads` are the lengths of the vectors of that name. -/
structure webserver where
  unescaper_pointer : Option (cstring → cstring)
  running : Bool
  default_policy : policy_T
  basic_auth_enabled : Bool
  digest_auth_enabled : Bool
  regex_checking : Bool
  ban_system_enabled : Bool
  post_process_enabled : Bool
  single_resource : Bool
  not_found_resource : Option http_resource
  method_not_allowed_resource : Option http_resource
  method_not_acceptable_resource : Option http_resource
  internal_error_resource : Option http_resource
  registered_resources : List (http_endpoint × http_resource)
  bans : List ip_representation
  allowances : List ip_representation
  response_cache : List (cstring × cache_entry_ptr × cache_entry)
  next_cache_entry : cache_entry_ptr
  start_method : start_method_T
  max_threads : Int
  daemons : Nat
  threads : Nat

/-- The function `webserver::register_resource`, lines 993-998. The table
holds the handler as it is after the call. -/
def webserver.register_resource (ws : webserver) (resource : cstring)
    (res : http_resource) (family : Bool) : webserver :=
  { ws with
    registered_resources :=
      smap_assign http_endpoint.lt
        (http_endpoint.make resource family true ws.regex_checking)
        (if ws.method_not_acceptable_resource.isSome then
          res.set_method_not_acceptable_resource ws.method_not_acceptable_resource
         else res)
        ws.registered_resources }

/-- The function `webserver::init`, lines 552-560 (the initialisation of the
mutexes and of the signal handler holds no data). -/
def webserver.init (ws : webserver) (single_resource : Option http_resource) : webserver :=
  match single_resource with
  | some r => ({ ws with single_resource := true }).register_resource [] r false
  | none => { ws with single_resource := false }

/-- The constructor `webserver::webserver(const create_webserver&)`,
lines 472-510. -/
def webserver.create (params : create_webserver) : webserver :=
  webserver.init
    { unescaper_pointer := params._unescaper_pointer
      running := false
      default_policy := params._default_policy
      basic_auth_enabled := params._basic_auth_enabled
      digest_auth_enabled := params._digest_auth_enabled
      regex_checking := params._regex_checking
      ban_system_enabled := params._ban_system_enabled
      post_process_enabled := params._post_process_enabled
      single_resource := false
      not_found_resource := params._not_found_resource
      method_not_allowed_resource := params._method_not_allowed_resource
      method_not_acceptable_resource := params._method_not_acceptable_resource
      internal_error_resource := params._internal_error_resource
      registered_resources := []
      bans := []
      allowances := []
      response_cache := []
      next_cache_entry := 0
      start_method := params._start_method
      max_threads := params._max_threads
      daemons := 0
      threads := 0 }
    params._single_resource

/-! ## Life cycle and delegates -/

/-- The loop of `webserver::start`, lines 909-929, with `n` daemons still to
start. `MHD_start_daemon k` tells whether the library call returns a daemon
(not `NULL`) when the server holds `k` daemons. The result holds the server
and whether every call returned a daemon. -/
def start_daemons (MHD_start_daemon : Nat → Bool) : Nat → webserver → webserver × Bool
  | 0, ws => (ws, true)
  | n + 1, ws =>
    if MHD_start_daemon ws.daemons then
      start_daemons MHD_start_daemon n
        { ws with daemons := ws.daemons + 1, threads := ws.threads + 1 }
    else (ws, false)

/-- How a call of `start` stands: it has returned a value, or the calling
thread waits in `pthread_cond_wait` (line 965). -/
inductive start_outcome
  | returned (value : Bool)
  | waiting
  deriving DecidableEq, Repr

/-- What a call of `start` does: the server when the call returns or begins
to wait, and how the call stands. -/
structure start_result where
  ws : webserver
  outcome : start_outcome

/-- The function `webserver::start`, lines 735-976, built without
`USE_COMET` and without `WITH_PYTHON`: the options and the listening socket
hold no data of the model; lines 903-975 create the daemons, set `running`
and, for a blocking start, enter the wait. -/
def webserver.start (MHD_start_daemon : Nat → Bool) (ws : webserver) (blocking : Bool) :
    start_result :=
  let num_threads : Int := if ws.max_threads > 1 then ws.max_threads else 1
  let created : webserver × Bool :=
    if ws.start_method = start_method_T.INTERNAL_REMANAGED then
      start_daemons MHD_start_daemon num_threads.toNat ws
    else if MHD_start_daemon ws.daemons then ({ ws with daemons := ws.daemons + 1 }, true)
    else (ws, false)
  if created.2 then
    if blocking then
      { ws := { created.1 with running := true }, outcome := start_outcome.waiting }
    else
      { ws := { created.1 with running := true }, outcome := start_outcome.returned false }
  else { ws := created.1, outcome := start_outcome.returned false }

/-- The wait of a blocking `start`, lines 963-975, looked at when the server
is `ws`: `while(blocking && running) pthread_cond_wait(...)`, after which
`start` returns `value_onclose = true`. -/
def webserver.start_wait (ws : webserver) : start_outcome :=
  if ws.running then start_outcome.waiting else start_outcome.returned true

/-- The function `webserver::is_running`, lines 978-981. -/
def webserver.is_running (ws : webserver) : Bool := ws.running

/-- The function `webserver::stop`, lines 983-991: the server afterwards and
the value returned. -/
def webserver.stop (ws : webserver) : webserver × Bool :=
  (if ws.running then { ws with running := false } else ws, true)

/-- The function `webserver::get_unescaper`, lines 1185-1188. -/
def webserver.get_unescaper (ws : webserver) : Option (cstring → cstring) :=
  ws.unescaper_pointer

/-- The function `webserver::set_unescaper`, lines 1190-1195. The parameter
is named `u`; the assignment `this->unescaper_pointer = unescaper_pointer`
names the member on both sides. The flag of the result tells whether the
object that the field points to has been deleted. -/
def webserver.set_unescaper (ws : webserver) (u : Option (cstring → cstring))
    (delete_old : Bool) : webserver × Bool :=
  let _parameter := u
  ({ ws with unescaper_pointer := ws.unescaper_pointer },
    delete_old && ws.unescaper_pointer.isSome)

/-! ## IP policy -/

/-- The expression `set.count(addr)` of `policy_callback`: the peer address
is converted to an `ip_representation` and counted in the set. -/
def ip_count (s : List ip_representation) (addr : sockaddr) : Nat :=
  sset_count ip_representation.lt (ip_representation.of_sockaddr addr) s

/-- The function `policy_callback`, lines 1083-1098. -/
def policy_callback (ws : webserver) (addr : sockaddr) : Int :=
  if ws.ban_system_enabled then
    if (ws.default_policy = policy_T.ACCEPT
          ∧ ip_count ws.bans addr ≠ 0
          ∧ ¬ (ip_count ws.allowances addr ≠ 0))
        ∨ (ws.default_policy = policy_T.REJECT
          ∧ (¬ (ip_count ws.allowances addr ≠ 0) ∨ ip_count ws.bans addr ≠ 0))
    then MHD_NO
    else MHD_YES
  else MHD_YES

/-- The function `webserver::ban_ip`, lines 1005-1016, for the address
`t_ip` that the constructor `ip_representation(ip)` builds from the string. -/
def webserver.ban_ip (ws : webserver) (t_ip : ip_representation) : webserver :=
  match sset_find ip_representation.lt t_ip ws.bans with
  | some it =>
    if t_ip.weight < it.weight then
      { ws with bans := sset_insert ip_representation.lt t_ip
                  (sset_erase ip_representation.lt t_ip ws.bans) }
    else { ws with bans := sset_insert ip_representation.lt t_ip ws.bans }
  | none => { ws with bans := sset_insert ip_representation.lt t_ip ws.bans }

/-- The function `webserver::allow_ip`, lines 1018-1029, for the address
`t_ip` that the constructor `ip_representation(ip)` builds from the string. -/
def webserver.allow_ip (ws : webserver) (t_ip : ip_representation) : webserver :=
  match sset_find ip_representation.lt t_ip ws.allowances with
  | some it =>
    if t_ip.weight < it.weight then
      { ws with allowances := sset_insert ip_representation.lt t_ip
                  (sset_erase ip_representation.lt t_ip ws.allowances) }
    else { ws with allowances := sset_insert ip_representation.lt t_ip ws.allowances }
  | none => { ws with allowances := sset_insert ip_representation.lt t_ip ws.allowances }

/-! ## Response cache -/

/-- What `get_from_cache` hands back: the returned response pointer, the flag
written to `*valid`, and the entry written to `*ce` (`none`: `*ce` is not
written). -/
structure cache_lookup where
  response : Option http_response
  valid : Bool
  ce : Option cache_entry_ptr
  deriving DecidableEq, Repr

/-- The function `webserver::get_from_cache`, lines 1747-1773, at clock value
`now`. The arguments `lock` and `write` only act on the lock of the entry.
Clock values and timestamps are seconds since the epoch, so that the
difference `now.tv_sec - ts` does not overflow a `long`. -/
def webserver.get_from_cache (ws : webserver) (now : Int) (key : cstring) : cache_lookup :=
  match smap_find str_lt key ws.response_cache with
  | some (_, p, e) =>
    { response := e.response
      valid := if e.validity ≠ -1 then (if now - e.ts > e.validity then false else true)
               else true
      ce := some p }
  | none => { response := none, valid := false, ce := none }

/-- The function `webserver::is_valid`, lines 1775-1804, at clock value
`now`. -/
def webserver.is_valid (ws : webserver) (now : Int) (key : cstring) : Bool :=
  match smap_find str_lt key ws.response_cache with
  | some (_, _, e) =>
    if e.validity ≠ -1 then
      if now - e.ts > e.validity then false else true
    else true
  | none => false

/-- What `put_in_cache` hands back: the server afterwards, the returned entry
pointer and the flag written to `*new_elem`. -/
structure cache_put where
  ws : webserver
  to_ret : cache_entry_ptr
  new_elem : Bool

/-- The function `webserver::put_in_cache`, lines 1818-1869, at clock value
`now`. The arguments `lock` and `write` only act on the lock of the entry. -/
def webserver.put_in_cache (ws : webserver) (now : Int) (key : cstring)
    (value : Option http_response) (validity : Int) : cache_put :=
  match smap_find str_lt key ws.response_cache with
  | some (_, p, e) =>
    if validity = -1 then
      let e1 : cache_entry := { e with response := value }
      { ws := { ws with response_cache := smap_assign str_lt key (p, e1) ws.response_cache }
        to_ret := p
        new_elem := false }
    else
      let e1 : cache_entry := { e with response := value, ts := now, validity := validity }
      { ws := { ws with response_cache := smap_assign str_lt key (p, e1) ws.response_cache }
        to_ret := p
        new_elem := false }
  | none =>
    if validity = -1 then
      let res := smap_insert str_lt key
        (ws.next_cache_entry, cache_entry.new value (-1) (-1)) ws.response_cache
      { ws := { ws with response_cache := res.1, next_cache_entry := ws.next_cache_entry + 1 }
        to_ret := res.2.1.2.1
        new_elem := res.2.2 }
    else
      let res := smap_insert str_lt key
        (ws.next_cache_entry, cache_entry.new value now validity) ws.response_cache
      { ws := { ws with response_cache := res.1, next_cache_entry := ws.next_cache_entry + 1 }
        to_ret := res.2.1.2.1
        new_elem := res.2.2 }

/-- The function `webserver::remove_from_cache`, lines 1871-1882. -/
def webserver.remove_from_cache (ws : webserver) (key : cstring) : webserver :=
  match smap_find str_lt key ws.response_cache with
  | some _ => { ws with response_cache := smap_erase str_lt key ws.response_cache }
  | none => ws

/-- The function `webserver::clean_cache`, lines 1884-1889. -/
def webserver.clean_cache (ws : webserver) : webserver :=
  { ws with response_cache := [] }

/-! ## Response cache: lock calls -/

/-- A call on a lock that a cache operation makes: on `cache_guard`, the
reader/writer lock of the cache map, or, through `cache_entry::lock` and
`cache_entry::unlock`, on the lock of the entry at an address. -/
inductive guard_call
  | cache_rdlock
  | cache_wrlock
  | cache_unlock
  | entry_lock (ce : cache_entry_ptr) (write : Bool)
  | entry_unlock (ce : cache_entry_ptr)
  deriving DecidableEq, Repr

/-- The lock calls of `webserver::get_from_cache`, lines 1747-1773, in the
order in which they are made, for the arguments `lock` and `write`. -/
def webserver.get_from_cache_locks (ws : webserver) (key : cstring) (lock write : Bool) :
    List guard_call :=
  match smap_find str_lt key ws.response_cache with
  | some (_, p, _) =>
    [guard_call.cache_rdlock]
      ++ (if lock then [guard_call.entry_lock p write] else [])
      ++ [guard_call.cache_unlock]
  | none => [guard_call.cache_rdlock, guard_call.cache_unlock]

/-- The lock calls of `webserver::put_in_cache`, lines 1818-1869, in the
order in which they are made, for the arguments `lock` and `write`:
`cache_guard` is taken for writing, an entry already in the map is locked for
writing while it is updated and unlocked, the returned entry is locked when
`lock` is set, and `cache_guard` is given back. -/
def webserver.put_in_cache_locks (ws : webserver) (now : Int) (key : cstring)
    (value : Option http_response) (validity : Int) (lock write : Bool) : List guard_call :=
  [guard_call.cache_wrlock]
    ++ (match smap_find str_lt key ws.response_cache with
        | some (_, p, _) => [guard_call.entry_lock p true, guard_call.entry_unlock p]
        | none => [])
    ++ (if lock then
          [guard_call.entry_lock (ws.put_in_cache now key value validity).to_ret write]
        else [])
    ++ [guard_call.cache_unlock]

/-- The lock calls of `webserver::lock_cache_element`, lines 1806-1810, for
the entry pointer `ce` (`none` is the null pointer). -/
def webserver.lock_cache_element_locks (ce : Option cache_entry_ptr) (write : Bool) :
    List guard_call :=
  match ce with
  | some p => [guard_call.entry_lock p write]
  | none => []

/-! ## Request life cycle: collaborators -/

/-- Code outside the sources that the life cycle calls and whose result the
spec does not fix, taken as parameters: the full match of a compiled regex
fragment against a segment (POSIX regex library), `http_utils::standardize_url`,
the fields that `MHD_post_process` emits through `post_iterator` for a chunk
(given the chunks fed before), and `get_ip_str`. -/
structure collaborators where
  regex_full_match : cstring → cstring → Bool
  standardize_url : cstring → cstring
  MHD_post_process : List cstring → cstring → List (cstring × cstring)
  get_ip_str : sockaddr → cstring

/-- The parser's view of a connection (`struct MHD_Connection`): the values
that `MHD_get_connection_values` enumerates for each kind, in order, the
client address, and what the authentication helpers return. -/
structure MHD_Connection where
  id : Nat
  headers : List (cstring × cstring)
  get_arguments : List (cstring × cstring)
  footers : List (cstring × cstring)
  cookies : List (cstring × cstring)
  client_addr : sockaddr
  basic_auth : Option (cstring × cstring)
  digest_user : Option cstring
  queue_result : Int
  deriving DecidableEq, Repr

/-- The struct `details::modded_request`, lines 156-186. `pp` is the
post-processor handle (the chunks fed to it so far), `callback` is `none`
while the member is uninitialised. The back pointer `ws` is the server that
the embedded functions receive as an argument. -/
structure modded_request where
  pp : Option (List cstring)
  complete_uri : Option cstring
  callback : Option render_hook
  dhr : Option http_request
  dhrs : Option http_response
  second : Bool
  deriving DecidableEq, Repr

/-- The function `uri_log`, lines 1100-1106. -/
def uri_log (uri : cstring) : modded_request :=
  { pp := none, complete_uri := some uri, callback := none, dhr := none,
    dhrs := none, second := false }

/-- The part of a `char*` buffer that is its C string: up to the first NUL. -/
def c_str (s : cstring) : cstring := s.takeWhile (fun c => c != Char.ofNat 0)

/-- The function `unescaper_func`, lines 1125-1132, handed to the parser as
its unescape callback: the buffer afterwards and the returned length. -/
def unescaper_func (s : cstring) : cstring × Nat := (s, (c_str s).length)

/-- The value of a hexadecimal digit. -/
def hex_value (c : Char) : Option Nat :=
  if '0'.toNat ≤ c.toNat ∧ c.toNat ≤ '9'.toNat then some (c.toNat - '0'.toNat)
  else if 'a'.toNat ≤ c.toNat ∧ c.toNat ≤ 'f'.toNat then some (c.toNat - 'a'.toNat + 10)
  else if 'A'.toNat ≤ c.toNat ∧ c.toNat ≤ 'F'.toNat then some (c.toNat - 'A'.toNat + 10)
  else none

/-- Modelled from the spec: `http_unescape` of `http_utils` (not among the
sources), the default percent-decoder: `%HH` and `+` are decoded in the
standard way (spec 4.5). -/
def http_unescape : cstring → cstring
  | [] => []
  | c :: [] => [if c = '+' then ' ' else c]
  | c :: h :: [] => (if c = '+' then ' ' else c) :: http_unescape (h :: [])
  | c :: h :: l :: rest =>
    if c = '+' then ' ' :: http_unescape (h :: l :: rest)
    else if c = '%' then
      match hex_value h, hex_value l with
      | some a, some b => Char.ofNat (16 * a + b) :: http_unescape rest
      | _, _ => c :: http_unescape (h :: l :: rest)
    else c :: http_unescape (h :: l :: rest)


/-- The result of `internal_unescaper`: the buffer afterwards and the
returned size. -/
structure unescaped where
  buffer : cstring
  size : Nat
  deriving DecidableEq, Repr

/-- The function `internal_unescaper`, lines 1134-1146, on the C string in
the buffer `s`. -/
def internal_unescaper (ws : webserver) (s : cstring) : unescaped :=
  match ws.unescaper_pointer with
  | some u => { buffer := u (c_str s), size := (c_str (u (c_str s))).length }
  | none => { buffer := http_unescape (c_str s), size := (http_unescape (c_str s)).length }

/-- The call `snprintf(buf, size, "<lead>%s=%s", key, value)`: at most
`size - 1` characters are stored. -/
def snprintf_arg (size : Nat) (lead : Char) (key value : cstring) : cstring :=
  (lead :: (key ++ '=' :: value)).take (size - 1)

/-- The function `webserver::build_request_args`, lines 1062-1081, on the
request `mr->dhr`. -/
def build_request_args (ws : webserver) (dhr : http_request) (kv : cstring × cstring) :
    http_request :=
  let size := kv.1.length + kv.2.length + 3
  let dhr1 : http_request :=
    if dhr.querystring = [] then
      { dhr with querystring := snprintf_arg size '?' kv.1 kv.2 }
    else
      { dhr with querystring := dhr.querystring ++ snprintf_arg size '&' kv.1 kv.2 }
  let u := internal_unescaper ws kv.2
  dhr1.set_arg kv.1 (u.buffer.take u.size)

/-- The function `webserver::build_request_header`, lines 1041-1046. -/
def build_request_header (dhr : http_request) (kv : cstring × cstring) : http_request :=
  dhr.set_header kv.1 kv.2

/-- The function `webserver::build_request_footer`, lines 1055-1060. -/
def build_request_footer (dhr : http_request) (kv : cstring × cstring) : http_request :=
  dhr.set_footer kv.1 kv.2

/-- The function `webserver::build_request_cookie`, lines 1048-1053. -/
def build_request_cookie (dhr : http_request) (kv : cstring × cstring) : http_request :=
  dhr.set_cookie kv.1 kv.2

/-- The function `webserver::post_iterator`, lines 1148-1159, for one field
`(key, data)` with `size` the length of `data`. -/
def post_iterator (dhr : http_request) (kv : cstring × cstring) : http_request :=
  dhr.set_arg kv.1 (kv.2.take kv.2.length)

/-- The port of a socket address (`get_port`). -/
def sockaddr.port : sockaddr → Nat
  | sockaddr.in4 _ _ _ _ p => p
  | sockaddr.in6 _ p => p

/-- The function `webserver::end_request_construction`, lines 1309-1341, on
the request `mr->dhr`. -/
def end_request_construction (env : collaborators) (ws : webserver)
    (connection : MHD_Connection) (dhr : http_request) (version st_url method : cstring) :
    http_request :=
  let r1 := connection.get_arguments.foldl (build_request_args ws) dhr
  let r2 := connection.headers.foldl build_request_header r1
  let r3 := connection.footers.foldl build_request_footer r2
  let r4 := connection.cookies.foldl build_request_cookie r3
  let r5 : http_request := { r4 with path := st_url }
  let r6 : http_request := { r5 with method := method }
  let r7 : http_request := { r6 with version := version }
  let r8 : http_request := { r7 with requestor := env.get_ip_str connection.client_addr }
  let r9 : http_request := { r8 with requestor_port := connection.client_addr.port }
  let r10 : http_request :=
    match ws.basic_auth_enabled, connection.basic_auth with
    | true, some (user, pass) => { r9 with pass := pass, user := user }
    | _, _ => r9
  match ws.digest_auth_enabled, connection.digest_user with
  | true, some digested_user => { r10 with digested_user := digested_user }
  | _, _ => r10

/-! ## Request life cycle: route resolution -/

/-- The local variables of the scan loop of `finalize_answer`,
lines 1358-1375. `found_endpoint` is `none` while the iterator is not set. -/
structure scan_state where
  found : Bool
  len : Int
  tot_len : Int
  found_endpoint : Option (http_endpoint × http_resource)

/-- One iteration of the scan loop, lines 1362-1374, at the entry `it`. The
piece count and the size of a pattern are far below `2^31`, so their
conversion to `int` is exact. -/
def scan_step (env : collaborators) (endpoint : http_endpoint) (st : scan_state)
    (it : http_endpoint × http_resource) : scan_state :=
  let endpoint_pieces_len : Int := it.1.get_url_pieces_num
  let endpoint_tot_len : Int := it.1.get_url_complete_size
  if st.tot_len = -1 ∨ st.len = -1 ∨ endpoint_pieces_len > st.len
      ∨ (endpoint_pieces_len = st.len ∧ endpoint_tot_len > st.tot_len) then
    if it.1.matches env.regex_full_match endpoint then
      { found := true, len := endpoint_pieces_len, tot_len := endpoint_tot_len,
        found_endpoint := some it }
    else st
  else st

/-- The scan loop of `finalize_answer`, lines 1358-1375, over the route table
in iteration order. -/
def scan_resources (env : collaborators) (endpoint : http_endpoint)
    (table : List (http_endpoint × http_resource)) : scan_state :=
  table.foldl (scan_step env endpoint)
    { found := false, len := -1, tot_len := -1, found_endpoint := none }

/-- The capture loop of `finalize_answer`, lines 1384-1387:
`set_arg(url_pars[i], url_pieces[chunkes[i]])` for `i` from the given index,
`n` times. The result is `none` when an index is out of range. -/
def capture_loop (url_pars url_pieces : List cstring) (chunkes : List Nat) :
    Nat → Nat → http_request → Option http_request
  | 0, _, r => some r
  | n + 1, i, r =>
    match url_pars[i]?, chunkes[i]? with
    | some name, some pos =>
      match url_pieces[pos]? with
      | some value => capture_loop url_pars url_pieces chunkes n (i + 1) (r.set_arg name value)
      | none => none
    | _, _ => none

/-- The outcome of the route resolution of `finalize_answer`: the flag
`found`, the iterator `found_endpoint` (`none`: not dereferenceable) and the
request (`none`: an out-of-range read happened). -/
structure resolution where
  found : Bool
  found_endpoint : Option (http_endpoint × http_resource)
  dhr : Option http_request

/-- The route resolution of `webserver::finalize_answer`, lines 1350-1398,
for the request `dhr`. -/
def webserver.route_resolution (env : collaborators) (ws : webserver) (st_url : cstring)
    (dhr : http_request) : resolution :=
  if !ws.single_resource then
    let endpoint := http_endpoint.make st_url false false ws.regex_checking
    match smap_find http_endpoint.lt endpoint ws.registered_resources with
    | none =>
      if ws.regex_checking then
        let sc := scan_resources env endpoint ws.registered_resources
        if sc.found then
          match sc.found_endpoint with
          | some fe =>
            { found := true, found_endpoint := some fe,
              dhr := capture_loop fe.1.get_url_pars endpoint.get_url_pieces
                fe.1.get_chunk_positions fe.1.get_url_pars.length 0 dhr }
          | none => { found := true, found_endpoint := none, dhr := none }
        else { found := false, found_endpoint := none, dhr := some dhr }
      else { found := false, found_endpoint := none, dhr := some dhr }
    | some fe => { found := true, found_endpoint := some fe, dhr := some dhr }
  else
    { found := true, found_endpoint := ws.registered_resources.head?, dhr := some dhr }

/-! ## Request life cycle: dispatch and rendering -/

/-- The places of `webserver.cpp` that call a handler hook: the matched
route (line 1419) and the three override pages. -/
inductive hook_site
  | route
  | not_found
  | method_not_allowed
  | internal_error
  deriving DecidableEq, Repr

/-- One call of a hook: where from, which hook, with which request. -/
structure hook_call where
  site : hook_site
  hook : render_hook
  request : http_request
  deriving DecidableEq, Repr

/-- The state that the try blocks of `finalize_answer` work on: the hook
calls made so far, the slot `dhrs`, the exception in flight, and whether
undefined behaviour (a null or out-of-range access) has occurred. -/
structure answer_state where
  calls : List hook_call
  dhrs : Option http_response
  thrown : Option exception_kind
  undefined : Bool
  deriving DecidableEq, Repr

/-- The call `(resource->*(mr->callback))(*mr->dhr, &dhrs)`. -/
def call_hook (site : hook_site) (res : http_resource) (callback : Option render_hook)
    (dhr : http_request) (st : answer_state) : answer_state :=
  if st.undefined then st
  else
    match callback with
    | none => { st with undefined := true }
    | some cb =>
      { calls := st.calls ++ [{ site := site, hook := cb, request := dhr }]
        dhrs := match (res.render cb dhr).written with
                | some w => some w
                | none => st.dhrs
        thrown := (res.render cb dhr).thrown
        undefined := false }

/-- The function `webserver::not_found_page`, lines 1202-1208. -/
def webserver.not_found_page (ws : webserver) (callback : Option render_hook)
    (dhr : http_request) (st : answer_state) : answer_state :=
  match ws.not_found_resource with
  | some r => call_hook hook_site.not_found r callback dhr st
  | none =>
    { st with dhrs := some (http_string_response static_body.NOT_FOUND_ERROR http_not_found) }

/-- The function `webserver::method_not_allowed_page`, lines 1230-1236. -/
def webserver.method_not_allowed_page (ws : webserver) (callback : Option render_hook)
    (dhr : http_request) (st : answer_state) : answer_state :=
  match ws.method_not_allowed_resource with
  | some r => call_hook hook_site.method_not_allowed r callback dhr st
  | none =>
    { st with
      dhrs := some (http_string_response static_body.METHOD_ERROR http_method_not_allowed) }

/-- The function `webserver::internal_error_page`, lines 1238-1244. -/
def webserver.internal_error_page (ws : webserver) (callback : Option render_hook)
    (dhr : http_request) (force_our : Bool) (st : answer_state) : answer_state :=
  match ws.internal_error_resource, force_our with
  | some r, false => call_hook hook_site.internal_error r callback dhr st
  | _, _ =>
    { st with
      dhrs := some (http_string_response static_body.GENERIC_ERROR http_internal_server_error) }

/-- The dispatch block of `webserver::finalize_answer`, lines 1414-1437. An
exception of the try block is handled by `internal_error_page`; `thrown` of
the result is an exception that leaves the block. -/
def webserver.dispatch (ws : webserver) (rr : resolution) (callback : Option render_hook)
    (method : cstring) (dhr : http_request) : answer_state :=
  let st0 : answer_state := { calls := [], dhrs := none, thrown := none, undefined := false }
  if rr.found then
    match rr.found_endpoint with
    | none => { st0 with undefined := true }
    | some fe =>
      let st1 :=
        if fe.2.is_allowed method then call_hook hook_site.route fe.2 callback dhr st0
        else ws.method_not_allowed_page callback dhr st0
      match st1.thrown with
      | some _ => ws.internal_error_page callback dhr false { st1 with thrown := none }
      | none => st1
  else ws.not_found_page callback dhr st0

/-- The call `dhrs->get_raw_response(&raw_response, this)`, not made when an
exception is in flight. -/
def get_raw_response (st : answer_state) : answer_state :=
  if st.undefined || st.thrown.isSome then st
  else
    match st.dhrs with
    | none => { st with undefined := true }
    | some r => { st with thrown := r.raw_failure }

/-- The catch clauses of the inner try block of the rendering,
lines 1452-1466, for the exception `e` of the first `get_raw_response`: the
replacement page and the second `get_raw_response`. -/
def webserver.render_handlers (ws : webserver) (callback : Option render_hook)
    (dhr : http_request) (e : exception_kind) (st : answer_state) : answer_state :=
  match e with
  | exception_kind.file_access => get_raw_response (ws.not_found_page callback dhr st)
  | exception_kind.std_exception =>
    get_raw_response (ws.internal_error_page callback dhr false st)
  | exception_kind.other => get_raw_response (ws.internal_error_page callback dhr false st)

/-- The last catch clause of the rendering, lines 1468-1472, entered when a
handler of the inner block throws. -/
def webserver.render_last_resort (ws : webserver) (callback : Option render_hook)
    (dhr : http_request) (st : answer_state) : answer_state :=
  match st.thrown with
  | none => st
  | some _ =>
    get_raw_response (ws.internal_error_page callback dhr true { st with thrown := none })

/-- The rendering block of `webserver::finalize_answer`, lines 1446-1472. -/
def webserver.render_response (ws : webserver) (callback : Option render_hook)
    (dhr : http_request) (st : answer_state) : answer_state :=
  match (get_raw_response st).thrown with
  | none => get_raw_response st
  | some e =>
    ws.render_last_resort callback dhr
      (ws.render_handlers callback dhr e { get_raw_response st with thrown := none })

/-- How a call ends: it returns a value, an exception leaves it, or its
behaviour is undefined. -/
inductive completion
  | returned (ret : Int)
  | threw (e : exception_kind)
  | undefined
  deriving DecidableEq, Repr

/-- The call `mr->dhr->set_underlying_connection(connection)`, line 1399. -/
def http_request.on_connection (r : http_request) (connection : MHD_Connection) :
    http_request :=
  { r with underlying_connection := some connection.id }

/-- The assignment `mr->dhrs->underlying_connection = connection`,
line 1445. -/
def http_response.on_connection (r : http_response) (connection : MHD_Connection) :
    http_response :=
  { r with underlying_connection := some connection.id }

/-- What a call of `finalize_answer` or `complete_request` does: how it ends,
the per-request state afterwards, the hook calls it made and the response it
enqueued. -/
structure finalize_result where
  outcome : completion
  mr : modded_request
  calls : List hook_call
  queued : Option http_response
  deriving DecidableEq, Repr

/-- The function `webserver::finalize_answer`, lines 1343-1477. -/
def webserver.finalize_answer (env : collaborators) (ws : webserver)
    (connection : MHD_Connection) (mr : modded_request) (st_url method : cstring) :
    finalize_result :=
  match mr.dhr with
  | none => { outcome := completion.undefined, mr := mr, calls := [], queued := none }
  | some dhr0 =>
    let rr := ws.route_resolution env st_url dhr0
    match rr.dhr with
    | none => { outcome := completion.undefined, mr := mr, calls := [], queued := none }
    | some dhr1 =>
      let dhr : http_request := dhr1.on_connection connection
      let mr1 : modded_request := { mr with dhr := some dhr }
      let st1 := ws.dispatch rr mr.callback method dhr
      if st1.undefined then
        { outcome := completion.undefined, mr := mr1, calls := st1.calls, queued := none }
      else
        match st1.thrown, st1.dhrs with
        | some e, _ =>
          { outcome := completion.threw e, mr := mr1, calls := st1.calls, queued := none }
        | none, none =>
          { outcome := completion.undefined, mr := mr1, calls := st1.calls, queued := none }
        | none, some r =>
          let r1 : http_response := r.on_connection connection
          let mr2 : modded_request := { mr1 with dhrs := some r1 }
          let st2 := ws.render_response mr.callback dhr { st1 with dhrs := some r1 }
          if st2.undefined then
            { outcome := completion.undefined, mr := mr2, calls := st2.calls, queued := none }
          else
            match st2.thrown, st2.dhrs with
            | some e, _ =>
              { outcome := completion.threw e, mr := mr2, calls := st2.calls, queued := none }
            | none, none =>
              { outcome := completion.undefined, mr := mr2, calls := st2.calls,
                queued := none }
            | none, some q =>
              { outcome := completion.returned q.enqueue_result, mr := mr2,
                calls := st2.calls, queued := some q }

/-- The function `webserver::complete_request`, lines 1479-1497. -/
def webserver.complete_request (env : collaborators) (ws : webserver)
    (connection : MHD_Connection) (mr : modded_request) (version st_url method : cstring) :
    finalize_result :=
  match mr.dhr with
  | none => { outcome := completion.undefined, mr := mr, calls := [], queued := none }
  | some dhr =>
    ws.finalize_answer env connection
      { mr with dhr := some (end_request_construction env ws connection dhr version st_url
                              method) }
      st_url method

/-! ## Request life cycle: the answer callback -/

/-- What a call of the answer callback does: the result of the request
pipeline, the URL buffer afterwards (it is unescaped in place) and the value
left in `*upload_data_size`. -/
structure answer_result where
  outcome : completion
  mr : modded_request
  calls : List hook_call
  queued : Option http_response
  url : cstring
  upload_data_size : Nat
  deriving DecidableEq, Repr

/-- The function `webserver::method_not_acceptable_page`, lines 1210-1228:
the static 406 body is queued on the connection. -/
def webserver.method_not_acceptable_page (connection : MHD_Connection)
    (mr : modded_request) (url : cstring) (upload_data_size : Nat) : answer_result :=
  { outcome := completion.returned connection.queue_result, mr := mr, calls := []
    queued := some (http_string_response static_body.NOT_METHOD_ERROR
      http_method_not_acceptable)
    url := url, upload_data_size := upload_data_size }

/-- The function `webserver::bodyless_requests_answer`, lines 1246-1258. -/
def webserver.bodyless_requests_answer (env : collaborators) (ws : webserver)
    (connection : MHD_Connection) (url method version : cstring) (upload_data_size : Nat)
    (mr : modded_request) : answer_result :=
  let u := internal_unescaper ws url
  let st_url := env.standardize_url (c_str u.buffer)
  let r := ws.complete_request env connection { mr with dhr := some http_request.new }
    version (c_str st_url) method
  { outcome := r.outcome, mr := r.mr, calls := r.calls, queued := r.queued
    url := u.buffer, upload_data_size := upload_data_size }

/-- The constant `http_utils::http_header_content_type`. -/
def http_header_content_type : cstring := "Content-Type".toList

/-- The constant `MHD_HTTP_POST_ENCODING_FORM_URLENCODED`. -/
def MHD_HTTP_POST_ENCODING_FORM_URLENCODED : cstring :=
  "application/x-www-form-urlencoded".toList

/-- The function `tolower` on ASCII. -/
def ascii_tolower (c : Char) : Char :=
  if 'A'.toNat ≤ c.toNat ∧ c.toNat ≤ 'Z'.toNat then Char.ofNat (c.toNat + 32) else c

/-- The test `0 == strncasecmp(a, b, n)`. -/
def strncasecmp_eq (a b : cstring) (n : Nat) : Bool :=
  (a.take n).map ascii_tolower == (b.take n).map ascii_tolower

/-- The call `MHD_lookup_connection_value(connection, MHD_HEADER_KIND, key)`:
the value of the first header of that name, names compared without case. -/
def MHD_lookup_connection_value (connection : MHD_Connection) (key : cstring) :
    Option cstring :=
  (connection.headers.find?
    (fun kv => kv.1.map ascii_tolower == key.map ascii_tolower)).map (fun kv => kv.2)

/-- The function `webserver::bodyfull_requests_answer_first_step`,
lines 1260-1281. -/
def webserver.bodyfull_requests_answer_first_step (ws : webserver)
    (connection : MHD_Connection) (url : cstring) (upload_data_size : Nat)
    (mr : modded_request) : answer_result :=
  let encoding := MHD_lookup_connection_value connection http_header_content_type
  let dhr : http_request :=
    match encoding with
    | some e => http_request.new.set_header http_header_content_type e
    | none => http_request.new
  let pp : Option (List cstring) :=
    match encoding with
    | some e =>
      if ws.post_process_enabled
          && strncasecmp_eq MHD_HTTP_POST_ENCODING_FORM_URLENCODED e
               MHD_HTTP_POST_ENCODING_FORM_URLENCODED.length
      then some [] else none
    | none => none
  { outcome := completion.returned MHD_YES
    mr := { mr with second := true, dhr := some dhr, pp := pp }
    calls := [], queued := none, url := url, upload_data_size := upload_data_size }

/-- The function `webserver::bodyfull_requests_answer_second_step`,
lines 1283-1307. -/
def webserver.bodyfull_requests_answer_second_step (env : collaborators) (ws : webserver)
    (connection : MHD_Connection) (url method version upload_data : cstring)
    (upload_data_size : Nat) (mr : modded_request) : answer_result :=
  let u := internal_unescaper ws url
  let st_url := env.standardize_url (c_str u.buffer)
  if 0 ≠ upload_data_size then
    match mr.dhr with
    | none =>
      { outcome := completion.undefined, mr := mr, calls := [], queued := none,
        url := u.buffer, upload_data_size := upload_data_size }
    | some dhr =>
      let dhr1 := dhr.grow_content upload_data upload_data_size
      let chunk := upload_data.take upload_data_size
      let mr1 : modded_request :=
        match mr.pp with
        | some fed =>
          { mr with dhr := some ((env.MHD_post_process fed chunk).foldl post_iterator dhr1)
                    pp := some (fed ++ [chunk]) }
        | none => { mr with dhr := some dhr1 }
      { outcome := completion.returned MHD_YES, mr := mr1, calls := [], queued := none,
        url := u.buffer, upload_data_size := 0 }
  else
    let r := ws.complete_request env connection mr version (c_str st_url) method
    { outcome := r.outcome, mr := r.mr, calls := r.calls, queued := r.queued
      url := u.buffer, upload_data_size := upload_data_size }

/-- The method names `http_utils::http_method_get` and the others. -/
def http_method_get : cstring := "GET".toList

/-- See `http_method_get`. -/
def http_method_post : cstring := "POST".toList

/-- See `http_method_get`. -/
def http_method_put : cstring := "PUT".toList

/-- See `http_method_get`. -/
def http_method_delete : cstring := "DELETE".toList

/-- See `http_method_get`. -/
def http_method_head : cstring := "HEAD".toList

/-- See `http_method_get`. -/
def http_method_connect : cstring := "CONNECT".toList

/-- See `http_method_get`. -/
def http_method_trace : cstring := "TRACE".toList

/-- The function `webserver::answer_to_connection`, lines 1499-1557, with
`con_cls` the per-request state that `*con_cls` points to. The access log has
no effect on the state. -/
def webserver.answer_to_connection (env : collaborators) (ws : webserver)
    (connection : MHD_Connection) (url method version upload_data : cstring)
    (upload_data_size : Nat) (con_cls : Option modded_request) : answer_result :=
  match con_cls with
  | none =>
    { outcome := completion.undefined, mr := uri_log [], calls := [], queued := none,
      url := url, upload_data_size := upload_data_size }
  | some mr =>
    if mr.second = false then
      if mr.complete_uri.isNone then
        { outcome := completion.undefined, mr := mr, calls := [], queued := none,
          url := url, upload_data_size := upload_data_size }
      else if method = http_method_get then
        ws.bodyless_requests_answer env connection url method version upload_data_size
          { mr with callback := some render_hook.render_GET }
      else if method = http_method_post then
        ws.bodyfull_requests_answer_first_step connection url upload_data_size
          { mr with callback := some render_hook.render_POST }
      else if method = http_method_put then
        ws.bodyfull_requests_answer_first_step connection url upload_data_size
          { mr with callback := some render_hook.render_PUT }
      else if method = http_method_delete then
        ws.bodyless_requests_answer env connection url method version upload_data_size
          { mr with callback := some render_hook.render_DELETE }
      else if method = http_method_head then
        ws.bodyless_requests_answer env connection url method version upload_data_size
          { mr with callback := some render_hook.render_HEAD }
      else if method = http_method_connect then
        ws.bodyless_requests_answer env connection url method version upload_data_size
          { mr with callback := some render_hook.render_CONNECT }
      else if method = http_method_trace then
        ws.bodyless_requests_answer env connection url method version upload_data_size
          { mr with callback := some render_hook.render_TRACE }
      else if ws.method_not_acceptable_resource.isSome then
        ws.bodyless_requests_answer env connection url method version upload_data_size
          { mr with callback := some render_hook.render_not_acceptable }
      else
        webserver.method_not_acceptable_page connection mr url upload_data_size
    else
      ws.bodyfull_requests_answer_second_step env connection url method version upload_data
        upload_data_size mr

/-- The parser's side of the answer callback for one request (spec 6.1): it
calls `answer_to_connection` once for each element of `uploads` (the
upload data of that call, empty for a call with `upload_data_size = 0`),
passing on the per-request state and the URL buffer, and stops after a call
that does not return `MHD_YES`. The result lists what each call did. -/
def deliver (env : collaborators) (ws : webserver) (connection : MHD_Connection)
    (method version : cstring) : List cstring → cstring → modded_request → List answer_result
  | [], _, _ => []
  | upload :: rest, url, mr =>
    let r := ws.answer_to_connection env connection url method version upload upload.length
      (some mr)
    if r.outcome = completion.returned MHD_YES then
      r :: deliver env ws connection method version rest r.url r.mr
    else [r]

/-! ## Request completion -/

/-- What one call of `request_completed` does: the completion actions run
(`do_action`, by the identifier of the action), whether the per-request state
is deleted, and whether the call reads through a null pointer. -/
structure completed_result where
  actions : List Nat
  deleted : Bool
  undefined : Bool
  deriving DecidableEq, Repr

/-- The function `webserver::request_completed`, lines 594-603, for the
per-request state that `*con_cls` holds (`none` is the null pointer). The
block is entered when `0x0 == mr`, and its first expression reads
`mr->dhrs`. -/
def request_completed (con_cls : Option modded_request) : completed_result :=
  match con_cls with
  | none => { actions := [], deleted := false, undefined := true }
  | some _ => { actions := [], deleted := false, undefined := false }

/-! ## Per-entry lock -/

/-- A thread identifier (`pthread_t`). -/
abbrev pthread_t := Nat

/-- The struct `pthread_t_comparator`, lines 190-196, the comparison object
of the set `lockers`: it returns `pthread_equal(t1, t2)`, which is nonzero
exactly when the two identifiers name the same thread. -/
def pthread_t_comparator (t1 t2 : pthread_t) : Bool := t1 == t2

/-- The call `s.erase(k)` on a `std::set` ordered by `lt`: the elements from
the lower bound of `k` (the first that is not below `k`) up to its upper
bound (the first that `k` is below) are removed. -/
def sset_erase_key {K : Type} (lt : K → K → Bool) (k : K) : List K → List K
  | [] => []
  | k' :: rest =>
    if lt k' k then k' :: sset_erase_key lt k rest
    else (k' :: rest).dropWhile (fun e => !lt k e)

/-- A POSIX reader/writer lock (`pthread_rwlock_t`): the threads that hold it
for reading, once for each read lock held, and the thread that holds it for
writing. -/
structure pthread_rwlock_t where
  readers : List pthread_t
  writer : Option pthread_t
  deriving DecidableEq, Repr

/-- The call `pthread_rwlock_rdlock` by the thread `t`: the lock is granted
when no thread holds it for writing; `none` when the caller has to wait. -/
def pthread_rwlock_rdlock (l : pthread_rwlock_t) (t : pthread_t) : Option pthread_rwlock_t :=
  if l.writer.isNone then some { l with readers := t :: l.readers } else none

/-- The call `pthread_rwlock_wrlock` by the thread `t`: the lock is granted
when no thread holds it; `none` when the caller has to wait. -/
def pthread_rwlock_wrlock (l : pthread_rwlock_t) (t : pthread_t) : Option pthread_rwlock_t :=
  if l.writer.isNone && l.readers.isEmpty then some { l with writer := some t } else none

/-- The call `pthread_rwlock_unlock` by the thread `t`: a write lock is given
up, otherwise one read lock. -/
def pthread_rwlock_unlock (l : pthread_rwlock_t) (t : pthread_t) : pthread_rwlock_t :=
  if l.writer.isSome then { l with writer := none }
  else { l with readers := l.readers.erase t }

/-- The locking members of the struct `cache_entry`, lines 203-205:
`elem_guard` and `lockers`. The mutex `lock_guard` is taken and given back
within each call of `lock` and `unlock`. -/
structure entry_guard where
  elem_guard : pthread_rwlock_t
  lockers : List pthread_t
  deriving DecidableEq, Repr

/-- The state that the constructors of `cache_entry` leave (lines 207-213
and 240-247): a free lock and no recorded thread. -/
def entry_guard.init : entry_guard :=
  { elem_guard := { readers := [], writer := none }, lockers := [] }

/-- A call that `lock` or `unlock` makes on `elem_guard`. -/
inductive rwlock_call
  | rdlock (t : pthread_t)
  | wrlock (t : pthread_t)
  | unlock (t : pthread_t)
  deriving DecidableEq, Repr

/-- How a call of `lock` or `unlock` stands: it has returned, or the calling
thread waits inside `pthread_rwlock_rdlock` or `pthread_rwlock_wrlock`. -/
inductive call_status
  | returned
  | blocked
  deriving DecidableEq, Repr

/-- What calls of `lock` and `unlock` do: the locking members afterwards, how
the last call stands, and the calls made on `elem_guard`. -/
structure lock_result where
  entry : entry_guard
  status : call_status
  calls : List rwlock_call
  deriving DecidableEq, Repr

/-- The function `cache_entry::lock`, lines 249-270, called by the thread
`tid` (`pthread_self()`). -/
def cache_entry.lock (e : entry_guard) (tid : pthread_t) (write : Bool) : lock_result :=
  if sset_count pthread_t_comparator tid e.lockers = 0 then
    if write then
      match pthread_rwlock_wrlock e.elem_guard tid with
      | some g =>
        { entry := { elem_guard := g
                     lockers := sset_insert pthread_t_comparator tid e.lockers }
          status := call_status.returned, calls := [rwlock_call.wrlock tid] }
      | none =>
        { entry := { e with lockers := sset_insert pthread_t_comparator tid e.lockers }
          status := call_status.blocked, calls := [rwlock_call.wrlock tid] }
    else
      match pthread_rwlock_rdlock e.elem_guard tid with
      | some g =>
        { entry := { elem_guard := g
                     lockers := sset_insert pthread_t_comparator tid e.lockers }
          status := call_status.returned, calls := [rwlock_call.rdlock tid] }
      | none =>
        { entry := { e with lockers := sset_insert pthread_t_comparator tid e.lockers }
          status := call_status.blocked, calls := [rwlock_call.rdlock tid] }
  else { entry := e, status := call_status.returned, calls := [] }

/-- The function `cache_entry::unlock`, lines 272-284, called by the thread
`tid`. -/
def cache_entry.unlock (e : entry_guard) (tid : pthread_t) : lock_result :=
  if sset_count pthread_t_comparator tid e.lockers ≠ 0 then
    { entry := { elem_guard := pthread_rwlock_unlock e.elem_guard tid
                 lockers := sset_erase_key pthread_t_comparator tid e.lockers }
      status := call_status.returned, calls := [rwlock_call.unlock tid] }
  else { entry := e, status := call_status.returned, calls := [] }

/-! ## Vocabulary of the statements -/

/-- A strict weak ordering, as `std::map` and `std::set` require of their
comparison. -/
structure strict_weak {K : Type} (lt : K → K → Bool) : Prop where
  irrefl : ∀ a, lt a a = false
  trans : ∀ a b c, lt a b = true → lt b c = true → lt a c = true
  incomp : ∀ a b c, lt a b = false → lt b a = false → lt b c = false → lt c b = false →
    lt a c = false ∧ lt c a = false

/-- The pair `(piece_count, total_size)` of `x` is at most that of `e` in the
lexicographic order. -/
def specificity_le (x e : http_endpoint) : Prop :=
  x.get_url_pieces_num < e.get_url_pieces_num
    ∨ (x.get_url_pieces_num = e.get_url_pieces_num
        ∧ x.get_url_complete_size ≤ e.get_url_complete_size)

/-- The pair `(piece_count, total_size)` of `x` is below that of `e` in the
lexicographic order. -/
def specificity_lt (x e : http_endpoint) : Prop :=
  x.get_url_pieces_num < e.get_url_pieces_num
    ∨ (x.get_url_pieces_num = e.get_url_pieces_num
        ∧ x.get_url_complete_size < e.get_url_complete_size)

/-- The loop invariant of the scan after the entries `pre`: either nothing
matched so far and the locals are as initialised, or the locals describe an
entry `e` of `pre` that matches, every matching entry before `e` is strictly
less specific and every matching entry after it is at most as specific. -/
def scan_inv (env : collaborators) (endpoint : http_endpoint)
    (pre : List (http_endpoint × http_resource)) (st : scan_state) : Prop :=
  (st.found = false ∧ st.len = -1 ∧ st.tot_len = -1 ∧ st.found_endpoint = none
      ∧ ∀ x ∈ pre, x.1.matches env.regex_full_match endpoint = false)
  ∨ (st.found = true ∧ ∃ l1 e l2, pre = l1 ++ e :: l2 ∧ st.found_endpoint = some e
      ∧ e.1.matches env.regex_full_match endpoint = true
      ∧ st.len = (e.1.get_url_pieces_num : Int)
      ∧ st.tot_len = (e.1.get_url_complete_size : Int)
      ∧ (∀ x ∈ l1, x.1.matches env.regex_full_match endpoint = true → specificity_lt x.1 e.1)
      ∧ (∀ x ∈ l2, x.1.matches env.regex_full_match endpoint = true → specificity_le x.1 e.1))

/-- The parameter segments of a piece list, each with its name and its
segment position; positions are counted from `i`. -/
def params_from : Nat → List url_piece → List (cstring × Nat)
  | _, [] => []
  | i, p :: ps =>
    if p.kind = segment_kind.parameter then
      (parameter_name p.text, i) :: params_from (i + 1) ps
    else params_from (i + 1) ps

/-- The writes of the capture loop: for each listed parameter, in order,
`set_arg(name, url_pieces[position])`. -/
def capture_writes (url_pieces : List cstring) (r : http_request)
    (l : List (cstring × Nat)) : http_request :=
  l.foldl (fun acc x => acc.set_arg x.1 (url_pieces.getD x.2 [])) r

/-- An entry of a ban or allowance set covers an address: the two are
equivalent in the order of the set, that is, they agree on the bits that are
significant in both. -/
def ip_representation.covers (e a : ip_representation) : Bool :=
  !(e.lt a) && !(a.lt e)

/-- A set covers the peer: one of its entries covers the peer address. -/
def covered (s : List ip_representation) (addr : sockaddr) : Prop :=
  ∃ e ∈ s, e.covers (ip_representation.of_sockaddr addr) = true

/-- A call of the cache interface that changes the cache: a put at a clock
value or a remove. -/
inductive cache_op
  | put (now : Int) (key : cstring) (value : Option http_response) (validity : Int)
  | remove (key : cstring)

/-- The key that a cache operation works on. -/
def cache_op.key : cache_op → cstring
  | cache_op.put _ key _ _ => key
  | cache_op.remove key => key

/-- The hook calls of a list that were made for the matched route
(line 1419). -/
def route_calls (l : List hook_call) : List hook_call :=
  l.filter (fun c => c.site = hook_site.route)

/-- The state `st2` has the hook calls of `st1` followed by calls that are
not made for the matched route and that pass the request `dhr`. -/
def extends_calls (dhr : http_request) (st1 st2 : answer_state) : Prop :=
  ∃ extra, st2.calls = st1.calls ++ extra
    ∧ ∀ c ∈ extra, c.site ≠ hook_site.route ∧ c.request = dhr

/-- Every hook call of the list passes the request `dhr`. -/
def calls_on (dhr : http_request) (l : List hook_call) : Prop :=
  ∀ c ∈ l, c.request = dhr

/-- The hook that `answer_to_connection` selects for a body-bearing
method. -/
def body_hook (method : cstring) : render_hook :=
  if method = http_method_post then render_hook.render_POST else render_hook.render_PUT

/-- A call on the lock of an entry: `lock(write)` or `unlock()`. -/
inductive entry_op
  | lock (write : Bool)
  | unlock
  deriving DecidableEq, Repr

/-- One call by the thread `tid` on the locking members `e`. -/
def entry_op.run (e : entry_guard) (tid : pthread_t) : entry_op → lock_result
  | entry_op.lock write => cache_entry.lock e tid write
  | entry_op.unlock => cache_entry.unlock e tid

/-- A sequence of calls, each by the thread named with it, executed one after
the other from the state `r`; the run ends at a call that blocks. The result
collects the calls made on `elem_guard`. -/
def run_entry_ops : List (pthread_t × entry_op) → lock_result → lock_result
  | [], r => r
  | (tid, op) :: rest, r =>
    match r.status with
    | call_status.blocked => r
    | call_status.returned =>
      run_entry_ops rest
        { entry := (op.run r.entry tid).entry
          status := (op.run r.entry tid).status
          calls := r.calls ++ (op.run r.entry tid).calls }

/-- The start of a run on the entry `e`. -/
def entry_run (e : entry_guard) : lock_result :=
  { entry := e, status := call_status.returned, calls := [] }

/-- The number of daemons that `start` is to create (lines 903-952):
`max(1, max_threads)` for the start method `INTERNAL_REMANAGED`, one
otherwise. -/
def daemons_wanted (ws : webserver) : Nat :=
  if ws.start_method = start_method_T.INTERNAL_REMANAGED then
    (if ws.max_threads > 1 then ws.max_threads else 1).toNat
  else 1

/-- The set that `ban_ip` and `allow_ip` leave in place of the set `s`
(lines 1008-1015 and 1021-1028). -/
def ip_set_add (t_ip : ip_representation) (s : List ip_representation) :
    List ip_representation :=
  match sset_find ip_representation.lt t_ip s with
  | some it =>
    if t_ip.weight < it.weight then
      sset_insert ip_representation.lt t_ip (sset_erase ip_representation.lt t_ip s)
    else sset_insert ip_representation.lt t_ip s
  | none => sset_insert ip_representation.lt t_ip s

/-- What adding the address `t` does to a ban or allowance set, `s` before
and `s'` after: `s'` is strictly increasing; if no entry of `s` is
equivalent to `t`, then `s'` is `s` with `t` added; if an entry `it` of `s`
is equivalent to `t` and has a higher weight than `t`, then `it` is the only
entry of `s` equivalent to `t` and `s'` is `s` with `t` in the place of
`it`; if an entry of `s` is equivalent to `t` and its weight is not higher,
then `s'` is `s`. -/
def added_to (t : ip_representation) (s s' : List ip_representation) : Prop :=
  sset_wf ip_representation.lt s' = true
  ∧ ((∀ e ∈ s, e.covers t = false) → ∀ e, e ∈ s' ↔ e = t ∨ e ∈ s)
  ∧ (∀ it ∈ s, it.covers t = true → t.weight < it.weight →
      (∀ e ∈ s, e.covers t = true → e = it)
      ∧ ∀ e, e ∈ s' ↔ e = t ∨ (e ∈ s ∧ e ≠ it))
  ∧ ((∃ it ∈ s, it.covers t = true ∧ ¬ t.weight < it.weight) → s' = s)

/-- The text of one query argument in a query string: the lead character
(`?` or `&`), the name, `=` and the value. -/
def query_item (lead : Char) (kv : cstring × cstring) : cstring :=
  lead :: (kv.1 ++ '=' :: kv.2)

/-- The query string `?k1=v1&k2=v2&...&kn=vn` of the arguments, in the order
given; empty when there is none. -/
def query_text : List (cstring × cstring) → cstring
  | [] => []
  | kv :: rest => query_item '?' kv ++ (rest.map (query_item '&')).flatten

/-- The value that `build_request_args` stores for the delivered value `v`:
`string(value, size)` after `internal_unescaper` has rewritten the buffer. -/
def unescaped_value (ws : webserver) (v : cstring) : cstring :=
  (internal_unescaper ws v).buffer.take (internal_unescaper ws v).size

/-- The entry locks taken in a sequence of lock calls, each with whether
`cache_guard` is held when the call is made; `held` says whether it is held
before the first call. -/
def entry_acquisitions : Bool → List guard_call → List (cache_entry_ptr × Bool)
  | _, [] => []
  | _, guard_call.cache_rdlock :: rest => entry_acquisitions true rest
  | _, guard_call.cache_wrlock :: rest => entry_acquisitions true rest
  | _, guard_call.cache_unlock :: rest => entry_acquisitions false rest
  | held, guard_call.entry_lock p _ :: rest => (p, held) :: entry_acquisitions held rest
  | held, guard_call.entry_unlock _ :: rest => entry_acquisitions held rest

/-! ## Example values -/

/-- Collaborators for the examples: no regex fragment matches, URLs are
already in standard form, the post-processor emits nothing. -/
def demo_env : collaborators :=
  { regex_full_match := fun _ _ => false
    standardize_url := fun u => u
    MHD_post_process := fun _ _ => []
    get_ip_str := fun _ => [] }

/-- A response with the given text. -/
def demo_response (text : String) : http_response :=
  { content := response_body.dynamic text.toList, response_code := 200, autodelete := true,
    ca := none, underlying_connection := none, raw_failure := none,
    enqueue_result := MHD_YES }

/-- A handler that allows every method and answers with the given text. -/
def demo_resource (text : String) : http_resource :=
  http_resource.mk (fun _ => true)
    (fun _ _ => { written := some (demo_response text), thrown := none }) none

/-- Parameters for the examples: regex checking on, accept by default, no
override pages, no single resource. -/
def demo_params : create_webserver :=
  { _unescaper_pointer := none
    _default_policy := policy_T.ACCEPT
    _basic_auth_enabled := false
    _digest_auth_enabled := false
    _regex_checking := true
    _ban_system_enabled := true
    _post_process_enabled := true
    _single_resource := none
    _not_found_resource := none
    _method_not_allowed_resource := none
    _method_not_acceptable_resource := none
    _internal_error_resource := none
    _start_method := start_method_T.INTERNAL_SELECT
    _max_threads := 0 }

/-- A server with the routes `/users/{id}` and `/users/{id}/posts/{pid}`. -/
def demo_server : webserver :=
  ((webserver.create demo_params).register_resource "/users/{id}".toList
      (demo_resource "user") false).register_resource
    "/users/{id}/posts/{pid}".toList (demo_resource "post") false

/-- A server on which `/{a}/x` is registered first and `/x/{b}` second. -/
def tie_server : webserver :=
  ((webserver.create demo_params).register_resource "/{a}/x".toList
      (demo_resource "first") false).register_resource
    "/x/{b}".toList (demo_resource "second") false

/-- The same two routes registered in the other order: `/x/{b}` first and
`/{a}/x` second. -/
def tie_server_rev : webserver :=
  ((webserver.create demo_params).register_resource "/x/{b}".toList
      (demo_resource "second") false).register_resource
    "/{a}/x".toList (demo_resource "first") false

/-- A server with the single route `/{a}/{a}`, whose two parameters have the
same name. -/
def repeat_server : webserver :=
  (webserver.create demo_params).register_resource "/{a}/{a}".toList
    (demo_resource "pair") false

/-- A server created from the given parameters with default policy accept
and the ban system on, `10.0.0.0/8` banned and `10.1.2.3` allowed. -/
def policy_server (params : create_webserver) : webserver :=
  ((webserver.create
      { params with _default_policy := policy_T.ACCEPT, _ban_system_enabled := true }).ban_ip
    (ip_representation.of_ipv4 10 0 0 0 8)).allow_ip (ip_representation.of_ipv4 10 1 2 3 32)

/-- The example server with two cached responses: `K` with a validity of 2
seconds put at time 0, and `L` without validity put at time 5. -/
def cache_server : webserver :=
  ((demo_server.put_in_cache 0 "K".toList (some (demo_response "R")) 2).ws.put_in_cache 5
    "L".toList (some (demo_response "S")) (-1)).ws

/-- A connection for the examples: a peer at 192.168.0.1 with the header
`Content-Type: text/plain` and no query arguments. -/
def demo_connection : MHD_Connection :=
  { id := 1
    headers := [("Content-Type".toList, "text/plain".toList)]
    get_arguments := []
    footers := []
    cookies := []
    client_addr := sockaddr.in4 192 168 0 1 4000
    basic_auth := none
    digest_user := none
    queue_result := MHD_YES }

/-- A per-request state for the examples: a GET request ready to be
finalised. -/
def demo_request_state : modded_request :=
  { pp := none, complete_uri := some "/users/42".toList,
    callback := some render_hook.render_GET, dhr := some http_request.new,
    dhrs := none, second := false }

/-- A handler that allows every method and whose hooks throw a
`std::exception` without writing a response. -/
def throwing_resource : http_resource :=
  http_resource.mk (fun _ => true)
    (fun _ _ => { written := none, thrown := some exception_kind.std_exception }) none

/-- A server without override pages and with the route `/boom`, whose handler
throws. -/
def failing_server : webserver :=
  (webserver.create demo_params).register_resource "/boom".toList throwing_resource false

/-- The same route on a server with an internal-error handler that answers
with the text `oops`. -/
def recovering_server : webserver :=
  (webserver.create
      { demo_params with _internal_error_resource := some (demo_resource "oops") }
    ).register_resource "/boom".toList throwing_resource false

/-- The same route on a server whose internal-error handler and whose
not-found handler throw as well. -/
def escaping_server : webserver :=
  (webserver.create
      { demo_params with
        _internal_error_resource := some throwing_resource
        _not_found_resource := some throwing_resource }
    ).register_resource "/boom".toList throwing_resource false

/-- A server with a method-not-acceptable handler that answers with the text
`not acceptable`, and the route `/users/{id}`. -/
def override_server : webserver :=
  (webserver.create
      { demo_params with
        _method_not_acceptable_resource := some (demo_resource "not acceptable") }
    ).register_resource "/users/{id}".toList (demo_resource "user") false

/-- The per-request state of a first callback: the URI is logged, nothing
else is set. -/
def first_request_state : modded_request := uri_log "/users/42".toList

/-- The example connection with the query arguments `a=1` and `b=x%41`, in
that order. -/
def query_connection : MHD_Connection :=
  { demo_connection with
    get_arguments := [("a".toList, "1".toList), ("b".toList, "x%41".toList)] }

theorem str_lt_irrefl (a : cstring) : str_lt a a = false := by
  induction a with
  | nil => rfl
  | cons c cs ih => simp [str_lt, ih]

theorem char_eq_of_toNat_eq {a b : Char} (h : a.toNat = b.toNat) : a = b := by
  rw [← Char.ofNat_toNat a, ← Char.ofNat_toNat b, h]

theorem str_lt_connex : ∀ (a b : cstring), str_lt a b = false → str_lt b a = false → a = b
  | [], [], _, _ => rfl
  | [], _ :: _, h, _ => by simp [str_lt] at h
  | _ :: _, [], _, h => by simp [str_lt] at h
  | a :: as, b :: bs, h1, h2 => by
    simp only [str_lt] at h1 h2
    by_cases hab : a.toNat < b.toNat
    · simp [hab] at h1
    · by_cases hba : b.toNat < a.toNat
      · simp [hba] at h2
      · simp only [hab, hba, if_false] at h1 h2
        have hc : a = b := char_eq_of_toNat_eq (by omega)
        rw [hc, str_lt_connex as bs h1 h2]

theorem str_lt_trans : ∀ (a b c : cstring),
    str_lt a b = true → str_lt b c = true → str_lt a c = true
  | [], [], _, h, _ => by simp [str_lt] at h
  | [], _ :: _, [], _, h => by simp [str_lt] at h
  | [], _ :: _, _ :: _, _, _ => by simp [str_lt]
  | _ :: _, [], _, h, _ => by simp [str_lt] at h
  | _ :: _, _ :: _, [], _, h => by simp [str_lt] at h
  | a :: as, b :: bs, c :: cs, h1, h2 => by
    simp only [str_lt] at h1 h2 ⊢
    by_cases hab : a.toNat < b.toNat
    · by_cases hbc : b.toNat < c.toNat
      · have : a.toNat < c.toNat := by omega
        simp [this]
      · by_cases hcb : c.toNat < b.toNat
        · simp [hbc, hcb] at h2
        · have : a.toNat < c.toNat := by omega
          simp [this]
    · by_cases hba : b.toNat < a.toNat
      · simp [hab, hba] at h1
      · simp only [hab, hba, if_false] at h1
        by_cases hbc : b.toNat < c.toNat
        · have : a.toNat < c.toNat := by omega
          simp [this]
        · by_cases hcb : c.toNat < b.toNat
          · simp [hbc, hcb] at h2
          · simp only [hbc, hcb, if_false] at h2
            have h3 : ¬ a.toNat < c.toNat := by omega
            have h4 : ¬ c.toNat < a.toNat := by omega
            simp only [h3, h4, if_false]
            exact str_lt_trans as bs cs h1 h2

/-! ## Lemmas: ordered maps -/

theorem strict_weak_pullback {K : Type} (f : K → cstring) :
    strict_weak (fun a b => str_lt (f a) (f b)) where
  irrefl := fun a => str_lt_irrefl (f a)
  trans := fun a b c => str_lt_trans (f a) (f b) (f c)
  incomp := by
    intro a b c h1 h2 h3 h4
    have e1 := str_lt_connex _ _ h1 h2
    have e2 := str_lt_connex _ _ h3 h4
    simp only [e1, e2, str_lt_irrefl, and_self]

theorem strict_weak_str_lt : strict_weak str_lt := strict_weak_pullback id

theorem strict_weak_endpoint_lt : strict_weak http_endpoint.lt :=
  strict_weak_pullback http_endpoint.url_normalized

theorem strict_weak.asymm {K : Type} {lt : K → K → Bool} (h : strict_weak lt) (a b : K)
    (hab : lt a b = true) : lt b a = false := by
  cases hba : lt b a with
  | false => rfl
  | true =>
    have := h.trans a b a hab hba
    rw [h.irrefl] at this
    exact absurd this (by simp)

section smap_lemmas
variable {K V : Type} {lt : K → K → Bool}

theorem strict_weak.lt_of_lt_of_incomp (h : strict_weak lt) {a b c : K}
    (hab : lt a b = true) (h1 : lt b c = false) (h2 : lt c b = false) : lt a c = true := by
  cases hac : lt a c with
  | true => rfl
  | false =>
    cases hca : lt c a with
    | true =>
      have := h.trans c a b hca hab
      rw [h2] at this
      exact absurd this (by simp)
    | false =>
      have := (h.incomp a c b hac hca h2 h1).1
      rw [hab] at this
      exact absurd this (by simp)

theorem strict_weak.lt_of_incomp_of_lt (h : strict_weak lt) {a b c : K}
    (h1 : lt a b = false) (h2 : lt b a = false) (hbc : lt b c = true) : lt a c = true := by
  cases hac : lt a c with
  | true => rfl
  | false =>
    cases hca : lt c a with
    | true =>
      have := h.trans b c a hbc hca
      rw [h2] at this
      exact absurd this (by simp)
    | false =>
      have := (h.incomp c a b hca hac h1 h2).2
      rw [hbc] at this
      exact absurd this (by simp)

theorem smap_find_assign_self (h : strict_weak lt) (k : K) (v : V) (m : List (K × V)) :
    ∃ k', smap_find lt k (smap_assign lt k v m) = some (k', v) := by
  induction m with
  | nil => exact ⟨k, by simp [smap_assign, smap_find, h.irrefl]⟩
  | cons e rest ih =>
    obtain ⟨k', v'⟩ := e
    simp only [smap_assign]
    by_cases h1 : lt k' k = true
    · simp only [h1, if_true, smap_find]
      exact ih
    · by_cases h2 : lt k k' = true
      · exact ⟨k, by simp [h1, h2, smap_find, h.irrefl]⟩
      · exact ⟨k', by simp [h1, h2, smap_find]⟩

theorem smap_find_assign_other (h : strict_weak lt) (k k2 : K) (v : V) (m : List (K × V))
    (hne : lt k k2 = true ∨ lt k2 k = true) :
    smap_find lt k2 (smap_assign lt k v m) = smap_find lt k2 m := by
  induction m with
  | nil =>
    rcases hne with hne | hne
    · simp [smap_assign, smap_find, hne]
    · simp [smap_assign, smap_find, hne, h.asymm _ _ hne]
  | cons e rest ih =>
    obtain ⟨k', v'⟩ := e
    simp only [smap_assign]
    by_cases h1 : lt k' k = true
    · simp only [h1, if_true, smap_find, ih]
    · by_cases h2 : lt k k' = true
      · simp only [h1, h2, if_true, if_false, smap_find]
        rcases hne with hne | hne
        · simp [hne]
        · have h3 : lt k2 k' = true := h.trans _ _ _ hne h2
          simp [hne, h.asymm _ _ hne, h3, h.asymm _ _ h3]
      · simp only [h1, h2, if_false, smap_find]
        have h1' : lt k' k = false := by simpa using h1
        have h2' : lt k k' = false := by simpa using h2
        rcases hne with hne | hne
        · have h3 : lt k' k2 = true := h.lt_of_incomp_of_lt h1' h2' hne
          simp [h3]
        · have h3 : lt k2 k' = true := h.lt_of_lt_of_incomp hne h2' h1'
          simp [h3, h.asymm _ _ h3]

theorem smap_length_assign_of_find (k : K) (v : V) (m : List (K × V)) (e : K × V)
    (hfind : smap_find lt k m = some e) : (smap_assign lt k v m).length = m.length := by
  induction m with
  | nil => simp [smap_find] at hfind
  | cons e' rest ih =>
    obtain ⟨k', v'⟩ := e'
    simp only [smap_find] at hfind
    simp only [smap_assign]
    by_cases h1 : lt k' k = true
    · simp only [h1, if_true] at hfind ⊢
      simp [ih hfind]
    · by_cases h2 : lt k k' = true
      · simp [h1, h2] at hfind
      · simp [h1, h2]

theorem smap_find_mem (k : K) (m : List (K × V)) (e : K × V)
    (hfind : smap_find lt k m = some e) :
    e ∈ m ∧ lt e.1 k = false ∧ lt k e.1 = false := by
  induction m with
  | nil => simp [smap_find] at hfind
  | cons e' rest ih =>
    obtain ⟨k', v'⟩ := e'
    simp only [smap_find] at hfind
    by_cases h1 : lt k' k = true
    · simp only [h1, if_true] at hfind
      obtain ⟨i1, i2⟩ := ih hfind
      exact ⟨List.mem_cons_of_mem _ i1, i2⟩
    · by_cases h2 : lt k k' = true
      · simp [h1, h2] at hfind
      · have h1' : lt k' k = false := by simpa using h1
        have h2' : lt k k' = false := by simpa using h2
        rw [h1', h2'] at hfind
        simp only [Bool.false_eq_true, if_false, Option.some.injEq] at hfind
        subst hfind
        exact ⟨List.mem_cons_self _ _, h1', h2'⟩

theorem smap_wf_cons (k : K) (v : V) (rest : List (K × V)) :
    smap_wf lt ((k, v) :: rest) = true
      ↔ (∀ e ∈ rest, lt k e.1 = true) ∧ smap_wf lt rest = true := by
  simp [smap_wf, List.all_eq_true]

theorem smap_find_of_mem (h : strict_weak lt) (k : K) (m : List (K × V)) (e : K × V)
    (hwf : smap_wf lt m = true) (hmem : e ∈ m)
    (h1 : lt e.1 k = false) (h2 : lt k e.1 = false) : smap_find lt k m = some e := by
  induction m with
  | nil => simp at hmem
  | cons e' rest ih =>
    obtain ⟨k', v'⟩ := e'
    rw [smap_wf_cons] at hwf
    rcases List.mem_cons.mp hmem with heq | hin
    · subst heq
      simp only [smap_find]
      simp only at h1 h2
      simp [h1, h2]
    · have hlt : lt k' e.1 = true := hwf.1 e hin
      have hk : lt k' k = true := h.lt_of_lt_of_incomp hlt h1 h2
      simp only [smap_find, hk, if_true]
      exact ih hwf.2 hin

end smap_lemmas

/-! ## Route resolution: the scan -/

theorem scan_step_inv (env : collaborators) (endpoint : http_endpoint)
    (pre : List (http_endpoint × http_resource)) (st : scan_state)
    (x : http_endpoint × http_resource) (h : scan_inv env endpoint pre st) :
    scan_inv env endpoint (pre ++ [x]) (scan_step env endpoint st x) := by
  unfold scan_step
  simp only []
  rcases h with ⟨hf, hl, ht, he, hall⟩ | ⟨hf, l1, e, l2, hpre, he, hm, hl, ht, h1, h2⟩
  · have hc : st.tot_len = -1 ∨ st.len = -1
        ∨ (x.1.get_url_pieces_num : Int) > st.len
        ∨ ((x.1.get_url_pieces_num : Int) = st.len
            ∧ (x.1.get_url_complete_size : Int) > st.tot_len) := Or.inl ht
    rw [if_pos hc]
    by_cases hx : x.1.matches env.regex_full_match endpoint = true
    · rw [if_pos hx]
      refine Or.inr ⟨rfl, pre, x, [], rfl, rfl, hx, rfl, rfl, ?_, ?_⟩
      · intro y hy hym
        rw [hall y hy] at hym
        exact absurd hym (by simp)
      · intro y hy
        simp at hy
    · rw [if_neg hx]
      refine Or.inl ⟨hf, hl, ht, he, ?_⟩
      intro y hy
      rcases List.mem_append.mp hy with hy | hy
      · exact hall y hy
      · simp only [List.mem_singleton] at hy
        subst hy
        simpa using hx
  · by_cases hc : st.tot_len = -1 ∨ st.len = -1
        ∨ (x.1.get_url_pieces_num : Int) > st.len
        ∨ ((x.1.get_url_pieces_num : Int) = st.len
            ∧ (x.1.get_url_complete_size : Int) > st.tot_len)
    · rw [if_pos hc]
      by_cases hx : x.1.matches env.regex_full_match endpoint = true
      · rw [if_pos hx]
        have hex : specificity_lt e.1 x.1 := by
          unfold specificity_lt
          rw [hl, ht] at hc
          omega
        refine Or.inr ⟨rfl, pre, x, [], rfl, rfl, hx, rfl, rfl, ?_, ?_⟩
        · intro y hy hym
          rw [hpre] at hy
          unfold specificity_lt at hex ⊢
          rcases List.mem_append.mp hy with hy | hy
          · have := h1 y hy hym
            unfold specificity_lt at this
            omega
          · rcases List.mem_cons.mp hy with hy | hy
            · subst hy
              exact hex
            · have := h2 y hy hym
              unfold specificity_le at this
              omega
        · intro y hy
          simp at hy
      · rw [if_neg hx]
        refine Or.inr ⟨hf, l1, e, l2 ++ [x], by simp [hpre], he, hm, hl, ht, h1, ?_⟩
        intro y hy hym
        rcases List.mem_append.mp hy with hy | hy
        · exact h2 y hy hym
        · simp only [List.mem_singleton] at hy
          subst hy
          exact absurd hym hx
    · rw [if_neg hc]
      refine Or.inr ⟨hf, l1, e, l2 ++ [x], by simp [hpre], he, hm, hl, ht, h1, ?_⟩
      intro y hy _
      rcases List.mem_append.mp hy with hy | hy
      · exact h2 y hy (by assumption)
      · simp only [List.mem_singleton] at hy
        subst hy
        unfold specificity_le
        rw [hl, ht] at hc
        omega

theorem scan_foldl_inv (env : collaborators) (endpoint : http_endpoint) :
    ∀ (l pre : List (http_endpoint × http_resource)) (st : scan_state),
      scan_inv env endpoint pre st →
      scan_inv env endpoint (pre ++ l) (l.foldl (scan_step env endpoint) st)
  | [], pre, st, h => by simpa using h
  | x :: l, pre, st, h => by
    have h1 := scan_step_inv env endpoint pre st x h
    have h2 := scan_foldl_inv env endpoint l (pre ++ [x]) _ h1
    simpa using h2

theorem scan_resources_inv (env : collaborators) (endpoint : http_endpoint)
    (table : List (http_endpoint × http_resource)) :
    scan_inv env endpoint table (scan_resources env endpoint table) := by
  have h := scan_foldl_inv env endpoint table []
    { found := false, len := -1, tot_len := -1, found_endpoint := none }
    (Or.inl ⟨rfl, rfl, rfl, rfl, by simp⟩)
  simpa [scan_resources] using h

theorem route_resolution_scan (env : collaborators) (ws : webserver) (st_url : cstring)
    (dhr : http_request) (hsingle : ws.single_resource = false)
    (hregex : ws.regex_checking = true)
    (hmiss : smap_find http_endpoint.lt
      (http_endpoint.make st_url false false ws.regex_checking) ws.registered_resources = none) :
    ws.route_resolution env st_url dhr =
      if (scan_resources env (http_endpoint.make st_url false false ws.regex_checking)
          ws.registered_resources).found then
        match (scan_resources env (http_endpoint.make st_url false false ws.regex_checking)
          ws.registered_resources).found_endpoint with
        | some fe =>
          { found := true, found_endpoint := some fe,
            dhr := capture_loop fe.1.get_url_pars
              (http_endpoint.make st_url false false ws.regex_checking).get_url_pieces
              fe.1.get_chunk_positions fe.1.get_url_pars.length 0 dhr }
        | none => { found := true, found_endpoint := none, dhr := none }
      else { found := false, found_endpoint := none, dhr := some dhr } := by
  unfold webserver.route_resolution
  simp only [hsingle, Bool.not_false, if_true, hmiss]
  simp only [hregex, if_true]

/-- C1: when the exact lookup misses, regex checking is on and no single
resource is configured, the request is treated as not found exactly when no
registered entry matches the URL; otherwise the selected entry is a registered
entry that matches and whose `(piece_count, total_size)` is lexicographically
maximal among all registered entries that match. -/
theorem C1_scan_selects_most_specific_match (env : collaborators) (ws : webserver)
    (st_url : cstring) (dhr : http_request)
    (hsingle : ws.single_resource = false) (hregex : ws.regex_checking = true)
    (hmiss : smap_find http_endpoint.lt
      (http_endpoint.make st_url false false ws.regex_checking) ws.registered_resources = none) :
    ((ws.route_resolution env st_url dhr).found = false ↔
        ∀ x ∈ ws.registered_resources,
          x.1.matches env.regex_full_match
            (http_endpoint.make st_url false false ws.regex_checking) = false)
    ∧ ((ws.route_resolution env st_url dhr).found = true →
        ∃ e, (ws.route_resolution env st_url dhr).found_endpoint = some e
          ∧ e ∈ ws.registered_resources
          ∧ e.1.matches env.regex_full_match
              (http_endpoint.make st_url false false ws.regex_checking) = true
          ∧ ∀ x ∈ ws.registered_resources,
              x.1.matches env.regex_full_match
                (http_endpoint.make st_url false false ws.regex_checking) = true →
              specificity_le x.1 e.1) := by
  rw [route_resolution_scan env ws st_url dhr hsingle hregex hmiss]
  have hinv := scan_resources_inv env
    (http_endpoint.make st_url false false ws.regex_checking) ws.registered_resources
  rcases hinv with ⟨hf, _, _, _, hall⟩ | ⟨hf, l1, e, l2, hpre, he, hm, _, _, h1, h2⟩
  · rw [hf]
    simp only [Bool.false_eq_true, if_false, true_iff, false_implies, and_true]
    exact hall
  · rw [hf, he]
    simp only [if_true, Bool.true_eq_false, false_iff, true_implies]
    constructor
    · intro hall
      have := hall e (by rw [hpre]; simp)
      rw [hm] at this
      exact absurd this (by simp)
    · refine ⟨e, rfl, by rw [hpre]; simp, hm, ?_⟩
      intro x hx hxm
      rw [hpre] at hx
      rcases List.mem_append.mp hx with hx | hx
      · have := h1 x hx hxm
        unfold specificity_lt at this
        unfold specificity_le
        omega
      · rcases List.mem_cons.mp hx with hx | hx
        · subst hx
          unfold specificity_le
          omega
        · exact h2 x hx hxm

/-- Witness of C1 on the example server: for `/users/42` the exact lookup
misses and the scan decides. -/
theorem C1_witness :
    ((demo_server.route_resolution demo_env "/users/42".toList http_request.new).found = false ↔
        ∀ x ∈ demo_server.registered_resources,
          x.1.matches demo_env.regex_full_match
            (http_endpoint.make "/users/42".toList false false demo_server.regex_checking)
            = false)
    ∧ ((demo_server.route_resolution demo_env "/users/42".toList http_request.new).found = true →
        ∃ e, (demo_server.route_resolution demo_env "/users/42".toList
                http_request.new).found_endpoint = some e
          ∧ e ∈ demo_server.registered_resources
          ∧ e.1.matches demo_env.regex_full_match
              (http_endpoint.make "/users/42".toList false false demo_server.regex_checking)
              = true
          ∧ ∀ x ∈ demo_server.registered_resources,
              x.1.matches demo_env.regex_full_match
                (http_endpoint.make "/users/42".toList false false
                  demo_server.regex_checking) = true →
              specificity_le x.1 e.1) :=
  C1_scan_selects_most_specific_match demo_env demo_server "/users/42".toList
    http_request.new rfl rfl rfl

/-! ## Route resolution: the exact lookup -/

theorem endpoint_lt_of_normalized_eq (a b : http_endpoint)
    (h : a.url_normalized = b.url_normalized) :
    http_endpoint.lt a b = false ∧ http_endpoint.lt b a = false := by
  unfold http_endpoint.lt
  rw [h]
  exact ⟨str_lt_irrefl _, str_lt_irrefl _⟩

/-- C2: when the endpoint of the URL is equal (by normalised pattern string)
to a registered pattern, the entry of that pattern is the one selected,
whatever else is registered, and the request is left as it was (no capture is
added). With `/a/b` and `/a/{x}` registered, in either order, the request
`/a/b` selects the literal route `/a/b`. -/
theorem C2_exact_match_takes_precedence (env : collaborators) :
    (∀ (ws : webserver) (st_url : cstring) (dhr : http_request) (p : http_endpoint)
        (h : http_resource),
        ws.single_resource = false →
        smap_wf http_endpoint.lt ws.registered_resources = true →
        (p, h) ∈ ws.registered_resources →
        p.url_normalized
          = (http_endpoint.make st_url false false ws.regex_checking).url_normalized →
        (ws.route_resolution env st_url dhr).found = true
          ∧ (ws.route_resolution env st_url dhr).found_endpoint = some (p, h)
          ∧ (ws.route_resolution env st_url dhr).dhr = some dhr)
    ∧ (∀ (params : create_webserver) (h1 h2 : http_resource) (dhr : http_request),
        ((((webserver.create { params with _single_resource := none }).register_resource
              "/a/b".toList h1 false).register_resource "/a/{x}".toList h2 false).route_resolution
            env "/a/b".toList dhr).found_endpoint
          = some (http_endpoint.make "/a/b".toList false true params._regex_checking,
              if params._method_not_acceptable_resource.isSome then
                h1.set_method_not_acceptable_resource params._method_not_acceptable_resource
              else h1)
        ∧ ((((webserver.create { params with _single_resource := none }).register_resource
              "/a/{x}".toList h2 false).register_resource "/a/b".toList h1 false).route_resolution
            env "/a/b".toList dhr).found_endpoint
          = some (http_endpoint.make "/a/b".toList false true params._regex_checking,
              if params._method_not_acceptable_resource.isSome then
                h1.set_method_not_acceptable_resource params._method_not_acceptable_resource
              else h1)
        ∧ ((((webserver.create { params with _single_resource := none }).register_resource
              "/a/b".toList h1 false).register_resource "/a/{x}".toList h2 false).route_resolution
            env "/a/b".toList dhr).dhr = some dhr
        ∧ ((((webserver.create { params with _single_resource := none }).register_resource
              "/a/{x}".toList h2 false).register_resource "/a/b".toList h1 false).route_resolution
            env "/a/b".toList dhr).dhr = some dhr) := by
  constructor
  · intro ws st_url dhr p h hsingle hwf hmem heq
    have hlt := endpoint_lt_of_normalized_eq p
      (http_endpoint.make st_url false false ws.regex_checking) heq
    have hfind := smap_find_of_mem strict_weak_endpoint_lt
      (http_endpoint.make st_url false false ws.regex_checking) ws.registered_resources (p, h)
      hwf hmem hlt.1 hlt.2
    unfold webserver.route_resolution
    simp only [hsingle, Bool.not_false, if_true, hfind, and_self]
  · intro params h1 h2 dhr
    obtain ⟨u, dp, ba, da, rc, bs, pp, sr, nf, mna, mnac, ie, sm, mt⟩ := params
    cases rc <;> exact ⟨rfl, rfl, rfl, rfl⟩

/-- Witness of C2 on the example server: the URL `/users/{id}` is equal to
the first registered pattern. -/
theorem C2_witness :
    (demo_server.route_resolution demo_env "/users/{id}".toList http_request.new).found = true
      ∧ (demo_server.route_resolution demo_env "/users/{id}".toList
          http_request.new).found_endpoint
        = some (http_endpoint.make "/users/{id}".toList false true true, demo_resource "user")
      ∧ (demo_server.route_resolution demo_env "/users/{id}".toList http_request.new).dhr
        = some http_request.new :=
  (C2_exact_match_takes_precedence demo_env).1 demo_server "/users/{id}".toList
    http_request.new (http_endpoint.make "/users/{id}".toList false true true)
    (demo_resource "user") rfl rfl (List.Mem.head _) rfl

/-! ## Route resolution: ties -/

section smap_wf_lemmas
variable {K V : Type} {lt : K → K → Bool}

theorem smap_assign_keys (k : K) (v : V) (m : List (K × V)) :
    ∀ e ∈ smap_assign lt k v m, e.1 = k ∨ ∃ e' ∈ m, e'.1 = e.1 := by
  induction m with
  | nil =>
    intro e he
    simp only [smap_assign, List.mem_singleton] at he
    exact Or.inl (by rw [he])
  | cons e0 rest ih =>
    obtain ⟨k', v'⟩ := e0
    intro e he
    simp only [smap_assign] at he
    by_cases h1 : lt k' k = true
    · rw [if_pos h1] at he
      rcases List.mem_cons.mp he with he | he
      · exact Or.inr ⟨(k', v'), List.mem_cons_self _ _, by rw [he]⟩
      · rcases ih e he with h | ⟨e', he', hk⟩
        · exact Or.inl h
        · exact Or.inr ⟨e', List.mem_cons_of_mem _ he', hk⟩
    · rw [if_neg h1] at he
      by_cases h2 : lt k k' = true
      · rw [if_pos h2] at he
        rcases List.mem_cons.mp he with he | he
        · exact Or.inl (by rw [he])
        · rcases List.mem_cons.mp he with he | he
          · exact Or.inr ⟨(k', v'), List.mem_cons_self _ _, by rw [he]⟩
          · exact Or.inr ⟨e, List.mem_cons_of_mem _ he, rfl⟩
      · rw [if_neg h2] at he
        rcases List.mem_cons.mp he with he | he
        · exact Or.inr ⟨(k', v'), List.mem_cons_self _ _, by rw [he]⟩
        · exact Or.inr ⟨e, List.mem_cons_of_mem _ he, rfl⟩

theorem smap_wf_assign (h : strict_weak lt) (k : K) (v : V) (m : List (K × V))
    (hwf : smap_wf lt m = true) : smap_wf lt (smap_assign lt k v m) = true := by
  induction m with
  | nil => simp [smap_assign, smap_wf]
  | cons e0 rest ih =>
    obtain ⟨k', v'⟩ := e0
    rw [smap_wf_cons] at hwf
    simp only [smap_assign]
    by_cases h1 : lt k' k = true
    · rw [if_pos h1, smap_wf_cons]
      refine ⟨?_, ih hwf.2⟩
      intro e he
      rcases smap_assign_keys k v rest e he with hk | ⟨e', he', hk⟩
      · rw [hk]
        exact h1
      · rw [← hk]
        exact hwf.1 e' he'
    · rw [if_neg h1]
      by_cases h2 : lt k k' = true
      · rw [if_pos h2, smap_wf_cons, smap_wf_cons]
        refine ⟨?_, hwf⟩
        intro e he
        rcases List.mem_cons.mp he with he | he
        · rw [he]
          exact h2
        · exact h.trans _ _ _ h2 (hwf.1 e he)
      · rw [if_neg h2, smap_wf_cons]
        exact hwf

theorem smap_wf_append_cons (l1 : List (K × V)) (e : K × V) (l2 : List (K × V))
    (hwf : smap_wf lt (l1 ++ e :: l2) = true) : ∀ x ∈ l2, lt e.1 x.1 = true := by
  induction l1 with
  | nil =>
    obtain ⟨k, v⟩ := e
    rw [List.nil_append, smap_wf_cons] at hwf
    exact hwf.1
  | cons e0 rest ih =>
    obtain ⟨k', v'⟩ := e0
    rw [List.cons_append, smap_wf_cons] at hwf
    exact ih hwf.2

end smap_wf_lemmas

/-- Counterexample to C3 as stated: `/{a}/x` is registered first and `/x/{b}`
second; both match `/x/x` (the exact lookup misses), with the same
`(piece_count, total_size) = (2, 6)`, and the route selected is `/x/{b}`, the
one registered second. The same route is selected when the two are
registered in the other order. -/
theorem C3_counterexample :
    (smap_find http_endpoint.lt (http_endpoint.make "/x/x".toList false false true)
        tie_server.registered_resources).isNone = true
    ∧ (http_endpoint.make "/{a}/x".toList false true true).matches demo_env.regex_full_match
        (http_endpoint.make "/x/x".toList false false true) = true
    ∧ (http_endpoint.make "/x/{b}".toList false true true).matches demo_env.regex_full_match
        (http_endpoint.make "/x/x".toList false false true) = true
    ∧ (http_endpoint.make "/{a}/x".toList false true true).get_url_pieces_num
        = (http_endpoint.make "/x/{b}".toList false true true).get_url_pieces_num
    ∧ (http_endpoint.make "/{a}/x".toList false true true).get_url_complete_size
        = (http_endpoint.make "/x/{b}".toList false true true).get_url_complete_size
    ∧ (tie_server.route_resolution demo_env "/x/x".toList http_request.new).found_endpoint.map
        (fun e => e.1.url_complete) = some "/x/{b}".toList
    ∧ (tie_server.route_resolution demo_env "/x/x".toList http_request.new).found_endpoint.map
        (fun e => e.1.url_complete) ≠ some "/{a}/x".toList
    ∧ (tie_server_rev.route_resolution demo_env "/x/x".toList
        http_request.new).found_endpoint.map
        (fun e => e.1.url_complete) = some "/x/{b}".toList := by
  decide

/-- C3, amended: the route table is kept in the key order of the patterns
(a freshly constructed table is so ordered and `register_resource` keeps it
so, whatever the order of the calls), and when several matching routes share
the maximal `(piece_count, total_size)` the scan selects the one that comes
first in that key order: every other matching route of the same
`(piece_count, total_size)` has a pattern above the selected one. -/
theorem C3_tie_broken_by_key_order (env : collaborators) :
    (∀ (params : create_webserver),
        smap_wf http_endpoint.lt (webserver.create params).registered_resources = true)
    ∧ (∀ (ws : webserver) (resource : cstring) (res : http_resource) (family : Bool),
        smap_wf http_endpoint.lt ws.registered_resources = true →
        smap_wf http_endpoint.lt
          (ws.register_resource resource res family).registered_resources = true)
    ∧ (∀ (ws : webserver) (st_url : cstring) (dhr : http_request)
        (e : http_endpoint × http_resource),
        ws.single_resource = false → ws.regex_checking = true →
        smap_find http_endpoint.lt (http_endpoint.make st_url false false ws.regex_checking)
          ws.registered_resources = none →
        smap_wf http_endpoint.lt ws.registered_resources = true →
        (ws.route_resolution env st_url dhr).found_endpoint = some e →
        ∀ x ∈ ws.registered_resources,
          x.1.matches env.regex_full_match
            (http_endpoint.make st_url false false ws.regex_checking) = true →
          x.1.get_url_pieces_num = e.1.get_url_pieces_num →
          x.1.get_url_complete_size = e.1.get_url_complete_size →
          x = e ∨ http_endpoint.lt e.1 x.1 = true) := by
  refine ⟨?_, ?_, ?_⟩
  · intro params
    unfold webserver.create webserver.init
    cases params._single_resource with
    | none => rfl
    | some r => rfl
  · intro ws resource res family hwf
    unfold webserver.register_resource
    exact smap_wf_assign strict_weak_endpoint_lt _ _ _ hwf
  · intro ws st_url dhr e hsingle hregex hmiss hwf hsel x hx hxm hp hs
    rw [route_resolution_scan env ws st_url dhr hsingle hregex hmiss] at hsel
    have hinv := scan_resources_inv env
      (http_endpoint.make st_url false false ws.regex_checking) ws.registered_resources
    rcases hinv with ⟨hf, _, _, he, _⟩ | ⟨hf, l1, e', l2, hpre, he, _, _, _, h1, _⟩
    · rw [hf] at hsel
      simp at hsel
    · rw [hf, he] at hsel
      simp only [if_true, Option.some.injEq] at hsel
      subst hsel
      rw [hpre] at hx hwf
      rcases List.mem_append.mp hx with hx | hx
      · have := h1 x hx hxm
        unfold specificity_lt at this
        omega
      · rcases List.mem_cons.mp hx with hx | hx
        · exact Or.inl hx
        · exact Or.inr (smap_wf_append_cons l1 e' l2 hwf x hx)

/-- Witness of C3 (amended) on the server of the counterexample. -/
theorem C3_witness :
    ∀ x ∈ tie_server.registered_resources,
      x.1.matches demo_env.regex_full_match
        (http_endpoint.make "/x/x".toList false false tie_server.regex_checking) = true →
      x.1.get_url_pieces_num
        = (http_endpoint.make "/x/{b}".toList false true true).get_url_pieces_num →
      x.1.get_url_complete_size
        = (http_endpoint.make "/x/{b}".toList false true true).get_url_complete_size →
      x = (http_endpoint.make "/x/{b}".toList false true true, demo_resource "second")
        ∨ http_endpoint.lt (http_endpoint.make "/x/{b}".toList false true true) x.1 = true :=
  (C3_tie_broken_by_key_order demo_env).2.2 tie_server "/x/x".toList http_request.new
    (http_endpoint.make "/x/{b}".toList false true true, demo_resource "second")
    rfl rfl rfl rfl rfl

/-! ## Route resolution: captures -/

theorem matches_length (re : cstring → cstring → Bool) (P U : http_endpoint)
    (h : P.matches re U = true) : P.url_pieces.length ≤ U.get_url_pieces.length := by
  unfold http_endpoint.matches at h
  unfold http_endpoint.get_url_pieces
  rw [List.length_map]
  by_cases hf : P.family_url = true
  · rw [if_pos hf] at h
    simp only [Bool.and_eq_true, decide_eq_true_eq] at h
    exact h.1
  · rw [if_neg hf] at h
    simp only [Bool.and_eq_true, decide_eq_true_eq] at h
    omega

theorem params_from_fst : ∀ (i : Nat) (ps : List url_piece),
    (params_from i ps).map Prod.fst
      = (ps.filter (fun p => p.kind = segment_kind.parameter)).map
          (fun p => parameter_name p.text)
  | _, [] => rfl
  | i, p :: ps => by
    by_cases hk : p.kind = segment_kind.parameter
    · simp [params_from, hk, params_from_fst (i + 1) ps]
    · simp [params_from, hk, params_from_fst (i + 1) ps]

theorem params_from_snd : ∀ (i : Nat) (ps : List url_piece),
    (params_from i ps).map Prod.snd = chunk_positions_from i ps
  | _, [] => rfl
  | i, p :: ps => by
    by_cases hk : p.kind = segment_kind.parameter
    · simp [params_from, chunk_positions_from, hk, params_from_snd (i + 1) ps]
    · simp [params_from, chunk_positions_from, hk, params_from_snd (i + 1) ps]

theorem params_from_bound : ∀ (i : Nat) (ps : List url_piece),
    ∀ x ∈ params_from i ps, x.2 < i + ps.length
  | _, [], x, hx => by simp [params_from] at hx
  | i, p :: ps, x, hx => by
    simp only [params_from] at hx
    by_cases hk : p.kind = segment_kind.parameter
    · rw [if_pos hk] at hx
      rcases List.mem_cons.mp hx with hx | hx
      · rw [hx]
        simp
      · have := params_from_bound (i + 1) ps x hx
        simp only [List.length_cons]
        omega
    · rw [if_neg hk] at hx
      have := params_from_bound (i + 1) ps x hx
      simp only [List.length_cons]
      omega

theorem params_from_later : ∀ (i : Nat) (ps : List url_piece),
    ∀ x ∈ params_from i ps, ∃ j piece, ps[j]? = some piece
      ∧ piece.kind = segment_kind.parameter ∧ x = (parameter_name piece.text, i + j)
  | _, [], x, hx => by simp [params_from] at hx
  | i, p :: ps, x, hx => by
    simp only [params_from] at hx
    by_cases hk : p.kind = segment_kind.parameter
    · rw [if_pos hk] at hx
      rcases List.mem_cons.mp hx with hx | hx
      · exact ⟨0, p, by simp, hk, by simpa using hx⟩
      · obtain ⟨j, piece, h1, h2, h3⟩ := params_from_later (i + 1) ps x hx
        exact ⟨j + 1, piece, by simpa using h1, h2, by rw [h3]; congr 1; omega⟩
    · rw [if_neg hk] at hx
      obtain ⟨j, piece, h1, h2, h3⟩ := params_from_later (i + 1) ps x hx
      exact ⟨j + 1, piece, by simpa using h1, h2, by rw [h3]; congr 1; omega⟩

theorem params_from_split : ∀ (i : Nat) (ps : List url_piece) (j : Nat) (piece : url_piece),
    ps[j]? = some piece → piece.kind = segment_kind.parameter →
    ∃ l1 l2, params_from i ps = l1 ++ (parameter_name piece.text, i + j) :: l2
      ∧ ∀ x ∈ l2, ∃ j' piece', j < j' ∧ ps[j']? = some piece'
          ∧ piece'.kind = segment_kind.parameter ∧ x = (parameter_name piece'.text, i + j')
  | _, [], j, piece, hj, _ => by simp at hj
  | i, p :: ps, 0, piece, hj, hk => by
    simp only [List.getElem?_cons_zero, Option.some.injEq] at hj
    subst hj
    refine ⟨[], params_from (i + 1) ps, by simp [params_from, hk], ?_⟩
    intro x hx
    obtain ⟨j, piece, h1, h2, h3⟩ := params_from_later (i + 1) ps x hx
    exact ⟨j + 1, piece, by omega, by simpa using h1, h2, by rw [h3]; congr 1; omega⟩
  | i, p :: ps, j + 1, piece, hj, hk => by
    simp only [List.getElem?_cons_succ] at hj
    obtain ⟨l1, l2, h1, h2⟩ := params_from_split (i + 1) ps j piece hj hk
    have hidx : i + 1 + j = i + (j + 1) := by omega
    rw [hidx] at h1
    have hrest : ∀ x ∈ l2, ∃ j' piece', j + 1 < j' ∧ (p :: ps)[j']? = some piece'
        ∧ piece'.kind = segment_kind.parameter
        ∧ x = (parameter_name piece'.text, i + j') := by
      intro x hx
      obtain ⟨j', piece', a1, a2, a3, a4⟩ := h2 x hx
      exact ⟨j' + 1, piece', by omega, by simpa using a2, a3, by rw [a4]; congr 1; omega⟩
    by_cases hp : p.kind = segment_kind.parameter
    · exact ⟨(parameter_name p.text, i) :: l1, l2, by simp [params_from, hp, h1], hrest⟩
    · exact ⟨l1, l2, by simp [params_from, hp, h1], hrest⟩

theorem capture_loop_eq (url_pieces : List cstring) :
    ∀ (l pre : List (cstring × Nat)) (r : http_request),
      (∀ x ∈ l, x.2 < url_pieces.length) →
      capture_loop ((pre ++ l).map Prod.fst) url_pieces ((pre ++ l).map Prod.snd)
          l.length pre.length r
        = some (capture_writes url_pieces r l)
  | [], _, _, _ => by simp [capture_loop, capture_writes]
  | x :: l, pre, r, hb => by
    have hx : x.2 < url_pieces.length := hb x (List.mem_cons_self _ _)
    have h1 : ((pre ++ x :: l).map Prod.fst)[pre.length]? = some x.1 := by
      rw [List.map_append, List.getElem?_append_right (by simp)]
      simp
    have h2 : ((pre ++ x :: l).map Prod.snd)[pre.length]? = some x.2 := by
      rw [List.map_append, List.getElem?_append_right (by simp)]
      simp
    have h3 : url_pieces[x.2]? = some (url_pieces.getD x.2 []) := by
      rw [List.getD_eq_getElem?_getD, List.getElem?_eq_getElem hx]
      simp
    have ih := capture_loop_eq url_pieces l (pre ++ [x])
      (r.set_arg x.1 (url_pieces.getD x.2 []))
      (fun y hy => hb y (List.mem_cons_of_mem _ hy))
    simp only [List.append_assoc, List.singleton_append, List.length_append,
      List.length_singleton] at ih
    simp only [List.length_cons, capture_loop, h1, h2, h3, ih, capture_writes,
      List.foldl_cons]

theorem get_arg_set_arg_self (r : http_request) (n v : cstring) :
    (r.set_arg n v).get_arg n = some v := by
  unfold http_request.set_arg http_request.get_arg
  obtain ⟨k', hk⟩ := smap_find_assign_self strict_weak_str_lt n v r.args
  simp [hk]

theorem get_arg_set_arg_other (r : http_request) (n n' v : cstring) (h : n' ≠ n) :
    (r.set_arg n' v).get_arg n = r.get_arg n := by
  unfold http_request.set_arg http_request.get_arg
  have hne : str_lt n' n = true ∨ str_lt n n' = true := by
    cases h1 : str_lt n' n with
    | true => exact Or.inl rfl
    | false =>
      cases h2 : str_lt n n' with
      | true => exact Or.inr rfl
      | false => exact absurd (str_lt_connex n' n h1 h2) h
  simp only []
  rw [smap_find_assign_other strict_weak_str_lt n' n v r.args hne]

theorem capture_writes_other (url_pieces : List cstring) (n : cstring) :
    ∀ (l : List (cstring × Nat)) (r : http_request), (∀ x ∈ l, x.1 ≠ n) →
      (capture_writes url_pieces r l).get_arg n = r.get_arg n
  | [], _, _ => rfl
  | x :: l, r, h => by
    have ih := capture_writes_other url_pieces n l
      (r.set_arg x.1 (url_pieces.getD x.2 [])) (fun y hy => h y (List.mem_cons_of_mem _ hy))
    simp only [capture_writes, List.foldl_cons] at ih ⊢
    rw [ih, get_arg_set_arg_other r n x.1 _ (h x (List.mem_cons_self _ _))]

theorem capture_writes_last (url_pieces : List cstring) (n : cstring) (j : Nat)
    (l1 l2 : List (cstring × Nat)) (r : http_request) (h : ∀ x ∈ l2, x.1 ≠ n) :
    (capture_writes url_pieces r (l1 ++ (n, j) :: l2)).get_arg n
      = some (url_pieces.getD j []) := by
  have h1 : capture_writes url_pieces r (l1 ++ (n, j) :: l2)
      = capture_writes url_pieces
          ((capture_writes url_pieces r l1).set_arg n (url_pieces.getD j [])) l2 := by
    simp [capture_writes, List.foldl_append]
  rw [h1, capture_writes_other url_pieces n l2 _ h, get_arg_set_arg_self]

theorem route_resolution_selected (env : collaborators) (ws : webserver) (st_url : cstring)
    (dhr : http_request) (hsingle : ws.single_resource = false)
    (hregex : ws.regex_checking = true)
    (hmiss : smap_find http_endpoint.lt
      (http_endpoint.make st_url false false ws.regex_checking) ws.registered_resources = none)
    (e : http_endpoint × http_resource)
    (hsel : (ws.route_resolution env st_url dhr).found_endpoint = some e) :
    e.1.matches env.regex_full_match
        (http_endpoint.make st_url false false ws.regex_checking) = true
      ∧ (ws.route_resolution env st_url dhr).dhr
          = capture_loop e.1.get_url_pars
              (http_endpoint.make st_url false false ws.regex_checking).get_url_pieces
              e.1.get_chunk_positions e.1.get_url_pars.length 0 dhr := by
  rw [route_resolution_scan env ws st_url dhr hsingle hregex hmiss] at hsel ⊢
  have hinv := scan_resources_inv env
    (http_endpoint.make st_url false false ws.regex_checking) ws.registered_resources
  rcases hinv with ⟨hf, _, _, he, _⟩ | ⟨hf, l1, e', l2, hpre, he, hm, _, _, _, _⟩
  · rw [hf] at hsel
    simp at hsel
  · rw [hf, he] at hsel ⊢
    simp only [if_true, Option.some.injEq] at hsel ⊢
    subst hsel
    exact ⟨hm, rfl⟩

theorem captures_of_selected (env : collaborators) (ws : webserver) (st_url : cstring)
    (dhr : http_request) (P : http_endpoint) (h : http_resource)
    (hsingle : ws.single_resource = false) (hregex : ws.regex_checking = true)
    (hmiss : smap_find http_endpoint.lt
      (http_endpoint.make st_url false false ws.regex_checking) ws.registered_resources = none)
    (hsel : (ws.route_resolution env st_url dhr).found_endpoint = some (P, h)) :
    (ws.route_resolution env st_url dhr).dhr
        = some (capture_writes
            (http_endpoint.make st_url false false ws.regex_checking).get_url_pieces dhr
            (params_from 0 P.url_pieces))
      ∧ ∀ x ∈ params_from 0 P.url_pieces,
          x.2 < (http_endpoint.make st_url false false ws.regex_checking).get_url_pieces.length := by
  obtain ⟨hm, hd⟩ := route_resolution_selected env ws st_url dhr hsingle hregex hmiss (P, h) hsel
  have hlen : P.url_pieces.length
      ≤ (http_endpoint.make st_url false false ws.regex_checking).get_url_pieces.length :=
    matches_length _ _ _ hm
  have hb : ∀ x ∈ params_from 0 P.url_pieces,
      x.2 < (http_endpoint.make st_url false false ws.regex_checking).get_url_pieces.length := by
    intro x hx
    have := params_from_bound 0 P.url_pieces x hx
    omega
  refine ⟨?_, hb⟩
  rw [hd]
  have hloop := capture_loop_eq
    (http_endpoint.make st_url false false ws.regex_checking).get_url_pieces
    (params_from 0 P.url_pieces) [] dhr hb
  simp only [List.nil_append, List.length_nil] at hloop
  unfold http_endpoint.get_url_pars http_endpoint.get_chunk_positions
  rw [← params_from_fst 0, ← params_from_snd 0, List.length_map]
  exact hloop

/-- Counterexample to C4 as stated: the route `/{a}/{a}` is selected for
`/1/2`; its segment 0 is a parameter named `a` and segment 0 of the URL is
`1`, but the request argument `a` is `2` afterwards. -/
theorem C4_counterexample :
    (repeat_server.route_resolution demo_env "/1/2".toList http_request.new).found_endpoint.map
        (fun e => e.1) = some (http_endpoint.make "/{a}/{a}".toList false true true)
    ∧ (http_endpoint.make "/{a}/{a}".toList false true true).url_pieces[0]?
        = some { text := "{a}".toList, kind := segment_kind.parameter }
    ∧ parameter_name "{a}".toList = "a".toList
    ∧ (http_endpoint.make "/1/2".toList false false true).get_url_pieces[0]?
        = some "1".toList
    ∧ ((repeat_server.route_resolution demo_env "/1/2".toList http_request.new).dhr.bind
        (fun r => r.get_arg "a".toList)) = some "2".toList
    ∧ ((repeat_server.route_resolution demo_env "/1/2".toList http_request.new).dhr.bind
        (fun r => r.get_arg "a".toList)) ≠ some "1".toList := by
  decide

/-- C4, amended: when the scan selects the pattern `P` for a URL, every index
that the capture loop uses to read the parameter names, the chunk positions
and the URL segments is in bounds (the loop ends with a request), and for
every parameter segment of `P` whose name is not the name of a later
parameter segment of `P`, the request argument of that name is the segment of
the URL at the position of that parameter. For the routes `/users/{id}` and
`/users/{id}/posts/{pid}` and the URL `/users/42/posts/7` the second route is
selected with `id = 42` and `pid = 7`. -/
theorem C4_captures_of_selected_route (env : collaborators) :
    (∀ (ws : webserver) (st_url : cstring) (dhr : http_request) (P : http_endpoint)
        (h : http_resource),
        ws.single_resource = false → ws.regex_checking = true →
        smap_find http_endpoint.lt (http_endpoint.make st_url false false ws.regex_checking)
          ws.registered_resources = none →
        (ws.route_resolution env st_url dhr).found_endpoint = some (P, h) →
        ∃ r, (ws.route_resolution env st_url dhr).dhr = some r
          ∧ ∀ (j : Nat) (piece : url_piece),
              P.url_pieces[j]? = some piece → piece.kind = segment_kind.parameter →
              (∀ (j' : Nat) (piece' : url_piece), j < j' → P.url_pieces[j']? = some piece' →
                piece'.kind = segment_kind.parameter →
                parameter_name piece'.text ≠ parameter_name piece.text) →
              ∃ seg,
                (http_endpoint.make st_url false false ws.regex_checking).get_url_pieces[j]?
                    = some seg
                  ∧ r.get_arg (parameter_name piece.text) = some seg)
    ∧ (∀ (params : create_webserver) (h1 h2 : http_resource) (dhr : http_request),
        ((((webserver.create
              { params with _single_resource := none, _regex_checking := true }).register_resource
              "/users/{id}".toList h1 false).register_resource
              "/users/{id}/posts/{pid}".toList h2 false).route_resolution
            env "/users/42/posts/7".toList dhr).found_endpoint
          = some (http_endpoint.make "/users/{id}/posts/{pid}".toList false true true,
              if params._method_not_acceptable_resource.isSome then
                h2.set_method_not_acceptable_resource params._method_not_acceptable_resource
              else h2)
        ∧ ∃ r,
          ((((webserver.create
              { params with _single_resource := none, _regex_checking := true }).register_resource
              "/users/{id}".toList h1 false).register_resource
              "/users/{id}/posts/{pid}".toList h2 false).route_resolution
            env "/users/42/posts/7".toList dhr).dhr = some r
          ∧ r.get_arg "id".toList = some "42".toList
          ∧ r.get_arg "pid".toList = some "7".toList) := by
  constructor
  · intro ws st_url dhr P h hsingle hregex hmiss hsel
    obtain ⟨hd, hb⟩ := captures_of_selected env ws st_url dhr P h hsingle hregex hmiss hsel
    refine ⟨_, hd, ?_⟩
    intro j piece hj hk hlater
    obtain ⟨l1, l2, hsplit, hl2⟩ := params_from_split 0 P.url_pieces j piece hj hk
    have hjb : j < (http_endpoint.make st_url false false
        ws.regex_checking).get_url_pieces.length := by
      have := hb (parameter_name piece.text, 0 + j) (by rw [hsplit]; simp)
      simpa using this
    refine ⟨(http_endpoint.make st_url false false ws.regex_checking).get_url_pieces.getD j [],
      ?_, ?_⟩
    · rw [List.getD_eq_getElem?_getD, List.getElem?_eq_getElem hjb]
      simp
    · rw [hsplit]
      have := capture_writes_last
        (http_endpoint.make st_url false false ws.regex_checking).get_url_pieces
        (parameter_name piece.text) (0 + j) l1 l2 dhr (by
          intro x hx
          obtain ⟨j', piece', a1, a2, a3, a4⟩ := hl2 x hx
          rw [a4]
          exact hlater j' piece' a1 a2 a3)
      simpa using this
  · intro params h1 h2 dhr
    obtain ⟨u, dp, ba, da, rc, bs, pp, sr, nf, mna, mnac, ie, sm, mt⟩ := params
    have hsel : ((((webserver.create
          { _unescaper_pointer := u, _default_policy := dp, _basic_auth_enabled := ba,
            _digest_auth_enabled := da, _regex_checking := true, _ban_system_enabled := bs,
            _post_process_enabled := pp, _single_resource := none, _not_found_resource := nf,
            _method_not_allowed_resource := mna, _method_not_acceptable_resource := mnac,
            _internal_error_resource := ie, _start_method := sm, _max_threads := mt }).register_resource
          "/users/{id}".toList h1 false).register_resource
          "/users/{id}/posts/{pid}".toList h2 false).route_resolution
        env "/users/42/posts/7".toList dhr).found_endpoint
        = some (http_endpoint.make "/users/{id}/posts/{pid}".toList false true true,
            if mnac.isSome then h2.set_method_not_acceptable_resource mnac else h2) := rfl
    refine ⟨hsel, ?_⟩
    obtain ⟨hd, _⟩ := captures_of_selected env
      (((webserver.create
          { _unescaper_pointer := u, _default_policy := dp, _basic_auth_enabled := ba,
            _digest_auth_enabled := da, _regex_checking := true, _ban_system_enabled := bs,
            _post_process_enabled := pp, _single_resource := none, _not_found_resource := nf,
            _method_not_allowed_resource := mna, _method_not_acceptable_resource := mnac,
            _internal_error_resource := ie, _start_method := sm, _max_threads := mt }).register_resource
          "/users/{id}".toList h1 false).register_resource
          "/users/{id}/posts/{pid}".toList h2 false)
      "/users/42/posts/7".toList dhr
      (http_endpoint.make "/users/{id}/posts/{pid}".toList false true true)
      (if mnac.isSome then h2.set_method_not_acceptable_resource mnac else h2)
      rfl rfl rfl hsel
    refine ⟨_, hd, ?_, ?_⟩
    · exact capture_writes_last _ "id".toList 1 [] [("pid".toList, 3)] dhr (by decide)
    · exact capture_writes_last _ "pid".toList 3 [("id".toList, 1)] [] dhr (by decide)

/-- Witness of C4 (amended) on the example server: `/users/{id}` is selected
for `/users/42` and `id` is read from segment 1. -/
theorem C4_witness :
    ∃ r, (demo_server.route_resolution demo_env "/users/42".toList http_request.new).dhr
          = some r
      ∧ ∀ (j : Nat) (piece : url_piece),
          (http_endpoint.make "/users/{id}".toList false true true).url_pieces[j]? = some piece →
          piece.kind = segment_kind.parameter →
          (∀ (j' : Nat) (piece' : url_piece), j < j' →
            (http_endpoint.make "/users/{id}".toList false true true).url_pieces[j']?
              = some piece' →
            piece'.kind = segment_kind.parameter →
            parameter_name piece'.text ≠ parameter_name piece.text) →
          ∃ seg,
            (http_endpoint.make "/users/42".toList false false
              demo_server.regex_checking).get_url_pieces[j]? = some seg
              ∧ r.get_arg (parameter_name piece.text) = some seg :=
  (C4_captures_of_selected_route demo_env).1 demo_server "/users/42".toList http_request.new
    (http_endpoint.make "/users/{id}".toList false true true) (demo_resource "user")
    rfl rfl rfl rfl

/-! ## IP policy -/

theorem div_pow_split (x s t : Nat) (h : s ≤ t) : x / 2 ^ t = x / 2 ^ s / 2 ^ (t - s) := by
  rw [Nat.div_div_eq_div_mul, ← pow_add]
  congr 2
  omega

theorem of_sockaddr_mask (addr : sockaddr) :
    (ip_representation.of_sockaddr addr).mask_bits = 128 := by
  cases addr <;> rfl

theorem ip_lt_of_lt_of_covers (e c peer : ip_representation) (hpeer : peer.mask_bits = 128)
    (hec : e.lt c = true) (hc : c.covers peer = true) : e.lt peer = true := by
  unfold ip_representation.covers at hc
  unfold ip_representation.lt leading_bits at *
  rw [hpeer] at hc ⊢
  simp only [Bool.and_eq_true, Bool.not_eq_true', decide_eq_false_iff_not, not_lt,
    decide_eq_true_eq] at hc hec ⊢
  have hs2 : 128 - min c.mask_bits 128 ≤ 128 - min e.mask_bits c.mask_bits := by omega
  have hs2' : 128 - min 128 c.mask_bits = 128 - min c.mask_bits 128 := by
    rw [Nat.min_comm]
  have hs3 : 128 - min e.mask_bits 128 ≤ 128 - min e.mask_bits c.mask_bits := by omega
  rw [hs2'] at hc
  have heq : c.address / 2 ^ (128 - min c.mask_bits 128)
      = peer.address / 2 ^ (128 - min c.mask_bits 128) := Nat.le_antisymm hc.2 hc.1
  have h1 : c.address / 2 ^ (128 - min e.mask_bits c.mask_bits)
      = peer.address / 2 ^ (128 - min e.mask_bits c.mask_bits) := by
    rw [div_pow_split c.address _ _ hs2, div_pow_split peer.address _ _ hs2, heq]
  rw [h1] at hec
  by_contra hcon
  have hle : peer.address / 2 ^ (128 - min e.mask_bits 128)
      ≤ e.address / 2 ^ (128 - min e.mask_bits 128) := Nat.le_of_not_lt hcon
  have := Nat.div_le_div_right
    (c := 2 ^ (128 - min e.mask_bits c.mask_bits - (128 - min e.mask_bits 128))) hle
  rw [← div_pow_split peer.address _ _ hs3, ← div_pow_split e.address _ _ hs3] at this
  omega

theorem sset_wf_cons {K : Type} (lt : K → K → Bool) (k : K) (rest : List K) :
    sset_wf lt (k :: rest) = true ↔ (∀ e ∈ rest, lt k e = true) ∧ sset_wf lt rest = true := by
  simp [sset_wf, List.all_eq_true]

theorem ip_count_ne_zero_iff (s : List ip_representation) (addr : sockaddr)
    (hwf : sset_wf ip_representation.lt s = true) :
    ip_count s addr ≠ 0 ↔ covered s addr := by
  unfold ip_count covered
  induction s with
  | nil => simp [sset_count]
  | cons e rest ih =>
    rw [sset_wf_cons] at hwf
    simp only [sset_count]
    by_cases h1 : e.lt (ip_representation.of_sockaddr addr) = true
    · rw [if_pos h1, ih hwf.2]
      constructor
      · rintro ⟨c, hc, hcov⟩
        exact ⟨c, List.mem_cons_of_mem _ hc, hcov⟩
      · rintro ⟨c, hc, hcov⟩
        rcases List.mem_cons.mp hc with hc | hc
        · subst hc
          unfold ip_representation.covers at hcov
          rw [h1] at hcov
          simp at hcov
        · exact ⟨c, hc, hcov⟩
    · rw [if_neg h1]
      by_cases h2 : (ip_representation.of_sockaddr addr).lt e = true
      · rw [if_pos h2]
        simp only [ne_eq, not_true_eq_false, false_iff]
        rintro ⟨c, hc, hcov⟩
        rcases List.mem_cons.mp hc with hc | hc
        · subst hc
          unfold ip_representation.covers at hcov
          rw [h2] at hcov
          simp at hcov
        · have := ip_lt_of_lt_of_covers e c _ (of_sockaddr_mask addr) (hwf.1 c hc) hcov
          exact h1 this
      · rw [if_neg h2]
        simp only [ne_eq, one_ne_zero, not_false_eq_true, true_iff]
        refine ⟨e, List.mem_cons_self _ _, ?_⟩
        unfold ip_representation.covers
        simp only [Bool.not_eq_true] at h1 h2
        rw [h1, h2]
        rfl

/-- C5: for every peer address and every ban and allowance set, the policy
callback admits the peer (returns `MHD_YES`, otherwise it returns `MHD_NO`)
exactly when the ban system is disabled, or the default policy is accept and
the bans do not cover the peer or the allowances cover it, or the default
policy is reject and the allowances cover the peer and the bans do not. With
`10.0.0.0/8` banned, `10.1.2.3` allowed and default accept, the peer
`10.0.0.5` is rejected and the peers `10.1.2.3` and `192.168.0.1` are
admitted. -/
theorem C5_ip_admission :
    (∀ (ws : webserver) (addr : sockaddr),
        sset_wf ip_representation.lt ws.bans = true →
        sset_wf ip_representation.lt ws.allowances = true →
        (policy_callback ws addr = MHD_YES ∨ policy_callback ws addr = MHD_NO)
        ∧ (policy_callback ws addr = MHD_YES ↔
            (ws.ban_system_enabled = false
              ∨ (ws.default_policy = policy_T.ACCEPT
                  ∧ (¬ covered ws.bans addr ∨ covered ws.allowances addr))
              ∨ (ws.default_policy = policy_T.REJECT
                  ∧ covered ws.allowances addr ∧ ¬ covered ws.bans addr))))
    ∧ (∀ (params : create_webserver) (port : Nat),
        policy_callback (policy_server params) (sockaddr.in4 10 0 0 5 port) = MHD_NO
        ∧ policy_callback (policy_server params) (sockaddr.in4 10 1 2 3 port) = MHD_YES
        ∧ policy_callback (policy_server params) (sockaddr.in4 192 168 0 1 port) = MHD_YES) := by
  constructor
  · intro ws addr hb ha
    have hbans := ip_count_ne_zero_iff ws.bans addr hb
    have hallow := ip_count_ne_zero_iff ws.allowances addr ha
    unfold policy_callback
    cases hen : ws.ban_system_enabled <;> cases hpol : ws.default_policy <;>
      by_cases hcb : ip_count ws.bans addr = 0 <;>
      by_cases hca : ip_count ws.allowances addr = 0 <;>
      simp [hcb, hca, ← hbans, ← hallow, MHD_YES, MHD_NO]
  · intro params port
    have hb : (policy_server params).bans = [ip_representation.of_ipv4 10 0 0 0 8] := by
      obtain ⟨u, dp, ba, da, rc, bs, pp, sr, nf, mna, mnac, ie, sm, mt⟩ := params
      cases sr <;> rfl
    have ha : (policy_server params).allowances = [ip_representation.of_ipv4 10 1 2 3 32] := by
      obtain ⟨u, dp, ba, da, rc, bs, pp, sr, nf, mna, mnac, ie, sm, mt⟩ := params
      cases sr <;> rfl
    have hp : (policy_server params).default_policy = policy_T.ACCEPT := by
      obtain ⟨u, dp, ba, da, rc, bs, pp, sr, nf, mna, mnac, ie, sm, mt⟩ := params
      cases sr <;> rfl
    have he : (policy_server params).ban_system_enabled = true := by
      obtain ⟨u, dp, ba, da, rc, bs, pp, sr, nf, mna, mnac, ie, sm, mt⟩ := params
      cases sr <;> rfl
    have c1 : ip_count [ip_representation.of_ipv4 10 0 0 0 8] (sockaddr.in4 10 0 0 5 port) = 1 := by
      simp only [ip_count, ip_representation.of_sockaddr]
      decide
    have c2 : ip_count [ip_representation.of_ipv4 10 1 2 3 32] (sockaddr.in4 10 0 0 5 port) = 0 := by
      simp only [ip_count, ip_representation.of_sockaddr]
      decide
    have c3 : ip_count [ip_representation.of_ipv4 10 0 0 0 8] (sockaddr.in4 10 1 2 3 port) = 1 := by
      simp only [ip_count, ip_representation.of_sockaddr]
      decide
    have c4 : ip_count [ip_representation.of_ipv4 10 1 2 3 32] (sockaddr.in4 10 1 2 3 port) = 1 := by
      simp only [ip_count, ip_representation.of_sockaddr]
      decide
    have c5 : ip_count [ip_representation.of_ipv4 10 0 0 0 8] (sockaddr.in4 192 168 0 1 port) = 0 := by
      simp only [ip_count, ip_representation.of_sockaddr]
      decide
    unfold policy_callback
    rw [hb, ha, hp, he, c1, c2, c3, c4, c5]
    simp [MHD_YES, MHD_NO]

/-- Witness of C5 on the example policy: the sets of the scenario are well
formed. -/
theorem C5_witness :
    (policy_callback (policy_server demo_params) (sockaddr.in4 10 0 0 5 80) = MHD_YES
      ∨ policy_callback (policy_server demo_params) (sockaddr.in4 10 0 0 5 80) = MHD_NO)
    ∧ (policy_callback (policy_server demo_params) (sockaddr.in4 10 0 0 5 80) = MHD_YES ↔
        ((policy_server demo_params).ban_system_enabled = false
          ∨ ((policy_server demo_params).default_policy = policy_T.ACCEPT
              ∧ (¬ covered (policy_server demo_params).bans (sockaddr.in4 10 0 0 5 80)
                  ∨ covered (policy_server demo_params).allowances (sockaddr.in4 10 0 0 5 80)))
          ∨ ((policy_server demo_params).default_policy = policy_T.REJECT
              ∧ covered (policy_server demo_params).allowances (sockaddr.in4 10 0 0 5 80)
              ∧ ¬ covered (policy_server demo_params).bans (sockaddr.in4 10 0 0 5 80)))) :=
  C5_ip_admission.1 (policy_server demo_params) (sockaddr.in4 10 0 0 5 80) rfl rfl

/-! ## Response cache -/

section smap_erase_lemmas
variable {K V : Type} {lt : K → K → Bool}

theorem smap_find_none_of_all_gt (h : strict_weak lt) (k : K) (m : List (K × V))
    (hall : ∀ e ∈ m, lt k e.1 = true) : smap_find lt k m = none := by
  cases m with
  | nil => rfl
  | cons e rest =>
    obtain ⟨k', v'⟩ := e
    have h1 : lt k k' = true := hall (k', v') (List.mem_cons_self _ _)
    simp [smap_find, h1, h.asymm _ _ h1]

theorem smap_find_erase_other (h : strict_weak lt) (k k2 : K) (m : List (K × V))
    (hwf : smap_wf lt m = true) (hne : lt k k2 = true ∨ lt k2 k = true) :
    smap_find lt k2 (smap_erase lt k m) = smap_find lt k2 m := by
  induction m with
  | nil => rfl
  | cons e rest ih =>
    obtain ⟨k', v'⟩ := e
    rw [smap_wf_cons] at hwf
    simp only [smap_erase]
    by_cases h1 : lt k' k = true
    · rw [if_pos h1]
      simp only [smap_find, ih hwf.2]
    · rw [if_neg h1]
      by_cases h2 : lt k k' = true
      · rw [if_pos h2]
      · rw [if_neg h2]
        have h1' : lt k' k = false := by simpa using h1
        have h2' : lt k k' = false := by simpa using h2
        rcases hne with hne | hne
        · have h3 : lt k' k2 = true := h.lt_of_incomp_of_lt h1' h2' hne
          simp [smap_find, h3]
        · have h3 : lt k2 k' = true := h.lt_of_lt_of_incomp hne h2' h1'
          have h4 : smap_find lt k2 rest = none :=
            smap_find_none_of_all_gt h k2 rest
              (fun e he => h.trans _ _ _ h3 (hwf.1 e he))
          simp [smap_find, h3, h.asymm _ _ h3, h4]

theorem smap_find_erase_self (h : strict_weak lt) (k : K) (m : List (K × V))
    (hwf : smap_wf lt m = true) : smap_find lt k (smap_erase lt k m) = none := by
  induction m with
  | nil => rfl
  | cons e rest ih =>
    obtain ⟨k', v'⟩ := e
    rw [smap_wf_cons] at hwf
    simp only [smap_erase]
    by_cases h1 : lt k' k = true
    · rw [if_pos h1]
      simp only [smap_find, h1, if_true, ih hwf.2]
    · rw [if_neg h1]
      by_cases h2 : lt k k' = true
      · rw [if_pos h2]
        simp [smap_find, h1, h2]
      · rw [if_neg h2]
        have h1' : lt k' k = false := by simpa using h1
        have h2' : lt k k' = false := by simpa using h2
        exact smap_find_none_of_all_gt h k rest
          (fun e he => h.lt_of_incomp_of_lt h2' h1' (hwf.1 e he))

theorem smap_erase_subset (k : K) (m : List (K × V)) : ∀ e ∈ smap_erase lt k m, e ∈ m := by
  induction m with
  | nil => intro e he; simp [smap_erase] at he
  | cons e0 rest ih =>
    obtain ⟨k', v'⟩ := e0
    intro e he
    simp only [smap_erase] at he
    by_cases h1 : lt k' k = true
    · rw [if_pos h1] at he
      rcases List.mem_cons.mp he with he | he
      · rw [he]
        exact List.mem_cons_self _ _
      · exact List.mem_cons_of_mem _ (ih e he)
    · rw [if_neg h1] at he
      by_cases h2 : lt k k' = true
      · rw [if_pos h2] at he
        exact he
      · rw [if_neg h2] at he
        exact List.mem_cons_of_mem _ he

theorem smap_wf_erase (k : K) (m : List (K × V)) (hwf : smap_wf lt m = true) :
    smap_wf lt (smap_erase lt k m) = true := by
  induction m with
  | nil => rfl
  | cons e0 rest ih =>
    obtain ⟨k', v'⟩ := e0
    have hwf0 := hwf
    rw [smap_wf_cons] at hwf
    simp only [smap_erase]
    by_cases h1 : lt k' k = true
    · rw [if_pos h1, smap_wf_cons]
      exact ⟨fun e he => hwf.1 e (smap_erase_subset k rest e he), ih hwf.2⟩
    · rw [if_neg h1]
      by_cases h2 : lt k k' = true
      · rw [if_pos h2]
        exact hwf0
      · rw [if_neg h2]
        exact hwf.2

end smap_erase_lemmas

theorem str_lt_of_ne (a b : cstring) (h : a ≠ b) : str_lt a b = true ∨ str_lt b a = true := by
  cases h1 : str_lt a b with
  | true => exact Or.inl rfl
  | false =>
    cases h2 : str_lt b a with
    | true => exact Or.inr rfl
    | false => exact absurd (str_lt_connex a b h1 h2) h

theorem is_valid_congr (ws1 ws2 : webserver) (now : Int) (key : cstring)
    (h : smap_find str_lt key ws1.response_cache = smap_find str_lt key ws2.response_cache) :
    ws1.is_valid now key = ws2.is_valid now key := by
  unfold webserver.is_valid
  rw [h]

theorem get_from_cache_congr (ws1 ws2 : webserver) (now : Int) (key : cstring)
    (h : smap_find str_lt key ws1.response_cache = smap_find str_lt key ws2.response_cache) :
    ws1.get_from_cache now key = ws2.get_from_cache now key := by
  unfold webserver.get_from_cache
  rw [h]

theorem remove_find_other (ws : webserver) (key key2 : cstring)
    (hwf : smap_wf str_lt ws.response_cache = true) (hne : key2 ≠ key) :
    smap_find str_lt key2 (ws.remove_from_cache key).response_cache
      = smap_find str_lt key2 ws.response_cache := by
  have hlt : str_lt key key2 = true ∨ str_lt key2 key = true :=
    str_lt_of_ne key key2 (fun h => hne h.symm)
  unfold webserver.remove_from_cache
  cases hfind : smap_find str_lt key ws.response_cache with
  | none => rfl
  | some found => exact smap_find_erase_other strict_weak_str_lt key key2 _ hwf hlt

theorem remove_wf (ws : webserver) (key : cstring)
    (hwf : smap_wf str_lt ws.response_cache = true) :
    smap_wf str_lt (ws.remove_from_cache key).response_cache = true := by
  unfold webserver.remove_from_cache
  cases hfind : smap_find str_lt key ws.response_cache with
  | none => exact hwf
  | some found => exact smap_wf_erase key _ hwf

theorem extends_calls_refl (dhr : http_request) (st : answer_state) :
    extends_calls dhr st st :=
  ⟨[], by simp, by simp⟩

theorem extends_calls_trans {dhr : http_request} {a b c : answer_state}
    (h1 : extends_calls dhr a b) (h2 : extends_calls dhr b c) : extends_calls dhr a c := by
  obtain ⟨e1, h1a, h1b⟩ := h1
  obtain ⟨e2, h2a, h2b⟩ := h2
  refine ⟨e1 ++ e2, by rw [h2a, h1a, List.append_assoc], ?_⟩
  intro x hx
  rcases List.mem_append.mp hx with hx | hx
  · exact h1b x hx
  · exact h2b x hx

theorem extends_calls_of_calls_eq (dhr : http_request) {a b : answer_state}
    (h : b.calls = a.calls) : extends_calls dhr a b :=
  ⟨[], by simp [h], by simp⟩

theorem call_hook_extends (site : hook_site) (hs : site ≠ hook_site.route)
    (res : http_resource) (callback : Option render_hook) (dhr : http_request)
    (st : answer_state) : extends_calls dhr st (call_hook site res callback dhr st) := by
  unfold call_hook
  by_cases hu : st.undefined = true
  · rw [if_pos hu]
    exact extends_calls_refl dhr st
  · rw [if_neg hu]
    cases callback with
    | none => exact extends_calls_of_calls_eq dhr rfl
    | some cb =>
      refine ⟨[{ site := site, hook := cb, request := dhr }], rfl, ?_⟩
      intro c hc
      simp only [List.mem_singleton] at hc
      rw [hc]
      exact ⟨hs, rfl⟩

theorem not_found_page_extends (ws : webserver) (callback : Option render_hook)
    (dhr : http_request) (st : answer_state) :
    extends_calls dhr st (ws.not_found_page callback dhr st) := by
  unfold webserver.not_found_page
  cases ws.not_found_resource with
  | none => exact extends_calls_of_calls_eq dhr rfl
  | some r => exact call_hook_extends _ (by decide) r callback dhr st

theorem method_not_allowed_page_extends (ws : webserver) (callback : Option render_hook)
    (dhr : http_request) (st : answer_state) :
    extends_calls dhr st (ws.method_not_allowed_page callback dhr st) := by
  unfold webserver.method_not_allowed_page
  cases ws.method_not_allowed_resource with
  | none => exact extends_calls_of_calls_eq dhr rfl
  | some r => exact call_hook_extends _ (by decide) r callback dhr st

theorem internal_error_page_extends (ws : webserver) (callback : Option render_hook)
    (dhr : http_request) (force_our : Bool) (st : answer_state) :
    extends_calls dhr st (ws.internal_error_page callback dhr force_our st) := by
  unfold webserver.internal_error_page
  cases ws.internal_error_resource with
  | none => exact extends_calls_of_calls_eq dhr rfl
  | some r =>
    cases force_our with
    | false => exact call_hook_extends _ (by decide) r callback dhr st
    | true => exact extends_calls_of_calls_eq dhr rfl

theorem get_raw_response_extends (dhr : http_request) (st : answer_state) :
    extends_calls dhr st (get_raw_response st) := by
  unfold get_raw_response
  by_cases h : (st.undefined || st.thrown.isSome) = true
  · rw [if_pos h]
    exact extends_calls_refl dhr st
  · rw [if_neg h]
    cases st.dhrs with
    | none => exact extends_calls_of_calls_eq dhr rfl
    | some r => exact extends_calls_of_calls_eq dhr rfl

theorem render_handlers_extends (ws : webserver) (callback : Option render_hook)
    (dhr : http_request) (e : exception_kind) (st : answer_state) :
    extends_calls dhr st (ws.render_handlers callback dhr e st) := by
  unfold webserver.render_handlers
  cases e with
  | file_access =>
    exact extends_calls_trans (not_found_page_extends ws callback dhr _)
      (get_raw_response_extends dhr _)
  | std_exception =>
    exact extends_calls_trans (internal_error_page_extends ws callback dhr false _)
      (get_raw_response_extends dhr _)
  | other =>
    exact extends_calls_trans (internal_error_page_extends ws callback dhr false _)
      (get_raw_response_extends dhr _)

theorem render_last_resort_extends (ws : webserver) (callback : Option render_hook)
    (dhr : http_request) (st : answer_state) :
    extends_calls dhr st (ws.render_last_resort callback dhr st) := by
  unfold webserver.render_last_resort
  split
  · exact extends_calls_refl dhr st
  · have h1 : extends_calls dhr st ({ st with thrown := none } : answer_state) :=
      extends_calls_of_calls_eq dhr rfl
    exact extends_calls_trans h1
      (extends_calls_trans (internal_error_page_extends ws callback dhr true _)
        (get_raw_response_extends dhr _))

theorem render_response_extends (ws : webserver) (callback : Option render_hook)
    (dhr : http_request) (st : answer_state) :
    extends_calls dhr st (ws.render_response callback dhr st) := by
  unfold webserver.render_response
  split
  · exact get_raw_response_extends dhr st
  · rename_i e _
    have h1 : extends_calls dhr (get_raw_response st)
        ({ get_raw_response st with thrown := none } : answer_state) :=
      extends_calls_of_calls_eq dhr rfl
    exact extends_calls_trans (get_raw_response_extends dhr st)
      (extends_calls_trans h1
        (extends_calls_trans (render_handlers_extends ws callback dhr e _)
          (render_last_resort_extends ws callback dhr _)))

theorem route_calls_of_extends {dhr : http_request} {a b : answer_state}
    (h : extends_calls dhr a b) : route_calls b.calls = route_calls a.calls := by
  obtain ⟨extra, h1, h2⟩ := h
  unfold route_calls
  rw [h1, List.filter_append]
  have : extra.filter (fun c => c.site = hook_site.route) = [] := by
    rw [List.filter_eq_nil_iff]
    intro c hc
    simpa using (h2 c hc).1
  rw [this, List.append_nil]

theorem calls_on_of_extends {dhr : http_request} {a b : answer_state}
    (h : extends_calls dhr a b) (ha : calls_on dhr a.calls) : calls_on dhr b.calls := by
  obtain ⟨extra, h1, h2⟩ := h
  intro c hc
  rw [h1] at hc
  rcases List.mem_append.mp hc with hc | hc
  · exact ha c hc
  · exact (h2 c hc).2

theorem dispatch_calls_on (ws : webserver) (rr : resolution) (callback : Option render_hook)
    (method : cstring) (dhr : http_request) :
    calls_on dhr (ws.dispatch rr callback method dhr).calls := by
  have h0 : calls_on dhr
      ({ calls := [], dhrs := none, thrown := none, undefined := false } : answer_state).calls := by
    intro c hc
    simp at hc
  unfold webserver.dispatch
  simp only []
  split
  · split
    · intro c hc
      simp at hc
    · rename_i fe _
      have h1 : calls_on dhr
          (if fe.2.is_allowed method = true then
            call_hook hook_site.route fe.2 callback dhr
              { calls := [], dhrs := none, thrown := none, undefined := false }
          else ws.method_not_allowed_page callback dhr
              { calls := [], dhrs := none, thrown := none, undefined := false }).calls := by
        split
        · unfold call_hook
          simp only [Bool.false_eq_true, if_false]
          cases callback with
          | none => exact h0
          | some cb =>
            intro c hc
            simp only [List.nil_append, List.mem_singleton] at hc
            rw [hc]
        · exact calls_on_of_extends (method_not_allowed_page_extends ws callback dhr _) h0
      split
      · exact calls_on_of_extends (internal_error_page_extends ws callback dhr false _) h1
      · exact h1
  · exact calls_on_of_extends (not_found_page_extends ws callback dhr _) h0

theorem finalize_route_calls (env : collaborators) (ws : webserver)
    (connection : MHD_Connection) (mr : modded_request) (st_url method : cstring)
    (dhr0 dhr1 : http_request) (hdhr : mr.dhr = some dhr0)
    (hcap : (ws.route_resolution env st_url dhr0).dhr = some dhr1) :
    route_calls (ws.finalize_answer env connection mr st_url method).calls
      = route_calls (ws.dispatch (ws.route_resolution env st_url dhr0) mr.callback method
          (dhr1.on_connection connection)).calls := by
  unfold webserver.finalize_answer
  simp only [hdhr, hcap]
  by_cases hu : (ws.dispatch (ws.route_resolution env st_url dhr0) mr.callback method
      (dhr1.on_connection connection)).undefined = true
  · rw [if_pos hu]
  · rw [if_neg hu]
    cases hth : (ws.dispatch (ws.route_resolution env st_url dhr0) mr.callback method
        (dhr1.on_connection connection)).thrown with
    | some e => rfl
    | none =>
      cases hd : (ws.dispatch (ws.route_resolution env st_url dhr0) mr.callback method
          (dhr1.on_connection connection)).dhrs with
      | none => rfl
      | some r =>
        simp only []
        have hext := render_response_extends ws mr.callback (dhr1.on_connection connection)
          { ws.dispatch (ws.route_resolution env st_url dhr0) mr.callback method
              (dhr1.on_connection connection) with dhrs := some (r.on_connection connection) }
        have hrc := route_calls_of_extends hext
        simp only [hth] at hrc
        split
        · exact hrc
        · split <;> exact hrc

theorem dispatch_route_calls (ws : webserver) (rr : resolution) (cb : render_hook)
    (method : cstring) (dhr : http_request) :
    route_calls (ws.dispatch rr (some cb) method dhr).calls =
      match rr.found, rr.found_endpoint with
      | true, some fe =>
        if fe.2.is_allowed method then
          [{ site := hook_site.route, hook := cb, request := dhr }]
        else []
      | _, _ => [] := by
  unfold webserver.dispatch
  cases hf : rr.found with
  | false =>
    simp only [Bool.false_eq_true, if_false]
    exact route_calls_of_extends (not_found_page_extends ws (some cb) dhr _)
  | true =>
    cases hfe : rr.found_endpoint with
    | none => rfl
    | some fe =>
      simp only [if_true]
      by_cases hal : fe.2.is_allowed method = true
      · simp only [hal, if_true]
        have hc : route_calls (call_hook hook_site.route fe.2 (some cb) dhr
            { calls := [], dhrs := none, thrown := none, undefined := false }).calls
            = [{ site := hook_site.route, hook := cb, request := dhr }] := by
          simp [call_hook, route_calls]
        split
        · have hext := internal_error_page_extends ws (some cb) dhr false
            { call_hook hook_site.route fe.2 (some cb) dhr
                { calls := [], dhrs := none, thrown := none, undefined := false }
              with thrown := none }
          rw [route_calls_of_extends hext]
          exact hc
        · exact hc
      · simp only [hal, Bool.false_eq_true, if_false]
        have hc : route_calls (ws.method_not_allowed_page (some cb) dhr
            { calls := [], dhrs := none, thrown := none, undefined := false }).calls = [] :=
          route_calls_of_extends (method_not_allowed_page_extends ws (some cb) dhr _)
        split
        · have hext := internal_error_page_extends ws (some cb) dhr false
            { ws.method_not_allowed_page (some cb) dhr
                { calls := [], dhrs := none, thrown := none, undefined := false }
              with thrown := none }
          rw [route_calls_of_extends hext]
          exact hc
        · exact hc

theorem exists_route_call_iff (l : List hook_call) :
    (∃ c ∈ l, c.site = hook_site.route) ↔ route_calls l ≠ [] := by
  unfold route_calls
  rw [ne_eq, List.filter_eq_nil_iff]
  simp

/-- What `finalize_answer` does after a dispatch block that ended normally
with the response `r` in the slot. -/
theorem finalize_of_dispatch (env : collaborators) (ws : webserver)
    (connection : MHD_Connection) (mr : modded_request) (st_url method : cstring)
    (dhr0 dhr1 : http_request) (calls : List hook_call) (r : http_response)
    (hdhr : mr.dhr = some dhr0)
    (hcap : (ws.route_resolution env st_url dhr0).dhr = some dhr1)
    (hst : ws.dispatch (ws.route_resolution env st_url dhr0) mr.callback method
        (dhr1.on_connection connection)
        = { calls := calls, dhrs := some r, thrown := none, undefined := false }) :
    (ws.finalize_answer env connection mr st_url method).mr.dhrs
        = some (r.on_connection connection)
      ∧ (r.raw_failure = none →
          (ws.finalize_answer env connection mr st_url method).queued
              = some (r.on_connection connection)
            ∧ (ws.finalize_answer env connection mr st_url method).calls = calls
            ∧ (ws.finalize_answer env connection mr st_url method).outcome
              = completion.returned r.enqueue_result) := by
  unfold webserver.finalize_answer
  simp only [hdhr, hcap, hst, Bool.false_eq_true, if_false]
  constructor
  · split
    · rfl
    · split <;> rfl
  · intro hraw
    have hr : ws.render_response mr.callback (dhr1.on_connection connection)
        { calls := calls, dhrs := some (r.on_connection connection), thrown := none,
          undefined := false }
        = { calls := calls, dhrs := some (r.on_connection connection), thrown := none,
            undefined := false } := by
      simp [webserver.render_response, get_raw_response, http_response.on_connection, hraw]
    rw [hr]
    simp [http_response.on_connection]

/-- C10: for a finalised request (the request and the hook are set and the
captures were read), the hook of the matched handler is invoked exactly when
a route is found and the handler's `is_allowed(method)` is true, and then
once, with the finalised request; when a route is found and
`is_allowed(method)` is false the hook is not invoked and the response is the
405 page: the static body when no method-not-allowed handler is configured,
otherwise what that handler returns; when no route is found the response is
the 404 page: the static body when no not-found handler is configured,
otherwise what that handler returns. -/
theorem C10_dispatch_decision (env : collaborators) (ws : webserver)
    (connection : MHD_Connection) (mr : modded_request) (st_url method : cstring)
    (dhr0 dhr1 : http_request) (cb : render_hook)
    (hdhr : mr.dhr = some dhr0) (hcb : mr.callback = some cb)
    (hcap : (ws.route_resolution env st_url dhr0).dhr = some dhr1) :
    ((∃ c ∈ (ws.finalize_answer env connection mr st_url method).calls,
          c.site = hook_site.route)
        ↔ ((ws.route_resolution env st_url dhr0).found = true
            ∧ ∃ fe, (ws.route_resolution env st_url dhr0).found_endpoint = some fe
                ∧ fe.2.is_allowed method = true))
    ∧ (∀ fe, (ws.route_resolution env st_url dhr0).found = true →
        (ws.route_resolution env st_url dhr0).found_endpoint = some fe →
        fe.2.is_allowed method = true →
        route_calls (ws.finalize_answer env connection mr st_url method).calls
          = [{ site := hook_site.route, hook := cb,
               request := dhr1.on_connection connection }])
    ∧ (∀ fe, (ws.route_resolution env st_url dhr0).found = true →
        (ws.route_resolution env st_url dhr0).found_endpoint = some fe →
        fe.2.is_allowed method = false →
        (ws.method_not_allowed_resource = none →
          (ws.finalize_answer env connection mr st_url method).mr.dhrs
              = some ((http_string_response static_body.METHOD_ERROR
                  http_method_not_allowed).on_connection connection)
            ∧ (ws.finalize_answer env connection mr st_url method).queued
              = some ((http_string_response static_body.METHOD_ERROR
                  http_method_not_allowed).on_connection connection)
            ∧ (ws.finalize_answer env connection mr st_url method).calls = [])
        ∧ (∀ (h : http_resource) (r : http_response),
            ws.method_not_allowed_resource = some h →
            h.render cb (dhr1.on_connection connection)
              = { written := some r, thrown := none } →
            (ws.finalize_answer env connection mr st_url method).mr.dhrs
                = some (r.on_connection connection)
              ∧ (r.raw_failure = none →
                  (ws.finalize_answer env connection mr st_url method).queued
                    = some (r.on_connection connection))))
    ∧ ((ws.route_resolution env st_url dhr0).found = false →
        (ws.not_found_resource = none →
          (ws.finalize_answer env connection mr st_url method).mr.dhrs
              = some ((http_string_response static_body.NOT_FOUND_ERROR
                  http_not_found).on_connection connection)
            ∧ (ws.finalize_answer env connection mr st_url method).queued
              = some ((http_string_response static_body.NOT_FOUND_ERROR
                  http_not_found).on_connection connection)
            ∧ (ws.finalize_answer env connection mr st_url method).calls = [])
        ∧ (∀ (h : http_resource) (r : http_response),
            ws.not_found_resource = some h →
            h.render cb (dhr1.on_connection connection)
              = { written := some r, thrown := none } →
            (ws.finalize_answer env connection mr st_url method).mr.dhrs
                = some (r.on_connection connection)
              ∧ (r.raw_failure = none →
                  (ws.finalize_answer env connection mr st_url method).queued
                    = some (r.on_connection connection)))) := by
  have hrc := finalize_route_calls env ws connection mr st_url method dhr0 dhr1 hdhr hcap
  rw [hcb, dispatch_route_calls] at hrc
  refine ⟨?_, ?_, ?_, ?_⟩
  · rw [exists_route_call_iff, hrc]
    cases hf : (ws.route_resolution env st_url dhr0).found with
    | false => simp
    | true =>
      cases hfe : (ws.route_resolution env st_url dhr0).found_endpoint with
      | none => simp
      | some fe =>
        by_cases hal : fe.2.is_allowed method = true
        · simp [hal]
        · simp [hal]
  · intro fe hf hfe hal
    rw [hrc, hf, hfe]
    simp [hal]
  · intro fe hf hfe hal
    constructor
    · intro hnone
      have hst : ws.dispatch (ws.route_resolution env st_url dhr0) mr.callback method
          (dhr1.on_connection connection)
          = { calls := []
              dhrs := some (http_string_response static_body.METHOD_ERROR
                http_method_not_allowed)
              thrown := none, undefined := false } := by
        simp [webserver.dispatch, hf, hfe, hal, webserver.method_not_allowed_page, hnone]
      obtain ⟨h1, h2⟩ := finalize_of_dispatch env ws connection mr st_url method dhr0 dhr1
        _ _ hdhr hcap hst
      exact ⟨h1, (h2 rfl).1, (h2 rfl).2.1⟩
    · intro h r hsome hrender
      have hst : ws.dispatch (ws.route_resolution env st_url dhr0) mr.callback method
          (dhr1.on_connection connection)
          = { calls := [{ site := hook_site.method_not_allowed, hook := cb,
                          request := dhr1.on_connection connection }]
              dhrs := some r, thrown := none, undefined := false } := by
        simp [webserver.dispatch, hf, hfe, hal, webserver.method_not_allowed_page, hsome,
          hcb, call_hook, hrender]
      obtain ⟨h1, h2⟩ := finalize_of_dispatch env ws connection mr st_url method dhr0 dhr1
        _ _ hdhr hcap hst
      exact ⟨h1, fun hraw => (h2 hraw).1⟩
  · intro hf
    constructor
    · intro hnone
      have hst : ws.dispatch (ws.route_resolution env st_url dhr0) mr.callback method
          (dhr1.on_connection connection)
          = { calls := []
              dhrs := some (http_string_response static_body.NOT_FOUND_ERROR http_not_found)
              thrown := none, undefined := false } := by
        simp [webserver.dispatch, hf, webserver.not_found_page, hnone]
      obtain ⟨h1, h2⟩ := finalize_of_dispatch env ws connection mr st_url method dhr0 dhr1
        _ _ hdhr hcap hst
      exact ⟨h1, (h2 rfl).1, (h2 rfl).2.1⟩
    · intro h r hsome hrender
      have hst : ws.dispatch (ws.route_resolution env st_url dhr0) mr.callback method
          (dhr1.on_connection connection)
          = { calls := [{ site := hook_site.not_found, hook := cb,
                          request := dhr1.on_connection connection }]
              dhrs := some r, thrown := none, undefined := false } := by
        simp [webserver.dispatch, hf, webserver.not_found_page, hsome, hcb, call_hook,
          hrender]
      obtain ⟨h1, h2⟩ := finalize_of_dispatch env ws connection mr st_url method dhr0 dhr1
        _ _ hdhr hcap hst
      exact ⟨h1, fun hraw => (h2 hraw).1⟩

/-- Witness of C10 on the example server: a GET of `/users/42` is
finalised. -/
theorem C10_witness :
    route_calls (demo_server.finalize_answer demo_env demo_connection demo_request_state
        "/users/42".toList "GET".toList).calls
      = [{ site := hook_site.route, hook := render_hook.render_GET,
           request := (http_request.new.set_arg "id".toList "42".toList).on_connection
             demo_connection }] :=
  (C10_dispatch_decision demo_env demo_server demo_connection demo_request_state
    "/users/42".toList "GET".toList http_request.new
    (http_request.new.set_arg "id".toList "42".toList) render_hook.render_GET
    rfl rfl rfl).2.1
    (http_endpoint.make "/users/{id}".toList false true true, demo_resource "user")
    rfl rfl rfl

/-! ## Body accumulation -/

theorem foldl_content {α : Type} (f : http_request → α → http_request)
    (hf : ∀ r a, (f r a).content = r.content) :
    ∀ (l : List α) (r : http_request), (l.foldl f r).content = r.content
  | [], _ => rfl
  | a :: l, r => by
    rw [List.foldl_cons, foldl_content f hf l (f r a), hf]

theorem end_request_construction_content (env : collaborators) (ws : webserver)
    (connection : MHD_Connection) (dhr : http_request) (version st_url method : cstring) :
    (end_request_construction env ws connection dhr version st_url method).content
      = dhr.content := by
  have h1 : (connection.get_arguments.foldl (build_request_args ws) dhr).content
      = dhr.content := by
    apply foldl_content
    intro r a
    unfold build_request_args
    simp only []
    split <;> rfl
  have h2 := foldl_content build_request_header (fun _ _ => rfl) connection.headers
    (connection.get_arguments.foldl (build_request_args ws) dhr)
  have h3 := foldl_content build_request_footer (fun _ _ => rfl) connection.footers
    (connection.headers.foldl build_request_header
      (connection.get_arguments.foldl (build_request_args ws) dhr))
  have h4 := foldl_content build_request_cookie (fun _ _ => rfl) connection.cookies
    (connection.footers.foldl build_request_footer
      (connection.headers.foldl build_request_header
        (connection.get_arguments.foldl (build_request_args ws) dhr)))
  unfold end_request_construction
  simp only []
  split <;> split <;> simp only [h4, h3, h2, h1]

theorem capture_loop_content (url_pars url_pieces : List cstring) (chunkes : List Nat) :
    ∀ (n i : Nat) (r r' : http_request),
      capture_loop url_pars url_pieces chunkes n i r = some r' → r'.content = r.content
  | 0, _, r, r', h => by
    simp only [capture_loop, Option.some.injEq] at h
    rw [← h]
  | n + 1, i, r, r', h => by
    simp only [capture_loop] at h
    split at h
    · split at h
      · have := capture_loop_content url_pars url_pieces chunkes n (i + 1) _ r' h
        rw [this]
        rfl
      · simp at h
    · simp at h

theorem route_resolution_content (env : collaborators) (ws : webserver) (st_url : cstring)
    (dhr dhr1 : http_request) (h : (ws.route_resolution env st_url dhr).dhr = some dhr1) :
    dhr1.content = dhr.content := by
  unfold webserver.route_resolution at h
  simp only [] at h
  split at h
  · split at h
    · split at h
      · split at h
        · split at h
          · exact capture_loop_content _ _ _ _ _ _ _ h
          · simp at h
        · simp only [Option.some.injEq] at h
          rw [← h]
      · simp only [Option.some.injEq] at h
        rw [← h]
    · simp only [Option.some.injEq] at h
      rw [← h]
  · simp only [Option.some.injEq] at h
    rw [← h]

theorem finalize_calls_on (env : collaborators) (ws : webserver)
    (connection : MHD_Connection) (mr : modded_request) (st_url method : cstring)
    (dhr0 dhr1 : http_request) (hdhr : mr.dhr = some dhr0)
    (hcap : (ws.route_resolution env st_url dhr0).dhr = some dhr1) :
    calls_on (dhr1.on_connection connection)
      (ws.finalize_answer env connection mr st_url method).calls := by
  have hd := dispatch_calls_on ws (ws.route_resolution env st_url dhr0) mr.callback method
    (dhr1.on_connection connection)
  unfold webserver.finalize_answer
  simp only [hdhr, hcap]
  split
  · exact hd
  · split
    · exact hd
    · exact hd
    · rename_i r hth hdh
      have hext := render_response_extends ws mr.callback (dhr1.on_connection connection)
        { ws.dispatch (ws.route_resolution env st_url dhr0) mr.callback method
            (dhr1.on_connection connection) with dhrs := some (r.on_connection connection) }
      have hon := calls_on_of_extends hext hd
      split
      · exact hon
      · split <;> exact hon

theorem finalize_calls_content (env : collaborators) (ws : webserver)
    (connection : MHD_Connection) (mr : modded_request) (st_url method : cstring)
    (d : http_request) (hdhr : mr.dhr = some d) :
    ∀ c ∈ (ws.finalize_answer env connection mr st_url method).calls,
      c.request.content = d.content := by
  cases hcap : (ws.route_resolution env st_url d).dhr with
  | none =>
    intro c hc
    unfold webserver.finalize_answer at hc
    simp [hdhr, hcap] at hc
  | some dhr1 =>
    intro c hc
    rw [finalize_calls_on env ws connection mr st_url method d dhr1 hdhr hcap c hc]
    exact route_resolution_content env ws st_url d dhr1 hcap

theorem complete_request_calls_content (env : collaborators) (ws : webserver)
    (connection : MHD_Connection) (mr : modded_request) (version st_url method : cstring)
    (d : http_request) (hdhr : mr.dhr = some d) :
    ∀ c ∈ (ws.complete_request env connection mr version st_url method).calls,
      c.request.content = d.content := by
  unfold webserver.complete_request
  simp only [hdhr]
  intro c hc
  rw [finalize_calls_content env ws connection _ st_url method
    (end_request_construction env ws connection d version st_url method) rfl c hc]
  exact end_request_construction_content env ws connection d version st_url method

theorem complete_request_route_calls (env : collaborators) (ws : webserver)
    (connection : MHD_Connection) (mr : modded_request) (version st_url method : cstring)
    (d : http_request) (cb : render_hook) (hdhr : mr.dhr = some d)
    (hcb : mr.callback = some cb) :
    (route_calls (ws.complete_request env connection mr version st_url method).calls).length ≤ 1
      ∧ ∀ dhr1 fe,
          (ws.route_resolution env st_url
            (end_request_construction env ws connection d version st_url method)).dhr
              = some dhr1 →
          (ws.route_resolution env st_url
            (end_request_construction env ws connection d version st_url method)).found
              = true →
          (ws.route_resolution env st_url
            (end_request_construction env ws connection d version st_url method)).found_endpoint
              = some fe →
          fe.2.is_allowed method = true →
          route_calls (ws.complete_request env connection mr version st_url method).calls
            = [{ site := hook_site.route, hook := cb,
                 request := dhr1.on_connection connection }] := by
  unfold webserver.complete_request
  simp only [hdhr]
  cases hcap : (ws.route_resolution env st_url
      (end_request_construction env ws connection d version st_url method)).dhr with
  | none =>
    constructor
    · unfold webserver.finalize_answer
      simp [hcap, route_calls]
    · intro dhr1 fe h
      simp at h
  | some dhr1 =>
    have hrc := finalize_route_calls env ws connection
      { mr with dhr := some (end_request_construction env ws connection d version st_url
          method) } st_url method _ dhr1 rfl hcap
    simp only [hcb] at hrc ⊢
    rw [dispatch_route_calls] at hrc
    rw [hrc]
    constructor
    · split
      · split <;> simp
      · simp
    · intro dhr1' fe h1 hf hfe hal
      simp only [Option.some.injEq] at h1
      subst h1
      rw [hf, hfe]
      simp [hal]

theorem chunk_step (env : collaborators) (ws : webserver) (connection : MHD_Connection)
    (url method version chunk : cstring) (mr : modded_request) (d : http_request)
    (hsec : mr.second = true) (hd : mr.dhr = some d) (hne : chunk ≠ []) :
    ∃ mr' d',
      ws.answer_to_connection env connection url method version chunk chunk.length (some mr)
        = { outcome := completion.returned MHD_YES, mr := mr', calls := [], queued := none,
            url := (internal_unescaper ws url).buffer, upload_data_size := 0 }
      ∧ mr'.second = true ∧ mr'.dhr = some d' ∧ d'.content = d.content ++ chunk
      ∧ mr'.callback = mr.callback := by
  have hlen : 0 ≠ chunk.length := by
    intro h
    exact hne (List.length_eq_zero.mp h.symm)
  unfold webserver.answer_to_connection
  simp only [hsec, Bool.true_eq_false, if_false]
  unfold webserver.bodyfull_requests_answer_second_step
  simp only [if_pos hlen, hd]
  cases hpp : mr.pp with
  | none =>
    refine ⟨_, _, rfl, hsec, rfl, ?_, rfl⟩
    simp [http_request.grow_content]
  | some fed =>
    refine ⟨_, _, rfl, hsec, rfl, ?_, rfl⟩
    rw [foldl_content post_iterator (fun _ _ => rfl)]
    simp [http_request.grow_content]

theorem first_step (env : collaborators) (ws : webserver) (connection : MHD_Connection)
    (uri url method version : cstring)
    (hmethod : method = http_method_post ∨ method = http_method_put) :
    ∃ mr' d',
      ws.answer_to_connection env connection url method version [] 0 (some (uri_log uri))
        = { outcome := completion.returned MHD_YES, mr := mr', calls := [], queued := none,
            url := url, upload_data_size := 0 }
      ∧ mr'.second = true ∧ mr'.dhr = some d' ∧ d'.content = []
      ∧ mr'.callback = some (body_hook method) := by
  unfold webserver.answer_to_connection
  rcases hmethod with hm | hm
  · subst hm
    have h1 : http_method_post ≠ http_method_get := by decide
    simp only [uri_log, Option.isNone_some, Bool.false_eq_true, if_false, if_true, h1]
    unfold webserver.bodyfull_requests_answer_first_step
    refine ⟨_, _, rfl, rfl, rfl, ?_, rfl⟩
    split <;> rfl
  · subst hm
    have h1 : http_method_put ≠ http_method_get := by decide
    have h2 : http_method_put ≠ http_method_post := by decide
    simp only [uri_log, Option.isNone_some, Bool.false_eq_true, if_false, if_true, h1, h2]
    unfold webserver.bodyfull_requests_answer_first_step
    refine ⟨_, _, rfl, rfl, rfl, ?_, ?_⟩
    · split <;> rfl
    · simp [body_hook, h2]

theorem last_step (env : collaborators) (ws : webserver) (connection : MHD_Connection)
    (url method version : cstring) (mr : modded_request) (hsec : mr.second = true) :
    (ws.answer_to_connection env connection url method version [] 0 (some mr)).calls
      = (ws.complete_request env connection mr version
          (c_str (env.standardize_url (c_str (internal_unescaper ws url).buffer)))
          method).calls := by
  unfold webserver.answer_to_connection
  simp only [hsec, Bool.true_eq_false, if_false]
  unfold webserver.bodyfull_requests_answer_second_step
  simp

theorem deliver_chunks (env : collaborators) (ws : webserver) (connection : MHD_Connection)
    (method version : cstring) :
    ∀ (chunks : List cstring) (url : cstring) (mr : modded_request) (d : http_request),
      mr.second = true → mr.dhr = some d → (∀ c ∈ chunks, c ≠ []) →
      ∃ pre url' mr' d',
        deliver env ws connection method version (chunks ++ [[]]) url mr
          = pre ++ [ws.answer_to_connection env connection url' method version [] 0 (some mr')]
        ∧ pre.length = chunks.length
        ∧ (∀ r ∈ pre, r.outcome = completion.returned MHD_YES ∧ r.calls = []
            ∧ r.queued = none ∧ r.upload_data_size = 0)
        ∧ ((pre.getLast?).map (fun r => (r.url, r.mr))).getD (url, mr) = (url', mr')
        ∧ mr'.second = true ∧ mr'.dhr = some d' ∧ d'.content = d.content ++ chunks.flatten
        ∧ mr'.callback = mr.callback
  | [], url, mr, d, hsec, hd, _ => by
    refine ⟨[], url, mr, d, ?_, rfl, by simp, rfl, hsec, hd, by simp, rfl⟩
    simp only [List.nil_append, deliver, List.length_nil]
    split <;> rfl
  | chunk :: chunks, url, mr, d, hsec, hd, hne => by
    obtain ⟨mr1, d1, hstep, hsec1, hd1, hc1, hcb1⟩ := chunk_step env ws connection url method
      version chunk mr d hsec hd (hne chunk (List.mem_cons_self _ _))
    obtain ⟨pre, url', mr', d', hdel, hlen, hall, hget, hsec', hd', hc', hcb'⟩ :=
      deliver_chunks env ws connection method version chunks
        (internal_unescaper ws url).buffer mr1 d1 hsec1 hd1
        (fun c hc => hne c (List.mem_cons_of_mem _ hc))
    refine ⟨({ outcome := completion.returned MHD_YES, mr := mr1, calls := [], queued := none,
                url := (internal_unescaper ws url).buffer, upload_data_size := 0 }
              : answer_result) :: pre,
      url', mr', d', ?_, by simp [hlen], ?_, ?_, hsec', hd', ?_, ?_⟩
    · simp only [List.cons_append, deliver, hstep, if_true]
      rw [← hdel]
      rfl
    · intro r hr
      rcases List.mem_cons.mp hr with hr | hr
      · rw [hr]
        exact ⟨rfl, rfl, rfl, rfl⟩
      · exact hall r hr
    · cases pre with
      | nil => exact hget
      | cons p ps =>
        rw [List.getLast?_cons_cons]
        cases hl : (p :: ps).getLast? with
        | none => simp at hl
        | some q =>
          rw [hl] at hget
          exact hget
    · rw [hc', hc1]
      simp
    · rw [hcb', hcb1]

/-- C9: for a POST or PUT request the parser delivers a first callback, then
the non-empty chunks `c1 .. cN`, then a zero-size callback, each with the URL
buffer and the per-request state that the callback before it left. The first
callback and every chunk callback return success, leave the upload size at 0
(the chunk is consumed) and invoke no handler and queue nothing; `prev` is the
last of them, and the request `d` that its state holds has the raw body
`c1 ++ ... ++ cN`. Handlers are invoked on the zero-size callback `last` only,
where every hook sees a request whose raw body is `c1 ++ ... ++ cN`; the hook
of the route is invoked at most once, and exactly once (with the hook of the
method) when the resolution of the request finalised from `d`, on the path
`st_url` of the URL buffer that `prev` left, finds a route whose handler
allows the method. -/
theorem C9_body_accumulation (env : collaborators) (ws : webserver)
    (connection : MHD_Connection) (uri url method version : cstring)
    (chunks : List cstring)
    (hmethod : method = http_method_post ∨ method = http_method_put)
    (hchunks : ∀ c ∈ chunks, c ≠ []) :
    ∃ (pre : List answer_result) (prev last : answer_result) (d : http_request)
      (st_url : cstring),
      deliver env ws connection method version ([] :: (chunks ++ [[]])) url (uri_log uri)
        = pre ++ [last]
      ∧ pre.length = chunks.length + 1
      ∧ (∀ r ∈ pre, r.outcome = completion.returned MHD_YES ∧ r.calls = []
          ∧ r.queued = none ∧ r.upload_data_size = 0)
      ∧ pre.getLast? = some prev
      ∧ last = ws.answer_to_connection env connection prev.url method version [] 0
                (some prev.mr)
      ∧ prev.mr.dhr = some d
      ∧ st_url = c_str (env.standardize_url (c_str (internal_unescaper ws prev.url).buffer))
      ∧ d.content = chunks.flatten
      ∧ (∀ c ∈ last.calls, c.request.content = chunks.flatten)
      ∧ (route_calls last.calls).length ≤ 1
      ∧ (∀ dhr1 fe,
          (ws.route_resolution env st_url
            (end_request_construction env ws connection d version st_url method)).dhr
              = some dhr1 →
          (ws.route_resolution env st_url
            (end_request_construction env ws connection d version st_url method)).found
              = true →
          (ws.route_resolution env st_url
            (end_request_construction env ws connection d version st_url method)).found_endpoint
              = some fe →
          fe.2.is_allowed method = true →
          route_calls last.calls
            = [{ site := hook_site.route, hook := body_hook method,
                 request := dhr1.on_connection connection }]) := by
  obtain ⟨mr1, d1, hfirst, hsec1, hd1, hc1, hcb1⟩ :=
    first_step env ws connection uri url method version hmethod
  obtain ⟨pre, url', mr', d', hdel, hlen, hall, hget, hsec', hd', hc', hcb'⟩ :=
    deliver_chunks env ws connection method version chunks url mr1 d1 hsec1 hd1 hchunks
  have hcontent : d'.content = chunks.flatten := by
    rw [hc', hc1]
    simp
  have hcb : mr'.callback = some (body_hook method) := by
    rw [hcb', hcb1]
  have hlast := last_step env ws connection url' method version mr' hsec'
  obtain ⟨hle, hone⟩ := complete_request_route_calls env ws connection mr' version
    (c_str (env.standardize_url (c_str (internal_unescaper ws url').buffer))) method d'
    (body_hook method) hd' hcb
  have hprev : ∃ prev : answer_result,
      (({ outcome := completion.returned MHD_YES, mr := mr1, calls := [], queued := none,
          url := url, upload_data_size := 0 } : answer_result) :: pre).getLast? = some prev
      ∧ prev.url = url' ∧ prev.mr = mr' := by
    cases pre with
    | nil =>
      simp only [List.getLast?_nil, Option.map_none', Option.getD_none, Prod.mk.injEq] at hget
      exact ⟨_, rfl, hget.1, hget.2⟩
    | cons p ps =>
      rw [List.getLast?_cons_cons]
      cases hl : (p :: ps).getLast? with
      | none => simp at hl
      | some q =>
        rw [hl] at hget
        simp only [Option.map_some', Option.getD_some, Prod.mk.injEq] at hget
        exact ⟨q, rfl, hget.1, hget.2⟩
  obtain ⟨prev, hgl, hpu, hpm⟩ := hprev
  refine ⟨({ outcome := completion.returned MHD_YES, mr := mr1, calls := [], queued := none,
             url := url, upload_data_size := 0 } : answer_result) :: pre, prev,
    ws.answer_to_connection env connection url' method version [] 0 (some mr'), d',
    c_str (env.standardize_url (c_str (internal_unescaper ws url').buffer)),
    ?_, by simp [hlen], ?_, hgl, by rw [hpu, hpm], by rw [hpm]; exact hd', by rw [hpu],
    hcontent, ?_, ?_, ?_⟩
  · simp only [deliver, List.length_nil, hfirst, if_true, List.cons_append]
    rw [← hdel]
  · intro r hr
    rcases List.mem_cons.mp hr with hr | hr
    · rw [hr]
      exact ⟨rfl, rfl, rfl, rfl⟩
    · exact hall r hr
  · intro c hc
    rw [hlast] at hc
    rw [complete_request_calls_content env ws connection mr' version _ method d' hd' c hc]
    exact hcontent
  · rw [hlast]
    exact hle
  · intro dhr1 fe h1 h2 h3 h4
    rw [hlast]
    exact hone dhr1 fe h1 h2 h3 h4

/-- Witness of C9 on the example server: a POST of `/users/42` with the chunks
`ab` and `cd`. The zero-size callback invokes the POST hook of the route
`/users/{id}` once, on the request with the body `abcd` and the argument
`id = 42`. -/
theorem C9_witness :
    ∃ last : answer_result,
      (deliver demo_env demo_server demo_connection "POST".toList "HTTP/1.1".toList
          ([] :: (["ab".toList, "cd".toList] ++ [[]])) "/users/42".toList
          (uri_log "/users/42".toList)).getLast? = some last
      ∧ route_calls last.calls
          = [{ site := hook_site.route, hook := render_hook.render_POST,
               request :=
                 { path := "/users/42".toList, method := "POST".toList,
                   version := "HTTP/1.1".toList, querystring := [],
                   args := [("id".toList, "42".toList)],
                   headers := [("Content-Type".toList, "text/plain".toList)],
                   footers := [], cookies := [], requestor := [], requestor_port := 4000,
                   user := [], pass := [], digested_user := [],
                   content := "abcd".toList, underlying_connection := some 1 } }] := by
  obtain ⟨pre, prev, last, d, st_url, hdel, _, _, hgl, hlast, hd, hst, _, _, _, hone⟩ :=
    C9_body_accumulation demo_env demo_server demo_connection "/users/42".toList
      "/users/42".toList "POST".toList "HTTP/1.1".toList ["ab".toList, "cd".toList]
      (Or.inl rfl) (by decide)
  have hpre : pre = (deliver demo_env demo_server demo_connection "POST".toList
      "HTTP/1.1".toList ([] :: (["ab".toList, "cd".toList] ++ [[]])) "/users/42".toList
      (uri_log "/users/42".toList)).dropLast := by
    rw [hdel]
    simp
  subst hpre
  obtain ⟨hh, hprev⟩ := Option.eq_some_iff_get_eq.mp hgl
  subst hprev
  obtain ⟨hh2, hd2⟩ := Option.eq_some_iff_get_eq.mp hd
  subst hd2
  subst hst
  refine ⟨last, ?_, ?_⟩
  · rw [hdel]
    simp
  · exact (hone _ _ rfl rfl rfl rfl).trans rfl

/-! ## Handler failures -/

/-- The rendering block always ends normally once a hook is selected and a
response is in the slot: an error raised while rendering or by a replacement
page is caught, at last by the clause that forces the static 500 body. -/
theorem render_response_returns (ws : webserver) (cb : render_hook) (dhr : http_request)
    (st : answer_state) (r : http_response)
    (hu : st.undefined = false) (ht : st.thrown = none) (hd : st.dhrs = some r) :
    (ws.render_response (some cb) dhr st).undefined = false
      ∧ (ws.render_response (some cb) dhr st).thrown = none
      ∧ ∃ q, (ws.render_response (some cb) dhr st).dhrs = some q := by
  obtain ⟨calls, dhrs, thrown, undefined⟩ := st
  simp only at hu ht hd
  subst hu ht hd
  cases hraw : r.raw_failure with
  | none =>
    simp [webserver.render_response, get_raw_response, hraw]
  | some e =>
    cases hnf : ws.not_found_resource with
    | none =>
      cases hie : ws.internal_error_resource with
      | none =>
        cases e <;>
          simp [webserver.render_response, get_raw_response, hraw, webserver.render_handlers,
            webserver.render_last_resort, webserver.not_found_page,
            webserver.internal_error_page, hnf, hie, http_string_response]
      | some h =>
        rcases hh : h.render cb dhr with ⟨w, t⟩
        cases w with
        | none =>
          cases t <;> cases e <;>
          simp [webserver.render_response, get_raw_response, hraw, webserver.render_handlers,
            webserver.render_last_resort, webserver.not_found_page,
            webserver.internal_error_page, hnf, hie, http_string_response, call_hook, hh]
        | some w =>
          cases hw : w.raw_failure <;> cases t <;> cases e <;>
          simp [webserver.render_response, get_raw_response, hraw, webserver.render_handlers,
            webserver.render_last_resort, webserver.not_found_page,
            webserver.internal_error_page, hnf, hie, http_string_response, call_hook, hh, hw]
    | some g =>
      rcases hg : g.render cb dhr with ⟨gw, gt⟩
      cases hie : ws.internal_error_resource with
      | none =>
        cases gw with
        | none =>
          cases gt <;> cases e <;>
          simp [webserver.render_response, get_raw_response, hraw, webserver.render_handlers,
            webserver.render_last_resort, webserver.not_found_page,
            webserver.internal_error_page, hnf, hie, http_string_response, call_hook, hg]
        | some w =>
          cases hw : w.raw_failure <;> cases gt <;> cases e <;>
          simp [webserver.render_response, get_raw_response, hraw, webserver.render_handlers,
            webserver.render_last_resort, webserver.not_found_page,
            webserver.internal_error_page, hnf, hie, http_string_response, call_hook, hg, hw]
      | some h =>
        rcases hh : h.render cb dhr with ⟨w, t⟩
        cases e with
        | file_access =>
          cases gw with
          | none =>
            cases gt <;>
            simp [webserver.render_response, get_raw_response, hraw, webserver.render_handlers,
              webserver.render_last_resort, webserver.not_found_page,
              webserver.internal_error_page, hnf, hie, http_string_response, call_hook, hg]
          | some w =>
            cases hw : w.raw_failure <;> cases gt <;>
            simp [webserver.render_response, get_raw_response, hraw, webserver.render_handlers,
              webserver.render_last_resort, webserver.not_found_page,
              webserver.internal_error_page, hnf, hie, http_string_response, call_hook, hg, hw]
        | std_exception =>
          cases w with
          | none =>
            cases t <;>
            simp [webserver.render_response, get_raw_response, hraw, webserver.render_handlers,
              webserver.render_last_resort, webserver.not_found_page,
              webserver.internal_error_page, hnf, hie, http_string_response, call_hook, hh]
          | some w =>
            cases hw : w.raw_failure <;> cases t <;>
            simp [webserver.render_response, get_raw_response, hraw, webserver.render_handlers,
              webserver.render_last_resort, webserver.not_found_page,
              webserver.internal_error_page, hnf, hie, http_string_response, call_hook, hh, hw]
        | other =>
          cases w with
          | none =>
            cases t <;>
            simp [webserver.render_response, get_raw_response, hraw, webserver.render_handlers,
              webserver.render_last_resort, webserver.not_found_page,
              webserver.internal_error_page, hnf, hie, http_string_response, call_hook, hh]
          | some w =>
            cases hw : w.raw_failure <;> cases t <;>
            simp [webserver.render_response, get_raw_response, hraw, webserver.render_handlers,
              webserver.render_last_resort, webserver.not_found_page,
              webserver.internal_error_page, hnf, hie, http_string_response, call_hook, hh, hw]

/-- After a dispatch block that ended normally with a response in the slot,
`finalize_answer` returns: no exception leaves it. -/
theorem finalize_returns_of_dispatch (env : collaborators) (ws : webserver)
    (connection : MHD_Connection) (mr : modded_request) (st_url method : cstring)
    (dhr0 dhr1 : http_request) (cb : render_hook) (calls : List hook_call)
    (r : http_response)
    (hdhr : mr.dhr = some dhr0) (hcb : mr.callback = some cb)
    (hcap : (ws.route_resolution env st_url dhr0).dhr = some dhr1)
    (hst : ws.dispatch (ws.route_resolution env st_url dhr0) mr.callback method
        (dhr1.on_connection connection)
        = { calls := calls, dhrs := some r, thrown := none, undefined := false }) :
    ∃ ret, (ws.finalize_answer env connection mr st_url method).outcome
      = completion.returned ret := by
  obtain ⟨h1, h2, q, h3⟩ := render_response_returns ws cb (dhr1.on_connection connection)
    { calls := calls, dhrs := some (r.on_connection connection), thrown := none,
      undefined := false } (r.on_connection connection) rfl rfl rfl
  rw [hcb] at hst
  unfold webserver.finalize_answer
  simp only [hdhr, hcap, hcb, hst, Bool.false_eq_true, if_false, h1, h2, h3]
  exact ⟨_, rfl⟩

/-- C11: when a route is found, its handler allows the method and the
selected hook of that handler throws (a standard exception or anything else),
the error is caught in `finalize_answer`: without an internal-error handler
the response of the request is the static 500 body, which is enqueued, and
the call returns; with an internal-error handler that returns the response
`r`, the response of the request is `r`, it is enqueued when its rendering
does not fail, and the call returns in either case. -/
theorem C11_handler_failure_becomes_500 (env : collaborators) (ws : webserver)
    (connection : MHD_Connection) (mr : modded_request) (st_url method : cstring)
    (dhr0 dhr1 : http_request) (cb : render_hook) (fe : http_endpoint × http_resource)
    (e : exception_kind)
    (hdhr : mr.dhr = some dhr0) (hcb : mr.callback = some cb)
    (hcap : (ws.route_resolution env st_url dhr0).dhr = some dhr1)
    (hf : (ws.route_resolution env st_url dhr0).found = true)
    (hfe : (ws.route_resolution env st_url dhr0).found_endpoint = some fe)
    (hal : fe.2.is_allowed method = true)
    (hthrow : (fe.2.render cb (dhr1.on_connection connection)).thrown = some e) :
    (ws.internal_error_resource = none →
        (ws.finalize_answer env connection mr st_url method).mr.dhrs
            = some ((http_string_response static_body.GENERIC_ERROR
                http_internal_server_error).on_connection connection)
          ∧ (ws.finalize_answer env connection mr st_url method).queued
            = some ((http_string_response static_body.GENERIC_ERROR
                http_internal_server_error).on_connection connection)
          ∧ (ws.finalize_answer env connection mr st_url method).calls
            = [{ site := hook_site.route, hook := cb,
                 request := dhr1.on_connection connection }]
          ∧ (ws.finalize_answer env connection mr st_url method).outcome
            = completion.returned MHD_YES)
      ∧ (∀ (h : http_resource) (r : http_response),
          ws.internal_error_resource = some h →
          h.render cb (dhr1.on_connection connection)
            = { written := some r, thrown := none } →
          (ws.finalize_answer env connection mr st_url method).mr.dhrs
              = some (r.on_connection connection)
            ∧ (r.raw_failure = none →
                (ws.finalize_answer env connection mr st_url method).queued
                    = some (r.on_connection connection)
                  ∧ (ws.finalize_answer env connection mr st_url method).calls
                    = [{ site := hook_site.route, hook := cb,
                         request := dhr1.on_connection connection },
                       { site := hook_site.internal_error, hook := cb,
                         request := dhr1.on_connection connection }])
            ∧ ∃ ret, (ws.finalize_answer env connection mr st_url method).outcome
                = completion.returned ret) := by
  constructor
  · intro hnone
    have hst : ws.dispatch (ws.route_resolution env st_url dhr0) mr.callback method
        (dhr1.on_connection connection)
        = { calls := [{ site := hook_site.route, hook := cb,
                        request := dhr1.on_connection connection }]
            dhrs := some (http_string_response static_body.GENERIC_ERROR
              http_internal_server_error)
            thrown := none, undefined := false } := by
      simp [webserver.dispatch, hf, hfe, hal, hcb, call_hook, hthrow,
        webserver.internal_error_page, hnone]
    obtain ⟨h1, h2⟩ := finalize_of_dispatch env ws connection mr st_url method dhr0 dhr1
      _ _ hdhr hcap hst
    exact ⟨h1, (h2 rfl).1, (h2 rfl).2.1, (h2 rfl).2.2⟩
  · intro h r hsome hrender
    have hst : ws.dispatch (ws.route_resolution env st_url dhr0) mr.callback method
        (dhr1.on_connection connection)
        = { calls := [{ site := hook_site.route, hook := cb,
                        request := dhr1.on_connection connection },
                      { site := hook_site.internal_error, hook := cb,
                        request := dhr1.on_connection connection }]
            dhrs := some r, thrown := none, undefined := false } := by
      simp [webserver.dispatch, hf, hfe, hal, hcb, call_hook, hthrow,
        webserver.internal_error_page, hsome, hrender]
    obtain ⟨h1, h2⟩ := finalize_of_dispatch env ws connection mr st_url method dhr0 dhr1
      _ _ hdhr hcap hst
    exact ⟨h1, fun hraw => ⟨(h2 hraw).1, (h2 hraw).2.1⟩,
      finalize_returns_of_dispatch env ws connection mr st_url method dhr0 dhr1 cb _ _
        hdhr hcb hcap hst⟩

/-- Witness of C11 on the example servers: the handler of `/boom` throws; the
static 500 body is enqueued on the server without an internal-error handler,
and the answer of the internal-error handler on the server that has one. -/
theorem C11_witness :
    (failing_server.finalize_answer demo_env demo_connection demo_request_state
        "/boom".toList "GET".toList).queued
      = some ((http_string_response static_body.GENERIC_ERROR
          http_internal_server_error).on_connection demo_connection)
    ∧ (recovering_server.finalize_answer demo_env demo_connection demo_request_state
        "/boom".toList "GET".toList).queued
      = some ((demo_response "oops").on_connection demo_connection) :=
  ⟨((C11_handler_failure_becomes_500 demo_env failing_server demo_connection
      demo_request_state "/boom".toList "GET".toList http_request.new http_request.new
      render_hook.render_GET
      (http_endpoint.make "/boom".toList false true true, throwing_resource)
      exception_kind.std_exception rfl rfl rfl rfl rfl rfl rfl).1 rfl).2.1,
   (((C11_handler_failure_becomes_500 demo_env recovering_server demo_connection
      demo_request_state "/boom".toList "GET".toList http_request.new http_request.new
      render_hook.render_GET
      (http_endpoint.make "/boom".toList false true true, throwing_resource)
      exception_kind.std_exception rfl rfl rfl rfl rfl rfl rfl).2
      (demo_resource "oops") (demo_response "oops") rfl rfl).2.1 rfl).1⟩

/-- C12: on a server whose internal-error handler and not-found handler
throw, the exception of a handler leaves the answer callback and no response
is enqueued: for `GET /boom`, whose route handler throws, the exception of
the internal-error handler called in the catch clause (lines 1427 and 1431)
leaves `finalize_answer`; for `GET /nothing`, which no route matches, the
exception of the not-found handler called at line 1436 does. -/
theorem C12_handler_error_leaves_the_callback :
    (escaping_server.answer_to_connection demo_env demo_connection "/boom".toList
        "GET".toList "HTTP/1.1".toList [] 0 (some first_request_state)).outcome
      = completion.threw exception_kind.std_exception
    ∧ (escaping_server.answer_to_connection demo_env demo_connection "/boom".toList
        "GET".toList "HTTP/1.1".toList [] 0 (some first_request_state)).queued = none
    ∧ (escaping_server.answer_to_connection demo_env demo_connection "/boom".toList
        "GET".toList "HTTP/1.1".toList [] 0 (some first_request_state)).calls.map
          (fun c => c.site) = [hook_site.route, hook_site.internal_error]
    ∧ (escaping_server.answer_to_connection demo_env demo_connection "/nothing".toList
        "GET".toList "HTTP/1.1".toList [] 0 (some first_request_state)).outcome
      = completion.threw exception_kind.std_exception
    ∧ (escaping_server.answer_to_connection demo_env demo_connection "/nothing".toList
        "GET".toList "HTTP/1.1".toList [] 0 (some first_request_state)).queued = none
    ∧ (escaping_server.answer_to_connection demo_env demo_connection "/nothing".toList
        "GET".toList "HTTP/1.1".toList [] 0 (some first_request_state)).calls.map
          (fun c => c.site) = [hook_site.not_found] := by
  refine ⟨?_, ?_, ?_, ?_, ?_, ?_⟩ <;> rfl

/-! ## Method classification -/

/-- The request pipeline changes only the request and the response of the
per-request state. -/
theorem finalize_answer_mr (env : collaborators) (ws : webserver)
    (connection : MHD_Connection) (mr : modded_request) (st_url method : cstring) :
    (ws.finalize_answer env connection mr st_url method).mr.second = mr.second
      ∧ (ws.finalize_answer env connection mr st_url method).mr.callback = mr.callback := by
  unfold webserver.finalize_answer
  repeat' (first | exact ⟨rfl, rfl⟩ | split | dsimp only)

theorem complete_request_mr (env : collaborators) (ws : webserver)
    (connection : MHD_Connection) (mr : modded_request) (version st_url method : cstring) :
    (ws.complete_request env connection mr version st_url method).mr.second = mr.second
      ∧ (ws.complete_request env connection mr version st_url method).mr.callback
          = mr.callback := by
  unfold webserver.complete_request
  split
  · exact ⟨rfl, rfl⟩
  · exact finalize_answer_mr env ws connection _ st_url method

/-- The hook calls and the response of `bodyless_requests_answer` are those
of `complete_request` on a new request and the URL in standard form; the
flag `second` and the hook of the per-request state stay. -/
theorem bodyless_eq (env : collaborators) (ws : webserver) (connection : MHD_Connection)
    (url method version : cstring) (size : Nat) (mr : modded_request) :
    (ws.bodyless_requests_answer env connection url method version size mr).calls
        = (ws.complete_request env connection { mr with dhr := some http_request.new }
            version (c_str (env.standardize_url (c_str (internal_unescaper ws url).buffer)))
            method).calls
      ∧ (ws.bodyless_requests_answer env connection url method version size mr).queued
        = (ws.complete_request env connection { mr with dhr := some http_request.new }
            version (c_str (env.standardize_url (c_str (internal_unescaper ws url).buffer)))
            method).queued
      ∧ (ws.bodyless_requests_answer env connection url method version size mr).mr.second
        = mr.second
      ∧ (ws.bodyless_requests_answer env connection url method version size mr).mr.callback
        = mr.callback := by
  refine ⟨rfl, rfl, ?_, ?_⟩
  · exact (complete_request_mr env ws connection _ version _ method).1
  · exact (complete_request_mr env ws connection _ version _ method).2

/-- C13 as stated fails: on a server with a method-not-acceptable handler,
the unknown method `BREW` on a URL that no route matches is answered with the
static 404 body, and no hook is called. -/
theorem C13_counterexample :
    (override_server.answer_to_connection demo_env demo_connection "/nothing".toList
        "BREW".toList "HTTP/1.1".toList [] 0 (some first_request_state)).queued
      = some ((http_string_response static_body.NOT_FOUND_ERROR
          http_not_found).on_connection demo_connection)
    ∧ (override_server.answer_to_connection demo_env demo_connection "/nothing".toList
        "BREW".toList "HTTP/1.1".toList [] 0 (some first_request_state)).calls = []
    ∧ override_server.method_not_acceptable_resource.isSome = true
    ∧ "BREW".toList ∉ [http_method_get, http_method_post, http_method_put,
        http_method_delete, http_method_head, http_method_connect, http_method_trace] := by
  refine ⟨rfl, rfl, rfl, by decide⟩

/-- What `bodyless_requests_answer` does after a dispatch block that ended
normally with the response `r` in the slot. -/
theorem bodyless_of_dispatch (env : collaborators) (ws : webserver)
    (connection : MHD_Connection) (url method version : cstring) (size : Nat)
    (mr : modded_request) (dhr1 : http_request) (calls : List hook_call) (r : http_response)
    (hcap : (ws.route_resolution env
        (c_str (env.standardize_url (c_str (internal_unescaper ws url).buffer)))
        (end_request_construction env ws connection http_request.new version
          (c_str (env.standardize_url (c_str (internal_unescaper ws url).buffer)))
          method)).dhr = some dhr1)
    (hst : ws.dispatch (ws.route_resolution env
          (c_str (env.standardize_url (c_str (internal_unescaper ws url).buffer)))
          (end_request_construction env ws connection http_request.new version
            (c_str (env.standardize_url (c_str (internal_unescaper ws url).buffer)))
            method))
        mr.callback method (dhr1.on_connection connection)
        = { calls := calls, dhrs := some r, thrown := none, undefined := false }) :
    (ws.bodyless_requests_answer env connection url method version size mr).mr.dhrs
        = some (r.on_connection connection)
      ∧ (r.raw_failure = none →
          (ws.bodyless_requests_answer env connection url method version size mr).queued
              = some (r.on_connection connection)
            ∧ (ws.bodyless_requests_answer env connection url method version size mr).calls
              = calls
            ∧ (ws.bodyless_requests_answer env connection url method version size mr).outcome
              = completion.returned r.enqueue_result) :=
  finalize_of_dispatch env ws connection
    { pp := mr.pp, complete_uri := mr.complete_uri, callback := mr.callback
      dhr := some (end_request_construction env ws connection http_request.new version
        (c_str (env.standardize_url (c_str (internal_unescaper ws url).buffer))) method)
      dhrs := mr.dhrs, second := mr.second }
    (c_str (env.standardize_url (c_str (internal_unescaper ws url).buffer))) method
    _ dhr1 calls r rfl hcap hst

/-- C13, amended: for a first callback with a method that is none of GET,
POST, PUT, DELETE, HEAD, CONNECT, TRACE: when no method-not-acceptable
handler is configured, the static 406 body is queued directly, no hook is
called and the per-request state is untouched; when one is configured, the
hook `render_not_acceptable` is selected and the request goes through the
pipeline of a head-only request in that callback. If a route is found and
its handler allows the method, that hook of the route handler is called
once, and a response that it returns is the response of the request. If no
route is found, the response is the 404 page: the static 404 body, with no
hook called, when no not-found handler is configured, otherwise what the hook
`render_not_acceptable` of the not-found handler returns. If the handler of
the route found does not allow the method, the response is the 405 page: the
static 405 body, with no hook called, when no method-not-allowed handler is
configured, otherwise what the hook `render_not_acceptable` of the
method-not-allowed handler returns. A response that a hook returns is
stored in the per-request state, and it is enqueued, and its enqueue result
returned, when its raw form is built without failure. -/
theorem C13_unknown_method (env : collaborators) (ws : webserver)
    (connection : MHD_Connection) (url method version upload_data : cstring) (size : Nat)
    (mr : modded_request)
    (hsec : mr.second = false) (huri : mr.complete_uri.isSome = true)
    (hm : method ∉ [http_method_get, http_method_post, http_method_put,
        http_method_delete, http_method_head, http_method_connect, http_method_trace]) :
    (ws.method_not_acceptable_resource = none →
        (ws.answer_to_connection env connection url method version upload_data size
            (some mr)).queued
          = some (http_string_response static_body.NOT_METHOD_ERROR
              http_method_not_acceptable)
        ∧ (ws.answer_to_connection env connection url method version upload_data size
            (some mr)).calls = []
        ∧ (ws.answer_to_connection env connection url method version upload_data size
            (some mr)).mr = mr
        ∧ (ws.answer_to_connection env connection url method version upload_data size
            (some mr)).outcome = completion.returned connection.queue_result)
    ∧ (ws.method_not_acceptable_resource.isSome = true →
        (ws.answer_to_connection env connection url method version upload_data size
            (some mr)).mr.callback = some render_hook.render_not_acceptable
        ∧ (ws.answer_to_connection env connection url method version upload_data size
            (some mr)).mr.second = false
        ∧ (∀ dhr1 fe,
            (ws.route_resolution env
              (c_str (env.standardize_url (c_str (internal_unescaper ws url).buffer)))
              (end_request_construction env ws connection http_request.new version
                (c_str (env.standardize_url (c_str (internal_unescaper ws url).buffer)))
                method)).dhr = some dhr1 →
            (ws.route_resolution env
              (c_str (env.standardize_url (c_str (internal_unescaper ws url).buffer)))
              (end_request_construction env ws connection http_request.new version
                (c_str (env.standardize_url (c_str (internal_unescaper ws url).buffer)))
                method)).found = true →
            (ws.route_resolution env
              (c_str (env.standardize_url (c_str (internal_unescaper ws url).buffer)))
              (end_request_construction env ws connection http_request.new version
                (c_str (env.standardize_url (c_str (internal_unescaper ws url).buffer)))
                method)).found_endpoint = some fe →
            fe.2.is_allowed method = true →
            route_calls (ws.answer_to_connection env connection url method version
                upload_data size (some mr)).calls
              = [{ site := hook_site.route, hook := render_hook.render_not_acceptable,
                   request := dhr1.on_connection connection }]
            ∧ (∀ r : http_response,
                fe.2.render render_hook.render_not_acceptable (dhr1.on_connection connection)
                  = { written := some r, thrown := none } →
                (ws.answer_to_connection env connection url method version upload_data size
                    (some mr)).mr.dhrs = some (r.on_connection connection)
                ∧ (r.raw_failure = none →
                    (ws.answer_to_connection env connection url method version upload_data
                        size (some mr)).queued = some (r.on_connection connection)
                    ∧ (ws.answer_to_connection env connection url method version upload_data
                        size (some mr)).calls
                      = [{ site := hook_site.route, hook := render_hook.render_not_acceptable,
                           request := dhr1.on_connection connection }]
                    ∧ (ws.answer_to_connection env connection url method version upload_data
                        size (some mr)).outcome = completion.returned r.enqueue_result)))
        ∧ (∀ dhr1,
            (ws.route_resolution env
              (c_str (env.standardize_url (c_str (internal_unescaper ws url).buffer)))
              (end_request_construction env ws connection http_request.new version
                (c_str (env.standardize_url (c_str (internal_unescaper ws url).buffer)))
                method)).dhr = some dhr1 →
            (ws.route_resolution env
              (c_str (env.standardize_url (c_str (internal_unescaper ws url).buffer)))
              (end_request_construction env ws connection http_request.new version
                (c_str (env.standardize_url (c_str (internal_unescaper ws url).buffer)))
                method)).found = false →
            (ws.not_found_resource = none →
              (ws.answer_to_connection env connection url method version upload_data size
                  (some mr)).queued
                = some ((http_string_response static_body.NOT_FOUND_ERROR
                    http_not_found).on_connection connection)
              ∧ (ws.answer_to_connection env connection url method version upload_data size
                  (some mr)).calls = [])
            ∧ (∀ (h : http_resource) (r : http_response),
                ws.not_found_resource = some h →
                h.render render_hook.render_not_acceptable (dhr1.on_connection connection)
                  = { written := some r, thrown := none } →
                (ws.answer_to_connection env connection url method version upload_data size
                    (some mr)).mr.dhrs = some (r.on_connection connection)
                ∧ (r.raw_failure = none →
                    (ws.answer_to_connection env connection url method version upload_data
                        size (some mr)).queued = some (r.on_connection connection)
                    ∧ (ws.answer_to_connection env connection url method version upload_data
                        size (some mr)).calls
                      = [{ site := hook_site.not_found,
                           hook := render_hook.render_not_acceptable,
                           request := dhr1.on_connection connection }]
                    ∧ (ws.answer_to_connection env connection url method version upload_data
                        size (some mr)).outcome = completion.returned r.enqueue_result)))
        ∧ (∀ dhr1 fe,
            (ws.route_resolution env
              (c_str (env.standardize_url (c_str (internal_unescaper ws url).buffer)))
              (end_request_construction env ws connection http_request.new version
                (c_str (env.standardize_url (c_str (internal_unescaper ws url).buffer)))
                method)).dhr = some dhr1 →
            (ws.route_resolution env
              (c_str (env.standardize_url (c_str (internal_unescaper ws url).buffer)))
              (end_request_construction env ws connection http_request.new version
                (c_str (env.standardize_url (c_str (internal_unescaper ws url).buffer)))
                method)).found = true →
            (ws.route_resolution env
              (c_str (env.standardize_url (c_str (internal_unescaper ws url).buffer)))
              (end_request_construction env ws connection http_request.new version
                (c_str (env.standardize_url (c_str (internal_unescaper ws url).buffer)))
                method)).found_endpoint = some fe →
            fe.2.is_allowed method = false →
            (ws.method_not_allowed_resource = none →
              (ws.answer_to_connection env connection url method version upload_data size
                  (some mr)).queued
                = some ((http_string_response static_body.METHOD_ERROR
                    http_method_not_allowed).on_connection connection)
              ∧ (ws.answer_to_connection env connection url method version upload_data size
                  (some mr)).calls = [])
            ∧ (∀ (h : http_resource) (r : http_response),
                ws.method_not_allowed_resource = some h →
                h.render render_hook.render_not_acceptable (dhr1.on_connection connection)
                  = { written := some r, thrown := none } →
                (ws.answer_to_connection env connection url method version upload_data size
                    (some mr)).mr.dhrs = some (r.on_connection connection)
                ∧ (r.raw_failure = none →
                    (ws.answer_to_connection env connection url method version upload_data
                        size (some mr)).queued = some (r.on_connection connection)
                    ∧ (ws.answer_to_connection env connection url method version upload_data
                        size (some mr)).calls
                      = [{ site := hook_site.method_not_allowed,
                           hook := render_hook.render_not_acceptable,
                           request := dhr1.on_connection connection }]
                    ∧ (ws.answer_to_connection env connection url method version upload_data
                        size (some mr)).outcome = completion.returned r.enqueue_result)))) := by
  simp only [List.mem_cons, List.mem_singleton, List.not_mem_nil, or_false, not_or] at hm
  obtain ⟨m1, m2, m3, m4, m5, m6, m7⟩ := hm
  have hnone : mr.complete_uri.isNone = false := by
    cases h : mr.complete_uri with
    | none => rw [h] at huri; exact absurd huri (by decide)
    | some u => rfl
  constructor
  · intro hna
    have hr : ws.answer_to_connection env connection url method version upload_data size
        (some mr) = webserver.method_not_acceptable_page connection mr url size := by
      simp [webserver.answer_to_connection, hsec, hnone, m1, m2, m3, m4, m5, m6, m7, hna]
    rw [hr]
    exact ⟨rfl, rfl, rfl, rfl⟩
  · intro hsome
    have hr : ws.answer_to_connection env connection url method version upload_data size
        (some mr) = ws.bodyless_requests_answer env connection url method version size
          { mr with callback := some render_hook.render_not_acceptable } := by
      simp [webserver.answer_to_connection, hsec, hnone, m1, m2, m3, m4, m5, m6, m7, hsome]
    rw [hr]
    obtain ⟨b1, _, b3, b4⟩ := bodyless_eq env ws connection url method version size
      { mr with callback := some render_hook.render_not_acceptable }
    refine ⟨b4, b3.trans hsec, ?_, ?_, ?_⟩
    · intro dhr1 fe hcap hf hfe hal
      constructor
      · rw [b1]
        exact (complete_request_route_calls env ws connection _ version _ method
          http_request.new render_hook.render_not_acceptable rfl rfl).2 dhr1 fe hcap hf hfe
          hal
      · intro r hrender
        have hst : ws.dispatch (ws.route_resolution env
              (c_str (env.standardize_url (c_str (internal_unescaper ws url).buffer)))
              (end_request_construction env ws connection http_request.new version
                (c_str (env.standardize_url (c_str (internal_unescaper ws url).buffer)))
                method))
            (some render_hook.render_not_acceptable) method (dhr1.on_connection connection)
            = { calls := [{ site := hook_site.route,
                            hook := render_hook.render_not_acceptable,
                            request := dhr1.on_connection connection }]
                dhrs := some r, thrown := none, undefined := false } := by
          simp [webserver.dispatch, hf, hfe, hal, call_hook, hrender]
        exact bodyless_of_dispatch env ws connection url method version size
          { mr with callback := some render_hook.render_not_acceptable } dhr1 _ r hcap hst
    · intro dhr1 hcap hf
      constructor
      · intro hnf
        have hst : ws.dispatch (ws.route_resolution env
              (c_str (env.standardize_url (c_str (internal_unescaper ws url).buffer)))
              (end_request_construction env ws connection http_request.new version
                (c_str (env.standardize_url (c_str (internal_unescaper ws url).buffer)))
                method))
            (some render_hook.render_not_acceptable) method (dhr1.on_connection connection)
            = { calls := []
                dhrs := some (http_string_response static_body.NOT_FOUND_ERROR
                  http_not_found)
                thrown := none, undefined := false } := by
          simp [webserver.dispatch, hf, webserver.not_found_page, hnf]
        obtain ⟨_, h2⟩ := bodyless_of_dispatch env ws connection url method version size
          { mr with callback := some render_hook.render_not_acceptable } dhr1 _ _ hcap hst
        exact ⟨(h2 rfl).1, (h2 rfl).2.1⟩
      · intro h r hnf hrender
        have hst : ws.dispatch (ws.route_resolution env
              (c_str (env.standardize_url (c_str (internal_unescaper ws url).buffer)))
              (end_request_construction env ws connection http_request.new version
                (c_str (env.standardize_url (c_str (internal_unescaper ws url).buffer)))
                method))
            (some render_hook.render_not_acceptable) method (dhr1.on_connection connection)
            = { calls := [{ site := hook_site.not_found,
                            hook := render_hook.render_not_acceptable,
                            request := dhr1.on_connection connection }]
                dhrs := some r, thrown := none, undefined := false } := by
          simp [webserver.dispatch, hf, webserver.not_found_page, hnf, call_hook, hrender]
        exact bodyless_of_dispatch env ws connection url method version size
          { mr with callback := some render_hook.render_not_acceptable } dhr1 _ r hcap hst
    · intro dhr1 fe hcap hf hfe hal
      constructor
      · intro hna
        have hst : ws.dispatch (ws.route_resolution env
              (c_str (env.standardize_url (c_str (internal_unescaper ws url).buffer)))
              (end_request_construction env ws connection http_request.new version
                (c_str (env.standardize_url (c_str (internal_unescaper ws url).buffer)))
                method))
            (some render_hook.render_not_acceptable) method (dhr1.on_connection connection)
            = { calls := []
                dhrs := some (http_string_response static_body.METHOD_ERROR
                  http_method_not_allowed)
                thrown := none, undefined := false } := by
          simp [webserver.dispatch, hf, hfe, hal, webserver.method_not_allowed_page, hna]
        obtain ⟨_, h2⟩ := bodyless_of_dispatch env ws connection url method version size
          { mr with callback := some render_hook.render_not_acceptable } dhr1 _ _ hcap hst
        exact ⟨(h2 rfl).1, (h2 rfl).2.1⟩
      · intro h r hna hrender
        have hst : ws.dispatch (ws.route_resolution env
              (c_str (env.standardize_url (c_str (internal_unescaper ws url).buffer)))
              (end_request_construction env ws connection http_request.new version
                (c_str (env.standardize_url (c_str (internal_unescaper ws url).buffer)))
                method))
            (some render_hook.render_not_acceptable) method (dhr1.on_connection connection)
            = { calls := [{ site := hook_site.method_not_allowed,
                            hook := render_hook.render_not_acceptable,
                            request := dhr1.on_connection connection }]
                dhrs := some r, thrown := none, undefined := false } := by
          simp [webserver.dispatch, hf, hfe, hal, webserver.method_not_allowed_page, hna,
            call_hook, hrender]
        exact bodyless_of_dispatch env ws connection url method version size
          { mr with callback := some render_hook.render_not_acceptable } dhr1 _ r hcap hst

/-- Witness of C13 on the example server with a method-not-acceptable
handler: for `BREW /users/42` the hook `render_not_acceptable` of the route
handler is called once, and the response `user` that it returns is stored,
enqueued, and its enqueue result returned. -/
theorem C13_witness :
    (override_server.answer_to_connection demo_env demo_connection
        "/users/42".toList "BREW".toList "HTTP/1.1".toList [] 0
        (some first_request_state)).mr.dhrs
      = some ((demo_response "user").on_connection demo_connection)
    ∧ (override_server.answer_to_connection demo_env demo_connection
        "/users/42".toList "BREW".toList "HTTP/1.1".toList [] 0
        (some first_request_state)).queued
      = some ((demo_response "user").on_connection demo_connection)
    ∧ (override_server.answer_to_connection demo_env demo_connection
        "/users/42".toList "BREW".toList "HTTP/1.1".toList [] 0
        (some first_request_state)).calls
      = [{ site := hook_site.route, hook := render_hook.render_not_acceptable,
           request := ((end_request_construction demo_env override_server
               demo_connection http_request.new "HTTP/1.1".toList "/users/42".toList
               "BREW".toList).set_arg "id".toList "42".toList).on_connection
               demo_connection }]
    ∧ (override_server.answer_to_connection demo_env demo_connection
        "/users/42".toList "BREW".toList "HTTP/1.1".toList [] 0
        (some first_request_state)).outcome = completion.returned MHD_YES :=
  have h := (((C13_unknown_method demo_env override_server demo_connection
      "/users/42".toList "BREW".toList "HTTP/1.1".toList [] 0 first_request_state rfl rfl
      (by decide)).2 rfl).2.2.1 _
    (http_endpoint.make "/users/{id}".toList false true true,
      (demo_resource "user").set_method_not_acceptable_resource
        (some (demo_resource "not acceptable")))
    rfl rfl rfl rfl).2 (demo_response "user") rfl
  ⟨h.1, h.2 rfl⟩

/-- C14: on the first answer callback of a request (`second` is false and the
URI is logged), each of GET, DELETE, HEAD, CONNECT and TRACE selects the hook
of the same name, the request goes through the pipeline in that callback (the
selected hook of the matched handler is called when a route is found and
allows the method) and `second` stays false; POST and PUT select the hook of
the same name, store a fresh request (empty but for the content type of the
connection), set `second` and call no hook; `second` is set for POST and PUT
only; the method string is compared exactly, so that a string that differs
from all seven names selects none of the seven hooks. -/
theorem C14_method_classification (env : collaborators) (ws : webserver)
    (connection : MHD_Connection) (url version upload_data : cstring) (size : Nat)
    (mr : modded_request)
    (hsec : mr.second = false) (huri : mr.complete_uri.isSome = true) :
    (∀ method hook,
        (method, hook) ∈ [(http_method_get, render_hook.render_GET),
          (http_method_delete, render_hook.render_DELETE),
          (http_method_head, render_hook.render_HEAD),
          (http_method_connect, render_hook.render_CONNECT),
          (http_method_trace, render_hook.render_TRACE)] →
        ws.answer_to_connection env connection url method version upload_data size (some mr)
          = ws.bodyless_requests_answer env connection url method version size
              { mr with callback := some hook }
        ∧ (ws.answer_to_connection env connection url method version upload_data size
            (some mr)).mr.callback = some hook
        ∧ (ws.answer_to_connection env connection url method version upload_data size
            (some mr)).mr.second = false
        ∧ (∀ dhr1 fe,
            (ws.route_resolution env
              (c_str (env.standardize_url (c_str (internal_unescaper ws url).buffer)))
              (end_request_construction env ws connection http_request.new version
                (c_str (env.standardize_url (c_str (internal_unescaper ws url).buffer)))
                method)).dhr = some dhr1 →
            (ws.route_resolution env
              (c_str (env.standardize_url (c_str (internal_unescaper ws url).buffer)))
              (end_request_construction env ws connection http_request.new version
                (c_str (env.standardize_url (c_str (internal_unescaper ws url).buffer)))
                method)).found = true →
            (ws.route_resolution env
              (c_str (env.standardize_url (c_str (internal_unescaper ws url).buffer)))
              (end_request_construction env ws connection http_request.new version
                (c_str (env.standardize_url (c_str (internal_unescaper ws url).buffer)))
                method)).found_endpoint = some fe →
            fe.2.is_allowed method = true →
            route_calls (ws.answer_to_connection env connection url method version
                upload_data size (some mr)).calls
              = [{ site := hook_site.route, hook := hook,
                   request := dhr1.on_connection connection }]))
    ∧ (∀ method hook,
        (method, hook) ∈ [(http_method_post, render_hook.render_POST),
          (http_method_put, render_hook.render_PUT)] →
        (ws.answer_to_connection env connection url method version upload_data size
            (some mr)).mr.callback = some hook
        ∧ (ws.answer_to_connection env connection url method version upload_data size
            (some mr)).mr.second = true
        ∧ (ws.answer_to_connection env connection url method version upload_data size
            (some mr)).mr.dhr
          = some (match MHD_lookup_connection_value connection http_header_content_type with
                  | some e => http_request.new.set_header http_header_content_type e
                  | none => http_request.new)
        ∧ (ws.answer_to_connection env connection url method version upload_data size
            (some mr)).calls = []
        ∧ (ws.answer_to_connection env connection url method version upload_data size
            (some mr)).queued = none
        ∧ (ws.answer_to_connection env connection url method version upload_data size
            (some mr)).outcome = completion.returned MHD_YES)
    ∧ (∀ method,
        (ws.answer_to_connection env connection url method version upload_data size
            (some mr)).mr.second = true
          ↔ (method = http_method_post ∨ method = http_method_put))
    ∧ (∀ method,
        method ∉ [http_method_get, http_method_post, http_method_put,
          http_method_delete, http_method_head, http_method_connect, http_method_trace] →
        (ws.answer_to_connection env connection url method version upload_data size
            (some mr)).mr.callback = mr.callback
        ∨ (ws.answer_to_connection env connection url method version upload_data size
            (some mr)).mr.callback = some render_hook.render_not_acceptable) := by
  have hnone : mr.complete_uri.isNone = false := by
    cases h : mr.complete_uri with
    | none => rw [h] at huri; exact absurd huri (by decide)
    | some u => rfl
  have hless : ∀ (method : cstring) (hook : render_hook),
      ws.answer_to_connection env connection url method version upload_data size (some mr)
        = ws.bodyless_requests_answer env connection url method version size
            { mr with callback := some hook } →
      (ws.answer_to_connection env connection url method version upload_data size
          (some mr)).mr.callback = some hook
      ∧ (ws.answer_to_connection env connection url method version upload_data size
          (some mr)).mr.second = false
      ∧ (∀ dhr1 fe,
          (ws.route_resolution env
            (c_str (env.standardize_url (c_str (internal_unescaper ws url).buffer)))
            (end_request_construction env ws connection http_request.new version
              (c_str (env.standardize_url (c_str (internal_unescaper ws url).buffer)))
              method)).dhr = some dhr1 →
          (ws.route_resolution env
            (c_str (env.standardize_url (c_str (internal_unescaper ws url).buffer)))
            (end_request_construction env ws connection http_request.new version
              (c_str (env.standardize_url (c_str (internal_unescaper ws url).buffer)))
              method)).found = true →
          (ws.route_resolution env
            (c_str (env.standardize_url (c_str (internal_unescaper ws url).buffer)))
            (end_request_construction env ws connection http_request.new version
              (c_str (env.standardize_url (c_str (internal_unescaper ws url).buffer)))
              method)).found_endpoint = some fe →
          fe.2.is_allowed method = true →
          route_calls (ws.answer_to_connection env connection url method version
              upload_data size (some mr)).calls
            = [{ site := hook_site.route, hook := hook,
                 request := dhr1.on_connection connection }]) := by
    intro method hook hr
    rw [hr]
    obtain ⟨b1, _, b3, b4⟩ := bodyless_eq env ws connection url method version size
      { mr with callback := some hook }
    refine ⟨b4, b3.trans hsec, ?_⟩
    intro dhr1 fe hcap hf hfe hal
    rw [b1]
    exact (complete_request_route_calls env ws connection _ version _ method
      http_request.new hook rfl rfl).2 dhr1 fe hcap hf hfe hal
  have e1 : http_method_post ≠ http_method_get := by decide
  have e2 : http_method_put ≠ http_method_get := by decide
  have e3 : http_method_put ≠ http_method_post := by decide
  have e4 : http_method_delete ≠ http_method_get := by decide
  have e5 : http_method_delete ≠ http_method_post := by decide
  have e6 : http_method_delete ≠ http_method_put := by decide
  have e7 : http_method_head ≠ http_method_get := by decide
  have e8 : http_method_head ≠ http_method_post := by decide
  have e9 : http_method_head ≠ http_method_put := by decide
  have e10 : http_method_head ≠ http_method_delete := by decide
  have e11 : http_method_connect ≠ http_method_get := by decide
  have e12 : http_method_connect ≠ http_method_post := by decide
  have e13 : http_method_connect ≠ http_method_put := by decide
  have e14 : http_method_connect ≠ http_method_delete := by decide
  have e15 : http_method_connect ≠ http_method_head := by decide
  have e16 : http_method_trace ≠ http_method_get := by decide
  have e17 : http_method_trace ≠ http_method_post := by decide
  have e18 : http_method_trace ≠ http_method_put := by decide
  have e19 : http_method_trace ≠ http_method_delete := by decide
  have e20 : http_method_trace ≠ http_method_head := by decide
  have e21 : http_method_trace ≠ http_method_connect := by decide
  have hget : ws.answer_to_connection env connection url http_method_get version
      upload_data size (some mr)
      = ws.bodyless_requests_answer env connection url http_method_get version size
          { mr with callback := some render_hook.render_GET } := by
    simp [webserver.answer_to_connection, hsec, hnone]
  have hdelete : ws.answer_to_connection env connection url http_method_delete version
      upload_data size (some mr)
      = ws.bodyless_requests_answer env connection url http_method_delete version size
          { mr with callback := some render_hook.render_DELETE } := by
    simp [webserver.answer_to_connection, hsec, hnone, e4, e5, e6]
  have hhead : ws.answer_to_connection env connection url http_method_head version
      upload_data size (some mr)
      = ws.bodyless_requests_answer env connection url http_method_head version size
          { mr with callback := some render_hook.render_HEAD } := by
    simp [webserver.answer_to_connection, hsec, hnone, e7, e8, e9, e10]
  have hconnect : ws.answer_to_connection env connection url http_method_connect version
      upload_data size (some mr)
      = ws.bodyless_requests_answer env connection url http_method_connect version size
          { mr with callback := some render_hook.render_CONNECT } := by
    simp [webserver.answer_to_connection, hsec, hnone, e11, e12, e13, e14, e15]
  have htrace : ws.answer_to_connection env connection url http_method_trace version
      upload_data size (some mr)
      = ws.bodyless_requests_answer env connection url http_method_trace version size
          { mr with callback := some render_hook.render_TRACE } := by
    simp [webserver.answer_to_connection, hsec, hnone, e16, e17, e18, e19, e20, e21]
  have hpost : ws.answer_to_connection env connection url http_method_post version
      upload_data size (some mr)
      = ws.bodyfull_requests_answer_first_step connection url size
          { mr with callback := some render_hook.render_POST } := by
    simp [webserver.answer_to_connection, hsec, hnone, e1]
  have hput : ws.answer_to_connection env connection url http_method_put version
      upload_data size (some mr)
      = ws.bodyfull_requests_answer_first_step connection url size
          { mr with callback := some render_hook.render_PUT } := by
    simp [webserver.answer_to_connection, hsec, hnone, e2, e3]
  have hother : ∀ method,
      method ∉ [http_method_get, http_method_post, http_method_put,
        http_method_delete, http_method_head, http_method_connect, http_method_trace] →
      ws.answer_to_connection env connection url method version upload_data size (some mr)
        = (if ws.method_not_acceptable_resource.isSome then
            ws.bodyless_requests_answer env connection url method version size
              { mr with callback := some render_hook.render_not_acceptable }
           else webserver.method_not_acceptable_page connection mr url size) := by
    intro method hm
    simp only [List.mem_cons, List.mem_singleton, List.not_mem_nil, or_false, not_or] at hm
    obtain ⟨m1, m2, m3, m4, m5, m6, m7⟩ := hm
    simp [webserver.answer_to_connection, hsec, hnone, m1, m2, m3, m4, m5, m6, m7]
  refine ⟨?_, ?_, ?_, ?_⟩
  · intro method hook hmem
    simp only [List.mem_cons, List.mem_singleton, List.not_mem_nil, or_false,
      Prod.mk.injEq] at hmem
    rcases hmem with ⟨rfl, rfl⟩ | ⟨rfl, rfl⟩ | ⟨rfl, rfl⟩ | ⟨rfl, rfl⟩ | ⟨rfl, rfl⟩
    · exact ⟨hget, hless _ _ hget⟩
    · exact ⟨hdelete, hless _ _ hdelete⟩
    · exact ⟨hhead, hless _ _ hhead⟩
    · exact ⟨hconnect, hless _ _ hconnect⟩
    · exact ⟨htrace, hless _ _ htrace⟩
  · intro method hook hmem
    simp only [List.mem_cons, List.mem_singleton, List.not_mem_nil, or_false,
      Prod.mk.injEq] at hmem
    rcases hmem with ⟨rfl, rfl⟩ | ⟨rfl, rfl⟩
    · rw [hpost]
      refine ⟨rfl, rfl, ?_, rfl, rfl, rfl⟩
      simp only [webserver.bodyfull_requests_answer_first_step]
    · rw [hput]
      refine ⟨rfl, rfl, ?_, rfl, rfl, rfl⟩
      simp only [webserver.bodyfull_requests_answer_first_step]
  · intro method
    by_cases hm : method ∈ [http_method_get, http_method_post, http_method_put,
        http_method_delete, http_method_head, http_method_connect, http_method_trace]
    · simp only [List.mem_cons, List.mem_singleton, List.not_mem_nil, or_false] at hm
      rcases hm with rfl | rfl | rfl | rfl | rfl | rfl | rfl
      · rw [(hless _ _ hget).2.1]; simp [e1.symm, e2.symm]
      · rw [hpost]; simp [webserver.bodyfull_requests_answer_first_step]
      · rw [hput]; simp [webserver.bodyfull_requests_answer_first_step]
      · rw [(hless _ _ hdelete).2.1]; simp [e5, e6]
      · rw [(hless _ _ hhead).2.1]; simp [e8, e9]
      · rw [(hless _ _ hconnect).2.1]; simp [e12, e13]
      · rw [(hless _ _ htrace).2.1]; simp [e17, e18]
    · have hm2 := hm
      simp only [List.mem_cons, List.mem_singleton, List.not_mem_nil, or_false, not_or] at hm2
      rw [hother method hm]
      have hne : ¬ (method = http_method_post ∨ method = http_method_put) := by
        rintro (h | h)
        · exact hm2.2.1 h
        · exact hm2.2.2.1 h
      simp only [hne, iff_false]
      split
      · rw [(bodyless_eq env ws connection url method version size _).2.2.1]
        simp [hsec]
      · simp [webserver.method_not_acceptable_page, hsec]
  · intro method hm
    rw [hother method hm]
    split
    · right
      exact (bodyless_eq env ws connection url method version size _).2.2.2
    · left
      rfl

/-- Witness of C14 on the example server: `GET /users/42` calls the hook
`render_GET` of the route handler in the first callback. -/
theorem C14_witness :
    route_calls (demo_server.answer_to_connection demo_env demo_connection
        "/users/42".toList http_method_get "HTTP/1.1".toList [] 0
        (some first_request_state)).calls
      = [{ site := hook_site.route, hook := render_hook.render_GET,
           request := ((end_request_construction demo_env demo_server demo_connection
               http_request.new "HTTP/1.1".toList "/users/42".toList http_method_get).set_arg
               "id".toList "42".toList).on_connection demo_connection }] :=
  ((C14_method_classification demo_env demo_server demo_connection "/users/42".toList
      "HTTP/1.1".toList [] 0 first_request_state rfl rfl).1
    http_method_get render_hook.render_GET (by simp)).2.2.2 _
    (http_endpoint.make "/users/{id}".toList false true true, demo_resource "user")
    rfl rfl rfl rfl

/-! ## Per-entry lock -/

/-- C15: the sequence `lock(m1); lock(m2); unlock(); unlock()` of one thread
`T` on a new entry does not behave as a reentrant lock: `lockers.count(T)` is
zero although `T` is the only element, because the comparison object reports
`T` below itself; so the second `lock` records `T` again and calls the
reader/writer lock again, no `unlock` gives it up, and two records stay in
`lockers`. For two read locks the run returns with the reader/writer lock
held twice. -/
theorem C15_second_lock_acquires_again (T : pthread_t) (m1 m2 : Bool) :
    sset_count pthread_t_comparator T [T] = 0
    ∧ (run_entry_ops [(T, entry_op.lock m1), (T, entry_op.lock m2), (T, entry_op.unlock),
          (T, entry_op.unlock)] (entry_run entry_guard.init)).entry.lockers = [T, T]
    ∧ (run_entry_ops [(T, entry_op.lock m1), (T, entry_op.lock m2), (T, entry_op.unlock),
          (T, entry_op.unlock)] (entry_run entry_guard.init)).calls.length = 2
    ∧ rwlock_call.unlock T ∉
        (run_entry_ops [(T, entry_op.lock m1), (T, entry_op.lock m2), (T, entry_op.unlock),
          (T, entry_op.unlock)] (entry_run entry_guard.init)).calls
    ∧ run_entry_ops [(T, entry_op.lock false), (T, entry_op.lock false),
          (T, entry_op.unlock), (T, entry_op.unlock)] (entry_run entry_guard.init)
        = { entry := { elem_guard := { readers := [T, T], writer := none }
                       lockers := [T, T] }
            status := call_status.returned
            calls := [rwlock_call.rdlock T, rwlock_call.rdlock T] } := by
  refine ⟨?_, ?_, ?_, ?_, ?_⟩
  · simp [sset_count, pthread_t_comparator]
  · cases m1 <;> cases m2 <;>
      simp [run_entry_ops, entry_run, entry_guard.init, entry_op.run, cache_entry.lock,
        cache_entry.unlock, sset_count, sset_insert, pthread_t_comparator,
        pthread_rwlock_rdlock, pthread_rwlock_wrlock]
  · cases m1 <;> cases m2 <;>
      simp [run_entry_ops, entry_run, entry_guard.init, entry_op.run, cache_entry.lock,
        cache_entry.unlock, sset_count, sset_insert, pthread_t_comparator,
        pthread_rwlock_rdlock, pthread_rwlock_wrlock]
  · cases m1 <;> cases m2 <;>
      simp [run_entry_ops, entry_run, entry_guard.init, entry_op.run, cache_entry.lock,
        cache_entry.unlock, sset_count, sset_insert, pthread_t_comparator,
        pthread_rwlock_rdlock, pthread_rwlock_wrlock]
  · simp [run_entry_ops, entry_run, entry_guard.init, entry_op.run, cache_entry.lock,
      cache_entry.unlock, sset_count, sset_insert, pthread_t_comparator,
      pthread_rwlock_rdlock, pthread_rwlock_wrlock]

/-- C16: a second thread is not kept out while the first holds the lock of
the entry. For two different threads `T` and `U`, `lockers.count(U)` is not
zero on the set that holds only `T`, because the comparison object reports
neither identifier below the other. So on a new entry, after
`lock; lock; unlock` of `T`, the `lock(write)` of `U` returns without a call
on the reader/writer lock, which `T` still holds for reading; and so it does
right after the first `lock` of `T`. -/
theorem C16_second_thread_not_excluded (T U : pthread_t) (hTU : T ≠ U) :
    sset_count pthread_t_comparator U [T] ≠ 0
    ∧ run_entry_ops [(T, entry_op.lock false), (T, entry_op.lock false), (T, entry_op.unlock),
          (U, entry_op.lock true)] (entry_run entry_guard.init)
        = { entry := { elem_guard := { readers := [T, T], writer := none }
                       lockers := [T, T] }
            status := call_status.returned
            calls := [rwlock_call.rdlock T, rwlock_call.rdlock T] }
    ∧ run_entry_ops [(T, entry_op.lock false), (U, entry_op.lock true)]
          (entry_run entry_guard.init)
        = { entry := { elem_guard := { readers := [T], writer := none }, lockers := [T] }
            status := call_status.returned
            calls := [rwlock_call.rdlock T] } := by
  have h1 : (T == U) = false := by simpa using hTU
  have h2 : (U == T) = false := by simpa using (Ne.symm hTU)
  refine ⟨?_, ?_, ?_⟩
  · simp [sset_count, pthread_t_comparator, h1, h2]
  · simp [run_entry_ops, entry_run, entry_guard.init, entry_op.run, cache_entry.lock,
      cache_entry.unlock, sset_count, sset_insert, pthread_t_comparator,
      pthread_rwlock_rdlock, pthread_rwlock_wrlock, h1, h2]
  · simp [run_entry_ops, entry_run, entry_guard.init, entry_op.run, cache_entry.lock,
      cache_entry.unlock, sset_count, sset_insert, pthread_t_comparator,
      pthread_rwlock_rdlock, pthread_rwlock_wrlock, h1, h2]

/-- Witness of C16 with the threads 1 and 2: after `lock; lock; unlock` of
thread 1 the `lock(write)` of thread 2 returns, and the only calls on the
reader/writer lock are the two read locks of thread 1, which it still
holds. -/
theorem C16_witness :
    run_entry_ops [(1, entry_op.lock false), (1, entry_op.lock false), (1, entry_op.unlock),
        (2, entry_op.lock true)] (entry_run entry_guard.init)
      = { entry := { elem_guard := { readers := [1, 1], writer := none }
                     lockers := [1, 1] }
          status := call_status.returned
          calls := [rwlock_call.rdlock 1, rwlock_call.rdlock 1] } :=
  (C16_second_thread_not_excluded 1 2 (by decide)).2.1

/-! ## Request completion and delegates -/


/-- C17: `request_completed` does nothing for a per-request state that is
present, whatever it holds: no completion action runs and the state is not
deleted; and for an absent state it reads `mr->dhrs` through the null
pointer. -/
theorem C17_request_completed_skips_present_state (mr : modded_request) :
    request_completed (some mr) = { actions := [], deleted := false, undefined := false }
    ∧ (request_completed none).undefined = true := by
  exact ⟨rfl, rfl⟩

/-- C18: `set_unescaper(u, delete_old)` leaves the field `unescaper_pointer`
as it was, so `get_unescaper` returns the old value and not `u`; with
`delete_old` set and an unescaper installed, the field then points to a
deleted object. On a server created without an unescaper, after
`set_unescaper(u, false)` for the identity function `u` the field is still
null and `internal_unescaper` still decodes `a%41` to `aA`. -/
theorem C18_set_unescaper_keeps_the_old_value (ws : webserver)
    (u : Option (cstring → cstring)) (delete_old : Bool) :
    (ws.set_unescaper u delete_old).1.get_unescaper = ws.get_unescaper
    ∧ (ws.set_unescaper u delete_old).2 = (delete_old && ws.get_unescaper.isSome)
    ∧ ((webserver.create demo_params).set_unescaper (some (fun s => s))
        false).1.get_unescaper.isNone = true
    ∧ internal_unescaper ((webserver.create demo_params).set_unescaper (some (fun s => s))
        false).1 "a%41".toList = { buffer := "aA".toList, size := 2 } := by
  refine ⟨rfl, rfl, rfl, ?_⟩
  rfl

/-! ## Life cycle -/

theorem start_daemons_running (mhd : Nat → Bool) (n : Nat) (ws : webserver) :
    (start_daemons mhd n ws).1.running = ws.running := by
  induction n generalizing ws with
  | zero => rfl
  | succ n ih =>
    unfold start_daemons
    split
    · rw [ih]
    · rfl

theorem start_daemons_ok (mhd : Nat → Bool) (n : Nat) (ws : webserver)
    (h : ∀ i, i < n → mhd (ws.daemons + i) = true) :
    start_daemons mhd n ws
      = ({ ws with daemons := ws.daemons + n, threads := ws.threads + n }, true) := by
  induction n generalizing ws with
  | zero => rfl
  | succ n ih =>
    unfold start_daemons
    have h0 : mhd ws.daemons = true := by simpa using h 0 (Nat.succ_pos n)
    rw [if_pos h0, ih]
    · simp only [Prod.mk.injEq, and_true]
      congr 1 <;> omega
    · intro i hi
      have := h (i + 1) (by omega)
      simpa [Nat.add_assoc, Nat.add_comm 1 i] using this

theorem start_daemons_fail (mhd : Nat → Bool) (n : Nat) (ws : webserver)
    (h : ∃ i, i < n ∧ mhd (ws.daemons + i) = false) :
    (start_daemons mhd n ws).2 = false := by
  induction n generalizing ws with
  | zero =>
    obtain ⟨i, hi, _⟩ := h
    exact absurd hi (Nat.not_lt_zero i)
  | succ n ih =>
    unfold start_daemons
    by_cases h0 : mhd ws.daemons = true
    · rw [if_pos h0]
      apply ih
      obtain ⟨i, hi, hm⟩ := h
      cases i with
      | zero => simp [h0] at hm
      | succ j =>
        refine ⟨j, by omega, ?_⟩
        simpa [Nat.add_assoc, Nat.add_comm 1 j] using hm
    · rw [if_neg h0]

theorem create_running (params : create_webserver) :
    (webserver.create params).running = false := by
  unfold webserver.create webserver.init
  cases params._single_resource <;> rfl

/-- C20: `is_running` is false on a server just constructed; a `start` in
which a call of `MHD_start_daemon` returns `NULL` returns false and leaves
`is_running` as it was; a `start` whose calls all return a daemon leaves
every daemon created and `is_running` true, returning false at once if it is
not blocking and waiting if it is; the wait of a blocking `start` ends, with
the value true, exactly when `is_running` is false; after `stop`
`is_running` is false and that wait ends; `stop` returns true and a second
`stop` changes nothing. -/
theorem C20_lifecycle_flag (ws : webserver) (MHD_start_daemon : Nat → Bool)
    (blocking : Bool) :
    (∀ params, (webserver.create params).is_running = false)
    ∧ ((∃ i, i < daemons_wanted ws ∧ MHD_start_daemon (ws.daemons + i) = false) →
        (ws.start MHD_start_daemon blocking).outcome = start_outcome.returned false
        ∧ (ws.start MHD_start_daemon blocking).ws.is_running = ws.is_running)
    ∧ ((∀ i, i < daemons_wanted ws → MHD_start_daemon (ws.daemons + i) = true) →
        (ws.start MHD_start_daemon blocking).ws.is_running = true
        ∧ (ws.start MHD_start_daemon blocking).ws.daemons = ws.daemons + daemons_wanted ws
        ∧ (ws.start MHD_start_daemon blocking).outcome
            = (if blocking then start_outcome.waiting else start_outcome.returned false))
    ∧ (ws.start_wait = start_outcome.returned true ↔ ws.is_running = false)
    ∧ ws.stop.1.is_running = false
    ∧ ws.stop.1.start_wait = start_outcome.returned true
    ∧ ws.stop.2 = true
    ∧ ws.stop.1.stop = (ws.stop.1, true) := by
  have hstop : ws.stop.1.running = false := by
    unfold webserver.stop
    cases h : ws.running <;> simp [h]
  refine ⟨create_running, ?_, ?_, ?_, hstop, ?_, rfl, ?_⟩
  · intro hfail
    unfold webserver.start webserver.is_running
    unfold daemons_wanted at hfail
    by_cases hm : ws.start_method = start_method_T.INTERNAL_REMANAGED
    · simp only [hm, if_true] at hfail ⊢
      have h2 := start_daemons_fail MHD_start_daemon _ ws hfail
      simp only [h2, Bool.false_eq_true, if_false, true_and]
      exact start_daemons_running MHD_start_daemon _ ws
    · simp only [hm, if_false] at hfail ⊢
      obtain ⟨i, hi, hmhd⟩ := hfail
      have hi0 : i = 0 := by omega
      subst hi0
      simp only [Nat.add_zero] at hmhd
      simp [hmhd]
  · intro hok
    unfold webserver.start webserver.is_running
    unfold daemons_wanted at hok ⊢
    by_cases hm : ws.start_method = start_method_T.INTERNAL_REMANAGED
    · simp only [hm, if_true] at hok ⊢
      rw [start_daemons_ok MHD_start_daemon _ ws hok]
      cases blocking <;> simp
    · simp only [hm, if_false] at hok ⊢
      have h0 : MHD_start_daemon ws.daemons = true := by simpa using hok 0 (by omega)
      cases blocking <;> simp [h0]
  · unfold webserver.start_wait webserver.is_running
    cases h : ws.running <;> simp
  · unfold webserver.start_wait
    simp [hstop]
  · unfold webserver.stop
    cases h : ws.running <;> simp [h]

/-- Witness of C20 on the example server: a `start` whose daemon cannot be
created returns false and leaves the server stopped, and a `start` whose
daemon is created leaves it running. -/
theorem C20_witness :
    ((demo_server.start (fun _ => false) false).outcome = start_outcome.returned false
      ∧ (demo_server.start (fun _ => false) false).ws.is_running = demo_server.is_running)
    ∧ (demo_server.start (fun _ => true) true).ws.is_running = true :=
  ⟨(C20_lifecycle_flag demo_server (fun _ => false) false).2.1 ⟨0, by decide, rfl⟩,
   ((C20_lifecycle_flag demo_server (fun _ => true) true).2.2.1 (fun _ _ => rfl)).1⟩

/-! ## Ban and allowance sets -/

theorem sset_find_some {K : Type} (lt : K → K → Bool) (k it : K) (s : List K)
    (h : sset_find lt k s = some it) :
    it ∈ s ∧ lt it k = false ∧ lt k it = false := by
  induction s with
  | nil => simp [sset_find] at h
  | cons x rest ih =>
    unfold sset_find at h
    by_cases h1 : lt x k = true
    · rw [if_pos h1] at h
      obtain ⟨a, b, c⟩ := ih h
      exact ⟨List.mem_cons_of_mem _ a, b, c⟩
    · rw [if_neg h1] at h
      by_cases h2 : lt k x = true
      · rw [if_pos h2] at h
        exact absurd h (by simp)
      · rw [if_neg h2] at h
        simp only [Option.some.injEq] at h
        subst h
        exact ⟨List.mem_cons_self _ _, by simpa using h1, by simpa using h2⟩

theorem sset_find_none_iff {K : Type} (lt : K → K → Bool)
    (htr : ∀ a b c, lt a b = true → lt b c = true → lt a c = true)
    (k : K) (s : List K) (hwf : sset_wf lt s = true) :
    sset_find lt k s = none ↔ ∀ e ∈ s, lt e k = true ∨ lt k e = true := by
  induction s with
  | nil => simp [sset_find]
  | cons x rest ih =>
    have hw : sset_wf lt (x :: rest) = true ↔
        (∀ e ∈ rest, lt x e = true) ∧ sset_wf lt rest = true := by
      simp [sset_wf, List.all_eq_true]
    rw [hw] at hwf
    unfold sset_find
    by_cases h1 : lt x k = true
    · rw [if_pos h1, ih hwf.2]
      constructor
      · intro h e he
        rcases List.mem_cons.mp he with he | he
        · subst he; exact Or.inl h1
        · exact h e he
      · intro h e he
        exact h e (List.mem_cons_of_mem _ he)
    · rw [if_neg h1]
      by_cases h2 : lt k x = true
      · rw [if_pos h2]
        simp only [true_iff]
        intro e he
        rcases List.mem_cons.mp he with he | he
        · subst he; exact Or.inr h2
        · exact Or.inr (htr k x e h2 (hwf.1 e he))
      · rw [if_neg h2]
        simp only [false_iff, reduceCtorEq]
        intro h
        rcases h x (List.mem_cons_self _ _) with h | h
        · exact h1 h
        · exact h2 h

theorem sset_insert_of_find_some {K : Type} (lt : K → K → Bool) (k it : K) (s : List K)
    (h : sset_find lt k s = some it) : sset_insert lt k s = s := by
  induction s with
  | nil => simp [sset_find] at h
  | cons x rest ih =>
    unfold sset_find at h
    unfold sset_insert
    by_cases h1 : lt x k = true
    · rw [if_pos h1] at h ⊢
      rw [ih h]
    · rw [if_neg h1] at h ⊢
      by_cases h2 : lt k x = true
      · rw [if_pos h2] at h
        exact absurd h (by simp)
      · rw [if_neg h2]

theorem sset_mem_insert_of_find_none {K : Type} (lt : K → K → Bool) (k : K) (s : List K)
    (h : sset_find lt k s = none) (e : K) :
    e ∈ sset_insert lt k s ↔ e = k ∨ e ∈ s := by
  induction s with
  | nil => simp [sset_insert]
  | cons x rest ih =>
    unfold sset_find at h
    unfold sset_insert
    by_cases h1 : lt x k = true
    · rw [if_pos h1] at h ⊢
      simp only [List.mem_cons, ih h]
      tauto
    · rw [if_neg h1] at h ⊢
      by_cases h2 : lt k x = true
      · rw [if_pos h2]
        simp only [List.mem_cons]
      · rw [if_neg h2] at h
        exact absurd h (by simp)

theorem sset_wf_mem_cases {K : Type} (lt : K → K → Bool) (s : List K)
    (hwf : sset_wf lt s = true) (a b : K) (ha : a ∈ s) (hb : b ∈ s) :
    a = b ∨ lt a b = true ∨ lt b a = true := by
  induction s with
  | nil => simp at ha
  | cons x rest ih =>
    have hw : sset_wf lt (x :: rest) = true ↔
        (∀ e ∈ rest, lt x e = true) ∧ sset_wf lt rest = true := by
      simp [sset_wf, List.all_eq_true]
    rw [hw] at hwf
    rcases List.mem_cons.mp ha with ha1 | ha1 <;> rcases List.mem_cons.mp hb with hb1 | hb1
    · exact Or.inl (ha1.trans hb1.symm)
    · rw [ha1]; exact Or.inr (Or.inl (hwf.1 b hb1))
    · rw [hb1]; exact Or.inr (Or.inr (hwf.1 a ha1))
    · exact ih hwf.2 ha1 hb1

theorem sset_mem_erase {K : Type} (lt : K → K → Bool) (hir : ∀ a, lt a a = false)
    (k it : K) (s : List K) (hwf : sset_wf lt s = true)
    (h : sset_find lt k s = some it) (e : K) :
    e ∈ sset_erase lt k s ↔ e ∈ s ∧ e ≠ it := by
  induction s with
  | nil => simp [sset_find] at h
  | cons x rest ih =>
    have hw : sset_wf lt (x :: rest) = true ↔
        (∀ e ∈ rest, lt x e = true) ∧ sset_wf lt rest = true := by
      simp [sset_wf, List.all_eq_true]
    rw [hw] at hwf
    unfold sset_find at h
    unfold sset_erase
    by_cases h1 : lt x k = true
    · rw [if_pos h1] at h ⊢
      have hit := (sset_find_some lt k it rest h).1
      have hxit : x ≠ it := by
        intro hx
        have := hwf.1 it hit
        rw [← hx, hir] at this
        exact absurd this (by simp)
      simp only [List.mem_cons, ih hwf.2 h]
      constructor
      · rintro (h' | h')
        · exact ⟨Or.inl h', by rw [h']; exact hxit⟩
        · exact ⟨Or.inr h'.1, h'.2⟩
      · rintro ⟨h' | h', h''⟩
        · exact Or.inl h'
        · exact Or.inr ⟨h', h''⟩
    · rw [if_neg h1] at h ⊢
      by_cases h2 : lt k x = true
      · rw [if_pos h2] at h
        exact absurd h (by simp)
      · rw [if_neg h2] at h ⊢
        simp only [Option.some.injEq] at h
        subst h
        simp only [List.mem_cons]
        constructor
        · intro h'
          refine ⟨Or.inr h', ?_⟩
          intro hx
          have := hwf.1 e h'
          rw [hx, hir] at this
          exact absurd this (by simp)
        · rintro ⟨h' | h', h''⟩
          · exact absurd h' h''
          · exact h'

theorem sset_wf_erase {K : Type} (lt : K → K → Bool) (k : K) (s : List K)
    (hwf : sset_wf lt s = true) : sset_wf lt (sset_erase lt k s) = true := by
  induction s with
  | nil => rfl
  | cons x rest ih =>
    have hw : ∀ (y : K) (l : List K), sset_wf lt (y :: l) = true ↔
        (∀ e ∈ l, lt y e = true) ∧ sset_wf lt l = true := by
      intro y l
      simp [sset_wf, List.all_eq_true]
    have hsub : ∀ (l : List K) (e : K), e ∈ sset_erase lt k l → e ∈ l := by
      intro l
      induction l with
      | nil => intro e he; simp [sset_erase] at he
      | cons y l' ihl =>
        intro e he
        unfold sset_erase at he
        by_cases h1 : lt y k = true
        · rw [if_pos h1] at he
          rcases List.mem_cons.mp he with he | he
          · exact List.mem_cons.mpr (Or.inl he)
          · exact List.mem_cons_of_mem _ (ihl e he)
        · rw [if_neg h1] at he
          by_cases h2 : lt k y = true
          · rw [if_pos h2] at he; exact he
          · rw [if_neg h2] at he; exact List.mem_cons_of_mem _ he
    have hwf' := (hw x rest).mp hwf
    unfold sset_erase
    by_cases h1 : lt x k = true
    · rw [if_pos h1, hw]
      exact ⟨fun e he => hwf'.1 e (hsub rest e he), ih hwf'.2⟩
    · rw [if_neg h1]
      by_cases h2 : lt k x = true
      · rw [if_pos h2]; exact hwf
      · rw [if_neg h2]; exact hwf'.2

theorem sset_wf_insert {K : Type} (lt : K → K → Bool)
    (htr : ∀ a b c, lt a b = true → lt b c = true → lt a c = true)
    (k : K) (s : List K) (hwf : sset_wf lt s = true) :
    sset_wf lt (sset_insert lt k s) = true := by
  induction s with
  | nil => rfl
  | cons x rest ih =>
    have hw : ∀ (y : K) (l : List K), sset_wf lt (y :: l) = true ↔
        (∀ e ∈ l, lt y e = true) ∧ sset_wf lt l = true := by
      intro y l
      simp [sset_wf, List.all_eq_true]
    have hmem : ∀ (l : List K) (e : K), e ∈ sset_insert lt k l → e = k ∨ e ∈ l := by
      intro l
      induction l with
      | nil => intro e he; simpa [sset_insert] using he
      | cons y l' ihl =>
        intro e he
        unfold sset_insert at he
        by_cases h1 : lt y k = true
        · rw [if_pos h1] at he
          rcases List.mem_cons.mp he with he | he
          · exact Or.inr (List.mem_cons.mpr (Or.inl he))
          · rcases ihl e he with h | h
            · exact Or.inl h
            · exact Or.inr (List.mem_cons_of_mem _ h)
        · rw [if_neg h1] at he
          by_cases h2 : lt k y = true
          · rw [if_pos h2] at he
            rcases List.mem_cons.mp he with he | he
            · exact Or.inl he
            · exact Or.inr he
          · rw [if_neg h2] at he; exact Or.inr he
    have hwf' := (hw x rest).mp hwf
    unfold sset_insert
    by_cases h1 : lt x k = true
    · rw [if_pos h1, hw]
      refine ⟨?_, ih hwf'.2⟩
      intro e he
      rcases hmem rest e he with h | h
      · rw [h]; exact h1
      · exact hwf'.1 e h
    · rw [if_neg h1]
      by_cases h2 : lt k x = true
      · rw [if_pos h2, hw]
        refine ⟨?_, hwf⟩
        intro e he
        rcases List.mem_cons.mp he with he | he
        · rw [he]; exact h2
        · exact htr k x e h2 (hwf'.1 e he)
      · rw [if_neg h2]; exact hwf

theorem bits_le_up (x y s t : Nat) (h : s ≤ t) (hxy : x / 2 ^ s ≤ y / 2 ^ s) :
    x / 2 ^ t ≤ y / 2 ^ t := by
  have e : ∀ z, z / 2 ^ t = z / 2 ^ s / 2 ^ (t - s) := by
    intro z
    rw [Nat.div_div_eq_div_mul, ← pow_add]
    congr 2
    omega
  rw [e x, e y]
  exact Nat.div_le_div_right hxy

theorem bits_eq_up (x y s t : Nat) (h : s ≤ t) (hxy : x / 2 ^ s = y / 2 ^ s) :
    x / 2 ^ t = y / 2 ^ t :=
  Nat.le_antisymm (bits_le_up x y s t h (Nat.le_of_eq hxy))
    (bits_le_up y x s t h (Nat.le_of_eq hxy.symm))

theorem bits_lt_down (x y s t : Nat) (h : s ≤ t) (hxy : x / 2 ^ t < y / 2 ^ t) :
    x / 2 ^ s < y / 2 ^ s := by
  by_contra hcon
  exact absurd (bits_le_up y x s t h (Nat.le_of_not_lt hcon)) (Nat.not_le_of_lt hxy)

theorem ip_lt_irrefl (a : ip_representation) : a.lt a = false := by
  simp [ip_representation.lt]

theorem ip_lt_trans (a b c : ip_representation) (hab : a.lt b = true) (hbc : b.lt c = true) :
    a.lt c = true := by
  unfold ip_representation.lt leading_bits at *
  simp only [decide_eq_true_eq] at hab hbc ⊢
  by_cases h1 : 128 - min a.mask_bits c.mask_bits ≤ 128 - min a.mask_bits b.mask_bits
      ∧ 128 - min a.mask_bits b.mask_bits = 128 - min b.mask_bits c.mask_bits
  · -- the shift of `b` is the largest
    rw [← h1.2] at hbc
    exact bits_lt_down _ _ _ _ h1.1 (Nat.lt_trans hab hbc)
  · by_cases h2 : 128 - min a.mask_bits c.mask_bits = 128 - min a.mask_bits b.mask_bits
    · -- the shift of `a` is the largest
      have hle : 128 - min b.mask_bits c.mask_bits ≤ 128 - min a.mask_bits c.mask_bits := by
        omega
      rw [h2]
      have hbc0 : b.address / 2 ^ 0 < c.address / 2 ^ 0 :=
        bits_lt_down _ _ 0 _ (Nat.zero_le _) hbc
      have hbc' : b.address / 2 ^ (128 - min a.mask_bits b.mask_bits)
          ≤ c.address / 2 ^ (128 - min a.mask_bits b.mask_bits) :=
        bits_le_up _ _ 0 _ (Nat.zero_le _) (Nat.le_of_lt hbc0)
      exact Nat.lt_of_lt_of_le hab hbc'
    · -- the shift of `c` is the largest
      have h3 : 128 - min a.mask_bits c.mask_bits = 128 - min b.mask_bits c.mask_bits := by
        omega
      rw [h3]
      have hab0 : a.address / 2 ^ 0 < b.address / 2 ^ 0 :=
        bits_lt_down _ _ 0 _ (Nat.zero_le _) hab
      have hab' : a.address / 2 ^ (128 - min b.mask_bits c.mask_bits)
          ≤ b.address / 2 ^ (128 - min b.mask_bits c.mask_bits) :=
        bits_le_up _ _ 0 _ (Nat.zero_le _) (Nat.le_of_lt hab0)
      exact Nat.lt_of_le_of_lt hab' hbc

theorem covers_iff (e a : ip_representation) :
    e.covers a = true
      ↔ e.address / 2 ^ (128 - min e.mask_bits a.mask_bits)
          = a.address / 2 ^ (128 - min e.mask_bits a.mask_bits) := by
  unfold ip_representation.covers ip_representation.lt leading_bits
  rw [Nat.min_comm a.mask_bits e.mask_bits]
  simp only [Bool.and_eq_true, Bool.not_eq_true', decide_eq_false_iff_not, not_lt]
  constructor
  · rintro ⟨h1, h2⟩
    exact Nat.le_antisymm h2 h1
  · intro h
    exact ⟨Nat.le_of_eq h.symm, Nat.le_of_eq h⟩

/-- An entry that covers an address which is more specific than another
entry covering it is covered by that entry too: the ranges are nested. -/
theorem covers_of_more_specific (it t e : ip_representation)
    (hit : it.covers t = true) (hw : t.weight < it.weight) (he : e.covers t = true) :
    e.covers it = true := by
  rw [covers_iff] at hit he ⊢
  unfold ip_representation.weight at hw
  have hmin : min it.mask_bits t.mask_bits = it.mask_bits := by omega
  rw [hmin] at hit
  have s1 : 128 - min e.mask_bits t.mask_bits ≤ 128 - min e.mask_bits it.mask_bits := by
    omega
  have s2 : 128 - it.mask_bits ≤ 128 - min e.mask_bits it.mask_bits := by omega
  rw [bits_eq_up _ _ _ _ s1 he]
  exact (bits_eq_up _ _ _ _ s2 hit).symm

theorem covers_false_iff (e t : ip_representation) :
    e.covers t = false ↔ (e.lt t = true ∨ t.lt e = true) := by
  unfold ip_representation.covers
  cases e.lt t <;> cases t.lt e <;> simp

theorem covers_true_iff (e t : ip_representation) :
    e.covers t = true ↔ (e.lt t = false ∧ t.lt e = false) := by
  unfold ip_representation.covers
  cases e.lt t <;> cases t.lt e <;> simp

/-- An entry with a higher weight than the address it is equivalent to is
the only entry of the set equivalent to that address. -/
theorem covering_entry_unique (t it : ip_representation) (s : List ip_representation)
    (hwf : sset_wf ip_representation.lt s = true) (hit : it ∈ s)
    (hcov : it.covers t = true) (hw : t.weight < it.weight) :
    ∀ e ∈ s, e.covers t = true → e = it := by
  intro e he hec
  have h1 := covers_of_more_specific it t e hcov hw hec
  rw [covers_true_iff] at h1
  rcases sset_wf_mem_cases ip_representation.lt s hwf e it he hit with h | h | h
  · exact h
  · rw [h1.1] at h; exact absurd h (by simp)
  · rw [h1.2] at h; exact absurd h (by simp)

theorem ip_set_add_added (t : ip_representation) (s : List ip_representation)
    (hwf : sset_wf ip_representation.lt s = true) : added_to t s (ip_set_add t s) := by
  have hnone : (∀ e ∈ s, e.covers t = false)
      → sset_find ip_representation.lt t s = none := by
    intro h
    rw [sset_find_none_iff ip_representation.lt ip_lt_trans t s hwf]
    intro e he
    exact (covers_false_iff e t).mp (h e he)
  have hsome : ∀ it ∈ s, it.covers t = true → t.weight < it.weight →
      sset_find ip_representation.lt t s = some it := by
    intro it hit hcov hw
    cases hf : sset_find ip_representation.lt t s with
    | none =>
      rw [sset_find_none_iff ip_representation.lt ip_lt_trans t s hwf] at hf
      have := (covers_false_iff it t).mpr (hf it hit)
      rw [hcov] at this
      exact absurd this (by simp)
    | some it' =>
      obtain ⟨a, b, c⟩ := sset_find_some ip_representation.lt t it' s hf
      have := covering_entry_unique t it s hwf hit hcov hw it' a
        ((covers_true_iff it' t).mpr ⟨b, c⟩)
      rw [this]
  refine ⟨?_, ?_, ?_, ?_⟩
  · unfold ip_set_add
    split
    · split
      · exact sset_wf_insert _ ip_lt_trans _ _ (sset_wf_erase _ _ _ hwf)
      · exact sset_wf_insert _ ip_lt_trans _ _ hwf
    · exact sset_wf_insert _ ip_lt_trans _ _ hwf
  · intro h e
    unfold ip_set_add
    rw [hnone h]
    exact sset_mem_insert_of_find_none _ t s (hnone h) e
  · intro it hit hcov hw
    have huniq := covering_entry_unique t it s hwf hit hcov hw
    refine ⟨huniq, ?_⟩
    intro e
    unfold ip_set_add
    rw [hsome it hit hcov hw]
    simp only [hw, if_true]
    have hfe : sset_find ip_representation.lt t
        (sset_erase ip_representation.lt t s) = none := by
      rw [sset_find_none_iff ip_representation.lt ip_lt_trans t _
        (sset_wf_erase _ _ _ hwf)]
      intro x hx
      rw [sset_mem_erase ip_representation.lt ip_lt_irrefl t it s hwf
        (hsome it hit hcov hw)] at hx
      apply (covers_false_iff x t).mp
      cases hc : x.covers t with
      | false => rfl
      | true => exact absurd (huniq x hx.1 hc) hx.2
    rw [sset_mem_insert_of_find_none _ t _ hfe e,
      sset_mem_erase ip_representation.lt ip_lt_irrefl t it s hwf (hsome it hit hcov hw)]
  · rintro ⟨it, hit, hcov, hw⟩
    unfold ip_set_add
    cases hf : sset_find ip_representation.lt t s with
    | none =>
      rw [sset_find_none_iff ip_representation.lt ip_lt_trans t s hwf] at hf
      have := (covers_false_iff it t).mpr (hf it hit)
      rw [hcov] at this
      exact absurd this (by simp)
    | some it' =>
      obtain ⟨a, b, c⟩ := sset_find_some ip_representation.lt t it' s hf
      have hc' : it'.covers t = true := (covers_true_iff it' t).mpr ⟨b, c⟩
      have hnw : ¬ t.weight < it'.weight := by
        intro hlt
        have := covering_entry_unique t it' s hwf a hc' hlt it hit hcov
        rw [this] at hw
        exact hw hlt
      simp only [hnw, if_false]
      exact sset_insert_of_find_some _ t it' s hf

theorem ban_ip_bans (ws : webserver) (t : ip_representation) :
    (ws.ban_ip t).bans = ip_set_add t ws.bans
      ∧ (ws.ban_ip t).allowances = ws.allowances := by
  unfold webserver.ban_ip ip_set_add
  split
  · split <;> exact ⟨rfl, rfl⟩
  · exact ⟨rfl, rfl⟩

theorem allow_ip_allowances (ws : webserver) (t : ip_representation) :
    (ws.allow_ip t).allowances = ip_set_add t ws.allowances
      ∧ (ws.allow_ip t).bans = ws.bans := by
  unfold webserver.allow_ip ip_set_add
  split
  · split <;> exact ⟨rfl, rfl⟩
  · exact ⟨rfl, rfl⟩

/-- C19 as stated fails: with `10.1.0.0/16` and `10.2.0.0/16` banned, the
ban of `10.0.0.0/8` changes nothing, and the ban set then holds two entries
equivalent to the banned address. -/
theorem C19_counterexample :
    ((((webserver.create demo_params).ban_ip (ip_representation.of_ipv4 10 1 0 0 16)).ban_ip
        (ip_representation.of_ipv4 10 2 0 0 16)).ban_ip
        (ip_representation.of_ipv4 10 0 0 0 8)).bans
      = [ip_representation.of_ipv4 10 1 0 0 16, ip_representation.of_ipv4 10 2 0 0 16]
    ∧ (ip_representation.of_ipv4 10 1 0 0 16).covers (ip_representation.of_ipv4 10 0 0 0 8)
        = true
    ∧ (ip_representation.of_ipv4 10 2 0 0 16).covers (ip_representation.of_ipv4 10 0 0 0 8)
        = true := by
  refine ⟨?_, ?_, ?_⟩
  · decide
  · decide
  · decide

/-- C19, amended: on a server whose ban and allowance sets are strictly
increasing, `ban_ip(t)` leaves the allowance set untouched and treats the ban
set as `added_to` says: the set stays strictly increasing; if no entry is
equivalent to `t`, `t` is added and nothing else changes; if an entry
equivalent to `t` has a higher weight than `t`, it is the only such entry and
`t` takes its place, all other entries staying; if an entry equivalent to `t`
has a weight that is not higher, the set is unchanged (so several narrower
entries equivalent to a wider `t` all stay). `allow_ip(t)` does the same with
the roles of the two sets exchanged. -/
theorem C19_add_keeps_more_specific (ws : webserver) (t : ip_representation)
    (hb : sset_wf ip_representation.lt ws.bans = true)
    (ha : sset_wf ip_representation.lt ws.allowances = true) :
    (added_to t ws.bans (ws.ban_ip t).bans ∧ (ws.ban_ip t).allowances = ws.allowances)
    ∧ (added_to t ws.allowances (ws.allow_ip t).allowances
        ∧ (ws.allow_ip t).bans = ws.bans) := by
  refine ⟨⟨?_, (ban_ip_bans ws t).2⟩, ⟨?_, (allow_ip_allowances ws t).2⟩⟩
  · rw [(ban_ip_bans ws t).1]
    exact ip_set_add_added t ws.bans hb
  · rw [(allow_ip_allowances ws t).1]
    exact ip_set_add_added t ws.allowances ha

/-- Witness of C19 on the example server, whose ban set is `10.0.0.0/8`: the
ban of `10.1.0.0/16` leaves a strictly increasing ban set and the allowance
set untouched, and the ban of the wider `10.0.0.0/7` changes nothing. -/
theorem C19_witness :
    sset_wf ip_representation.lt
        ((policy_server demo_params).ban_ip (ip_representation.of_ipv4 10 1 0 0 16)).bans
      = true
    ∧ ((policy_server demo_params).ban_ip (ip_representation.of_ipv4 10 1 0 0 16)).allowances
      = (policy_server demo_params).allowances
    ∧ ((policy_server demo_params).ban_ip (ip_representation.of_ipv4 10 0 0 0 7)).bans
      = (policy_server demo_params).bans :=
  ⟨(C19_add_keeps_more_specific (policy_server demo_params)
      (ip_representation.of_ipv4 10 1 0 0 16) (by decide) (by decide)).1.1.1,
   (C19_add_keeps_more_specific (policy_server demo_params)
      (ip_representation.of_ipv4 10 1 0 0 16) (by decide) (by decide)).1.2,
   (C19_add_keeps_more_specific (policy_server demo_params)
      (ip_representation.of_ipv4 10 0 0 0 7) (by decide) (by decide)).1.1.2.2.2
      ⟨ip_representation.of_ipv4 10 0 0 0 8, by decide, by decide, by decide⟩⟩

/-! ## Registration -/

theorem smap_find_assign_of_find {K V : Type} (lt : K → K → Bool) (k : K) (v : V)
    (m : List (K × V)) (e : K × V) (hfind : smap_find lt k m = some e) :
    smap_find lt k (smap_assign lt k v m) = some (e.1, v) := by
  induction m with
  | nil => simp [smap_find] at hfind
  | cons e' rest ih =>
    obtain ⟨k', v'⟩ := e'
    simp only [smap_find] at hfind
    simp only [smap_assign]
    by_cases h1 : lt k' k = true
    · rw [if_pos h1] at hfind ⊢
      simp only [smap_find, h1, if_true]
      exact ih hfind
    · rw [if_neg h1] at hfind ⊢
      by_cases h2 : lt k k' = true
      · rw [if_pos h2] at hfind
        exact absurd hfind (by simp)
      · rw [if_neg h2] at hfind ⊢
        simp only [Option.some.injEq] at hfind
        subst hfind
        simp [smap_find, h1, h2]

/-- C21: `register_resource(resource, res, family)` maps the pattern to the
handler: looking up the pattern afterwards gives the handler as it is after
the call, under the key already stored for an equal pattern if there was
one, in which case the table does not grow; lookups of patterns that are not
equal to it are unchanged. The handler after the call has the server's
method-not-acceptable handler as its override reference if the server has
one, and is the handler as passed if the server has none; its hooks and its
`is_allowed` are the same in both cases. -/
theorem C21_register_propagates_override (ws : webserver) (resource : cstring)
    (res : http_resource) (family : Bool) :
    (∃ k', smap_find http_endpoint.lt
          (http_endpoint.make resource family true ws.regex_checking)
          (ws.register_resource resource res family).registered_resources
        = some (k', if ws.method_not_acceptable_resource.isSome then
                      res.set_method_not_acceptable_resource ws.method_not_acceptable_resource
                    else res))
    ∧ (∀ m, ws.method_not_acceptable_resource = some m →
        (res.set_method_not_acceptable_resource
            ws.method_not_acceptable_resource).method_not_acceptable_resource = some m
        ∧ (res.set_method_not_acceptable_resource ws.method_not_acceptable_resource).render
            = res.render
        ∧ (res.set_method_not_acceptable_resource ws.method_not_acceptable_resource).is_allowed
            = res.is_allowed)
    ∧ (ws.method_not_acceptable_resource = none →
        ∃ k', smap_find http_endpoint.lt
            (http_endpoint.make resource family true ws.regex_checking)
            (ws.register_resource resource res family).registered_resources
          = some (k', res))
    ∧ (∀ k2 : http_endpoint,
        (http_endpoint.lt (http_endpoint.make resource family true ws.regex_checking) k2 = true
          ∨ http_endpoint.lt k2 (http_endpoint.make resource family true ws.regex_checking)
              = true) →
        smap_find http_endpoint.lt k2
            (ws.register_resource resource res family).registered_resources
          = smap_find http_endpoint.lt k2 ws.registered_resources)
    ∧ (∀ e, smap_find http_endpoint.lt
          (http_endpoint.make resource family true ws.regex_checking) ws.registered_resources
          = some e →
        (ws.register_resource resource res family).registered_resources.length
            = ws.registered_resources.length
        ∧ ∃ h, smap_find http_endpoint.lt
            (http_endpoint.make resource family true ws.regex_checking)
            (ws.register_resource resource res family).registered_resources
          = some (e.1, h))
    ∧ (ws.register_resource resource res family).method_not_acceptable_resource
        = ws.method_not_acceptable_resource := by
  refine ⟨?_, ?_, ?_, ?_, ?_, rfl⟩
  · exact smap_find_assign_self strict_weak_endpoint_lt _ _ _
  · intro m hm
    rw [hm]
    cases res
    exact ⟨rfl, rfl, rfl⟩
  · intro hnone
    have := smap_find_assign_self strict_weak_endpoint_lt
      (http_endpoint.make resource family true ws.regex_checking)
      (if ws.method_not_acceptable_resource.isSome then
        res.set_method_not_acceptable_resource ws.method_not_acceptable_resource
       else res) ws.registered_resources
    simpa [webserver.register_resource, hnone] using this
  · intro k2 hne
    exact smap_find_assign_other strict_weak_endpoint_lt _ k2 _ _ hne
  · intro e he
    refine ⟨smap_length_assign_of_find _ _ _ e he, ?_⟩
    exact ⟨_, smap_find_assign_of_find _ _ _ _ e he⟩

/-- Witness of C21 on the example server with a method-not-acceptable
handler: the handler registered for `/users/{id}` has that handler as its
override reference. -/
theorem C21_witness :
    ((demo_resource "user").set_method_not_acceptable_resource
        override_server.method_not_acceptable_resource).method_not_acceptable_resource
      = some (demo_resource "not acceptable") :=
  ((C21_register_propagates_override
      (webserver.create
        { demo_params with
          _method_not_acceptable_resource := some (demo_resource "not acceptable") })
      "/users/{id}".toList (demo_resource "user") false).2.1
    (demo_resource "not acceptable") rfl).1

/-! ## Query arguments -/

/-- The formatting buffer of `build_request_args` holds the whole text of the
argument: nothing is cut off. -/
theorem snprintf_arg_full (lead : Char) (kv : cstring × cstring) :
    snprintf_arg (kv.1.length + kv.2.length + 3) lead kv.1 kv.2 = query_item lead kv := by
  unfold snprintf_arg query_item
  apply List.take_of_length_le
  simp only [List.length_cons, List.length_append]
  omega

theorem build_request_args_querystring (ws : webserver) (dhr : http_request)
    (kv : cstring × cstring) :
    (build_request_args ws dhr kv).querystring
      = (if dhr.querystring = [] then query_item '?' kv
         else dhr.querystring ++ query_item '&' kv) := by
  unfold build_request_args
  simp only [snprintf_arg_full]
  split <;> rfl

theorem build_request_args_get_arg (ws : webserver) (dhr : http_request)
    (kv : cstring × cstring) (n : cstring) :
    (build_request_args ws dhr kv).get_arg n
      = (if n = kv.1 then some (unescaped_value ws kv.2) else dhr.get_arg n) := by
  unfold build_request_args unescaped_value
  simp only []
  by_cases hn : n = kv.1
  · rw [if_pos hn, hn, get_arg_set_arg_self]
  · rw [if_neg hn, get_arg_set_arg_other _ n kv.1 _ (fun h => hn h.symm)]
    split <;> rfl

theorem foldl_args_querystring (ws : webserver) :
    ∀ (args : List (cstring × cstring)) (dhr : http_request), dhr.querystring ≠ [] →
      (args.foldl (build_request_args ws) dhr).querystring
        = dhr.querystring ++ (args.map (query_item '&')).flatten
  | [], dhr, _ => by simp
  | kv :: rest, dhr, h => by
    have hq : (build_request_args ws dhr kv).querystring
        = dhr.querystring ++ query_item '&' kv := by
      rw [build_request_args_querystring, if_neg h]
    have hne : (build_request_args ws dhr kv).querystring ≠ [] := by
      rw [hq]
      simp [query_item]
    rw [List.foldl_cons, foldl_args_querystring ws rest _ hne, hq]
    simp

theorem foldl_args_query_text (ws : webserver) (args : List (cstring × cstring))
    (dhr : http_request) (hq : dhr.querystring = []) :
    (args.foldl (build_request_args ws) dhr).querystring = query_text args := by
  cases args with
  | nil => simpa [query_text] using hq
  | cons kv rest =>
    have h1 : (build_request_args ws dhr kv).querystring = query_item '?' kv := by
      rw [build_request_args_querystring, if_pos hq]
    have hne : (build_request_args ws dhr kv).querystring ≠ [] := by
      rw [h1]
      simp [query_item]
    rw [List.foldl_cons, foldl_args_querystring ws rest _ hne, h1]
    rfl

theorem foldl_args_get_arg_other (ws : webserver) (n : cstring) :
    ∀ (args : List (cstring × cstring)) (dhr : http_request), (∀ kv ∈ args, kv.1 ≠ n) →
      (args.foldl (build_request_args ws) dhr).get_arg n = dhr.get_arg n
  | [], _, _ => rfl
  | kv :: rest, dhr, h => by
    rw [List.foldl_cons, foldl_args_get_arg_other ws n rest _
      (fun x hx => h x (List.mem_cons_of_mem _ hx)), build_request_args_get_arg,
      if_neg (fun hn => h kv (List.mem_cons_self _ _) hn.symm)]

theorem foldl_querystring {α : Type} (f : http_request → α → http_request)
    (hf : ∀ r a, (f r a).querystring = r.querystring ∧ (f r a).args = r.args) :
    ∀ (l : List α) (r : http_request),
      (l.foldl f r).querystring = r.querystring ∧ (l.foldl f r).args = r.args
  | [], _ => ⟨rfl, rfl⟩
  | a :: l, r => by
    rw [List.foldl_cons]
    exact ⟨(foldl_querystring f hf l (f r a)).1.trans (hf r a).1,
      (foldl_querystring f hf l (f r a)).2.trans (hf r a).2⟩

theorem end_request_construction_args (env : collaborators) (ws : webserver)
    (connection : MHD_Connection) (dhr : http_request) (version st_url method : cstring) :
    (end_request_construction env ws connection dhr version st_url method).querystring
        = (connection.get_arguments.foldl (build_request_args ws) dhr).querystring
      ∧ (end_request_construction env ws connection dhr version st_url method).args
        = (connection.get_arguments.foldl (build_request_args ws) dhr).args := by
  have h2 := foldl_querystring build_request_header (fun _ _ => ⟨rfl, rfl⟩)
    connection.headers (connection.get_arguments.foldl (build_request_args ws) dhr)
  have h3 := foldl_querystring build_request_footer (fun _ _ => ⟨rfl, rfl⟩)
    connection.footers
    (connection.headers.foldl build_request_header
      (connection.get_arguments.foldl (build_request_args ws) dhr))
  have h4 := foldl_querystring build_request_cookie (fun _ _ => ⟨rfl, rfl⟩)
    connection.cookies
    (connection.footers.foldl build_request_footer
      (connection.headers.foldl build_request_header
        (connection.get_arguments.foldl (build_request_args ws) dhr)))
  unfold end_request_construction
  simp only []
  constructor
  · split <;> split <;> simp only [h4.1, h3.1, h2.1]
  · split <;> split <;> simp only [h4.2, h3.2, h2.2]

/-- C22: when the construction of a request starts from an empty query
string, the query arguments `(k1,v1), ..., (kn,vn)` that the parser delivers
leave the query string `?k1=v1&k2=v2&...&kn=vn` with the values as delivered;
the formatting buffer of size `|k|+|v|+3` holds the whole text `?k=v` or
`&k=v` of each argument; the callback of each argument stores its name in the
argument map with the unescaped value, and the finished request still has
that value under the name unless the name is delivered again later. -/
theorem C22_query_string_reconstruction (env : collaborators) (ws : webserver)
    (connection : MHD_Connection) (dhr : http_request) (version st_url method : cstring)
    (hq : dhr.querystring = []) :
    (end_request_construction env ws connection dhr version st_url method).querystring
        = query_text connection.get_arguments
    ∧ (∀ kv ∈ connection.get_arguments, ∀ lead,
        snprintf_arg (kv.1.length + kv.2.length + 3) lead kv.1 kv.2 = query_item lead kv)
    ∧ (∀ pre kv post, connection.get_arguments = pre ++ kv :: post →
        ((pre ++ [kv]).foldl (build_request_args ws) dhr).get_arg kv.1
            = some (unescaped_value ws kv.2)
        ∧ ((∀ kv' ∈ post, kv'.1 ≠ kv.1) →
            (end_request_construction env ws connection dhr version st_url method).get_arg
                kv.1
              = some (unescaped_value ws kv.2))) := by
  obtain ⟨e1, e2⟩ := end_request_construction_args env ws connection dhr version st_url
    method
  refine ⟨?_, ?_, ?_⟩
  · rw [e1]
    exact foldl_args_query_text ws _ dhr hq
  · intro kv _ lead
    exact snprintf_arg_full lead kv
  · intro pre kv post hargs
    have hstep : ((pre ++ [kv]).foldl (build_request_args ws) dhr).get_arg kv.1
        = some (unescaped_value ws kv.2) := by
      rw [List.foldl_append, List.foldl_cons, List.foldl_nil, build_request_args_get_arg,
        if_pos rfl]
    refine ⟨hstep, ?_⟩
    intro hpost
    have hfin : (end_request_construction env ws connection dhr version st_url
          method).get_arg kv.1
        = (connection.get_arguments.foldl (build_request_args ws) dhr).get_arg kv.1 := by
      unfold http_request.get_arg
      rw [e2]
    rw [hfin, hargs]
    have hsplit : pre ++ kv :: post = (pre ++ [kv]) ++ post := by simp
    rw [hsplit, List.foldl_append, foldl_args_get_arg_other ws kv.1 post _ hpost]
    exact hstep

/-- Witness of C22 on the example connection with the arguments `a=1` and
`b=x%41`: the query string is `?a=1&b=x%41` and the argument `b` is stored
with the value `xA`. -/
theorem C22_witness :
    (end_request_construction demo_env demo_server query_connection http_request.new
        "HTTP/1.1".toList "/users/42".toList "GET".toList).querystring
      = "?a=1&b=x%41".toList
    ∧ (end_request_construction demo_env demo_server query_connection http_request.new
        "HTTP/1.1".toList "/users/42".toList "GET".toList).get_arg "b".toList
      = some "xA".toList :=
  ⟨(C22_query_string_reconstruction demo_env demo_server query_connection http_request.new
      "HTTP/1.1".toList "/users/42".toList "GET".toList rfl).1,
   ((C22_query_string_reconstruction demo_env demo_server query_connection http_request.new
      "HTTP/1.1".toList "/users/42".toList "GET".toList rfl).2.2
      [("a".toList, "1".toList)] ("b".toList, "x%41".toList) [] rfl).2
      (fun _ h => absurd h (List.not_mem_nil _))⟩

/-! ## Single resource -/

/-- C24: on a cache whose map is strictly ordered by key, after
`remove_from_cache(K)` the lookup of `K` returns no response, the flag
`valid` false and no entry, and `is_valid(K)` is false, at every clock
value; the lookup and the validity of every other key are as before; and the
removal of a key that is not cached leaves the server as it is. -/
theorem C24_cache_remove (ws : webserver) (K : cstring)
    (hwf : smap_wf str_lt ws.response_cache = true) :
    (∀ now, (ws.remove_from_cache K).get_from_cache now K
        = { response := none, valid := false, ce := none })
    ∧ (∀ now, (ws.remove_from_cache K).is_valid now K = false)
    ∧ (∀ K2 now, K2 ≠ K →
        (ws.remove_from_cache K).get_from_cache now K2 = ws.get_from_cache now K2
        ∧ (ws.remove_from_cache K).is_valid now K2 = ws.is_valid now K2)
    ∧ (smap_find str_lt K ws.response_cache = none → ws.remove_from_cache K = ws)
    ∧ smap_wf str_lt (ws.remove_from_cache K).response_cache = true := by
  have hgone : smap_find str_lt K (ws.remove_from_cache K).response_cache = none := by
    unfold webserver.remove_from_cache
    cases hfind : smap_find str_lt K ws.response_cache with
    | none => exact hfind
    | some found => exact smap_find_erase_self strict_weak_str_lt K _ hwf
  refine ⟨?_, ?_, ?_, ?_, remove_wf ws K hwf⟩
  · intro now
    unfold webserver.get_from_cache
    rw [hgone]
  · intro now
    unfold webserver.is_valid
    rw [hgone]
  · intro K2 now hne
    have h := remove_find_other ws K K2 hwf hne
    exact ⟨get_from_cache_congr _ _ now K2 h, is_valid_congr _ _ now K2 h⟩
  · intro hnone
    unfold webserver.remove_from_cache
    rw [hnone]

/-- Witness of C24 on the example cache, which holds `K` and `L`: after the
removal of `K`, `K` is not valid and `L` is looked up as before. -/
theorem C24_witness :
    (cache_server.remove_from_cache "K".toList).is_valid 1 "K".toList = false
    ∧ (cache_server.remove_from_cache "K".toList).get_from_cache 1 "L".toList
      = cache_server.get_from_cache 1 "L".toList :=
  ⟨(C24_cache_remove cache_server "K".toList (by decide)).2.1 1,
   ((C24_cache_remove cache_server "K".toList (by decide)).2.2.1 "L".toList 1
      (by decide)).1⟩

/-! ## Cache lock order -/

/-- C25 as stated fails: on the example cache, `get_from_cache` of the cached
key `K` with `lock` set takes the lock of the entry while `cache_guard` is
held, and so does `put_in_cache` of `K`, twice when `lock` is set, and
`put_in_cache` of a new key with `lock` set. -/
theorem C25_counterexample :
    cache_server.get_from_cache_locks "K".toList true false
      = [guard_call.cache_rdlock, guard_call.entry_lock 0 false, guard_call.cache_unlock]
    ∧ entry_acquisitions false (cache_server.get_from_cache_locks "K".toList true false)
      = [(0, true)]
    ∧ entry_acquisitions false
        (cache_server.put_in_cache_locks 9 "K".toList none 3 true false)
      = [(0, true), (0, true)]
    ∧ entry_acquisitions false
        (cache_server.put_in_cache_locks 9 "M".toList none 3 true false)
      = [(2, true)] := by
  refine ⟨?_, ?_, ?_, ?_⟩ <;> rfl

/-- C25, amended: every lock of an entry that `get_from_cache` and
`put_in_cache` take is taken while `cache_guard` is held, which both take
first and give back last: `get_from_cache` takes the lock of the entry found
when `lock` is set, in the mode asked for, and no entry lock otherwise;
`put_in_cache` takes the lock of an entry already in the map for writing,
whatever `lock` says, and the lock of the returned entry when `lock` is set.
A call of `lock_cache_element` on an entry, in contrast, takes the lock of
that entry without taking `cache_guard` before. -/
theorem C25_entry_locks_taken_under_cache_guard (ws : webserver) (now : Int)
    (key : cstring) (value : Option http_response) (validity : Int) (lock write : Bool) :
    (∀ a ∈ entry_acquisitions false (ws.get_from_cache_locks key lock write), a.2 = true)
    ∧ (∀ a ∈ entry_acquisitions false
          (ws.put_in_cache_locks now key value validity lock write), a.2 = true)
    ∧ (∀ e, smap_find str_lt key ws.response_cache = some e →
        entry_acquisitions false (ws.get_from_cache_locks key lock write)
          = (if lock then [(e.2.1, true)] else [])
        ∧ entry_acquisitions false (ws.put_in_cache_locks now key value validity lock write)
          = (e.2.1, true) :: (if lock then [(e.2.1, true)] else []))
    ∧ (smap_find str_lt key ws.response_cache = none →
        entry_acquisitions false (ws.get_from_cache_locks key lock write) = []
        ∧ entry_acquisitions false (ws.put_in_cache_locks now key value validity lock write)
          = (if lock then [((ws.put_in_cache now key value validity).to_ret, true)]
             else []))
    ∧ (ws.get_from_cache_locks key lock write).head? = some guard_call.cache_rdlock
    ∧ (ws.get_from_cache_locks key lock write).getLast? = some guard_call.cache_unlock
    ∧ (ws.put_in_cache_locks now key value validity lock write).head?
        = some guard_call.cache_wrlock
    ∧ (ws.put_in_cache_locks now key value validity lock write).getLast?
        = some guard_call.cache_unlock
    ∧ (∀ p, entry_acquisitions false (webserver.lock_cache_element_locks (some p) write)
        = [(p, false)]) := by
  have hsome : ∀ e, smap_find str_lt key ws.response_cache = some e →
      entry_acquisitions false (ws.get_from_cache_locks key lock write)
        = (if lock then [(e.2.1, true)] else [])
      ∧ entry_acquisitions false (ws.put_in_cache_locks now key value validity lock write)
        = (e.2.1, true) :: (if lock then [(e.2.1, true)] else []) := by
    intro e he
    obtain ⟨k', p, ent⟩ := e
    have hret : (ws.put_in_cache now key value validity).to_ret = p := by
      unfold webserver.put_in_cache
      rw [he]
      simp only []
      split <;> rfl
    constructor
    · unfold webserver.get_from_cache_locks
      rw [he]
      cases lock <;> simp [entry_acquisitions]
    · unfold webserver.put_in_cache_locks
      rw [he, hret]
      cases lock <;> simp [entry_acquisitions]
  have hnone : smap_find str_lt key ws.response_cache = none →
      entry_acquisitions false (ws.get_from_cache_locks key lock write) = []
      ∧ entry_acquisitions false (ws.put_in_cache_locks now key value validity lock write)
        = (if lock then [((ws.put_in_cache now key value validity).to_ret, true)]
           else []) := by
    intro he
    constructor
    · unfold webserver.get_from_cache_locks
      rw [he]
      rfl
    · unfold webserver.put_in_cache_locks
      rw [he]
      cases lock <;> simp [entry_acquisitions]
  refine ⟨?_, ?_, hsome, hnone, ?_, ?_, ?_, ?_, ?_⟩
  · intro a ha
    cases he : smap_find str_lt key ws.response_cache with
    | none => rw [(hnone he).1] at ha; simp at ha
    | some e =>
      rw [(hsome e he).1] at ha
      cases lock
      · simp at ha
      · simp only [if_true, List.mem_singleton] at ha
        subst ha
        rfl
  · intro a ha
    cases he : smap_find str_lt key ws.response_cache with
    | none =>
      rw [(hnone he).2] at ha
      cases lock
      · simp at ha
      · simp only [if_true, List.mem_singleton] at ha
        subst ha
        rfl
    | some e =>
      rw [(hsome e he).2] at ha
      cases lock
      · simp only [Bool.false_eq_true, if_false, List.mem_singleton] at ha
        subst ha
        rfl
      · simp only [if_true, List.mem_cons, List.mem_singleton, List.not_mem_nil,
          or_false, or_self] at ha
        subst ha
        rfl
  · unfold webserver.get_from_cache_locks
    split <;> rfl
  · unfold webserver.get_from_cache_locks
    split
    · cases lock <;> rfl
    · rfl
  · rfl
  · unfold webserver.put_in_cache_locks
    rw [List.getLast?_append]
    rfl
  · intro p
    rfl

/-- Witness of C25 on the example cache: the one entry lock that
`get_from_cache` of `K` takes with `lock` set is taken while `cache_guard` is
held. -/
theorem C25_witness :
    entry_acquisitions false (cache_server.get_from_cache_locks "K".toList true true)
      = [(0, true)] :=
  ((C25_entry_locks_taken_under_cache_guard cache_server 0 "K".toList none (-1) true
      true).2.2.1
    ("K".toList, 0, { ts := 0, validity := 2, response := some (demo_response "R") })
    rfl).1

/-! ## Unescaping -/

theorem c_str_of_no_nul (s : cstring) (h : ∀ c ∈ s, c ≠ Char.ofNat 0) : c_str s = s := by
  unfold c_str
  rw [List.takeWhile_eq_self_iff]
  intro c hc
  simpa using h c hc

/-- C26: the unescape callback handed to the parser leaves the buffer as it
is and returns `strlen(s)`, the length of the C string in it, which is the
length of `s` when `s` holds no NUL character; so applying it twice is the
same as applying it once. -/
theorem C26_parser_unescape_does_nothing (s : cstring) :
    (unescaper_func s).1 = s
    ∧ (unescaper_func s).2 = (c_str s).length
    ∧ ((∀ c ∈ s, c ≠ Char.ofNat 0) → (unescaper_func s).2 = s.length)
    ∧ unescaper_func (unescaper_func s).1 = unescaper_func s := by
  refine ⟨rfl, rfl, ?_, rfl⟩
  intro h
  unfold unescaper_func
  simp only []
  rw [c_str_of_no_nul s h]

/-- Witness of C26: the buffer `a%41+b` is left as it is and its length 6 is
returned. -/
theorem C26_witness :
    (unescaper_func "a%41+b".toList).1 = "a%41+b".toList
    ∧ (unescaper_func "a%41+b".toList).2 = "a%41+b".toList.length :=
  ⟨(C26_parser_unescape_does_nothing "a%41+b".toList).1,
   (C26_parser_unescape_does_nothing "a%41+b".toList).2.2.1 (by decide)⟩

/-! ## Path of the request -/

/-- C27: the URL buffer is unescaped again by every callback of the second
step, so the path that the handler sees depends on the number of body chunks.
On the example server with the default decoder and the URL `/users/%2541`,
which one decoding turns into `/users/%41`: a GET and a POST without body
chunk call the hook with the path `/users/%41`, a POST with one body chunk
calls it with the path `/users/A` (and the argument `id` is `A`). -/
theorem C27_path_depends_on_chunk_count :
    http_unescape "/users/%2541".toList = "/users/%41".toList
    ∧ (deliver demo_env demo_server demo_connection "GET".toList "HTTP/1.1".toList [[]]
        "/users/%2541".toList (uri_log "/users/%2541".toList)).map
          (fun r => r.calls.map (fun c => c.request.path))
      = [["/users/%41".toList]]
    ∧ (deliver demo_env demo_server demo_connection "POST".toList "HTTP/1.1".toList
        [[], []] "/users/%2541".toList (uri_log "/users/%2541".toList)).map
          (fun r => r.calls.map (fun c => c.request.path))
      = [[], ["/users/%41".toList]]
    ∧ (deliver demo_env demo_server demo_connection "POST".toList "HTTP/1.1".toList
        [[], "x".toList, []] "/users/%2541".toList (uri_log "/users/%2541".toList)).map
          (fun r => r.calls.map (fun c => c.request.path))
      = [[], [], ["/users/A".toList]]
    ∧ (deliver demo_env demo_server demo_connection "POST".toList "HTTP/1.1".toList
        [[], "x".toList, []] "/users/%2541".toList (uri_log "/users/%2541".toList)).map
          (fun r => r.url)
      = ["/users/%2541".toList, "/users/%41".toList, "/users/A".toList] := by
  refine ⟨?_, ?_, ?_, ?_, ?_⟩ <;> rfl

/-! ## Return value of start -/

/-- C28: a `start` that is not blocking and whose every call of
`MHD_start_daemon` returns a daemon returns false and leaves `is_running`
true; a `start` in which a call returns `NULL` returns false as well; no call
of `start` returns true before its wait: a blocking `start` whose daemons are
created waits with `is_running` true, and its wait ends with the value true
exactly when `is_running` is false. -/
theorem C28_start_return_value (ws : webserver) (MHD_start_daemon : Nat → Bool) :
    ((∀ i, i < daemons_wanted ws → MHD_start_daemon (ws.daemons + i) = true) →
        (ws.start MHD_start_daemon false).outcome = start_outcome.returned false
        ∧ (ws.start MHD_start_daemon false).ws.is_running = true
        ∧ (ws.start MHD_start_daemon true).outcome = start_outcome.waiting
        ∧ (ws.start MHD_start_daemon true).ws.is_running = true)
    ∧ ((∃ i, i < daemons_wanted ws ∧ MHD_start_daemon (ws.daemons + i) = false) →
        ∀ blocking, (ws.start MHD_start_daemon blocking).outcome
          = start_outcome.returned false)
    ∧ (∀ blocking, (ws.start MHD_start_daemon blocking).outcome
        ≠ start_outcome.returned true)
    ∧ (ws.start_wait = start_outcome.returned true ↔ ws.is_running = false)
    ∧ (ws.start_wait = start_outcome.waiting ↔ ws.is_running = true) := by
  refine ⟨?_, ?_, ?_, ?_, ?_⟩
  · intro hok
    unfold webserver.start webserver.is_running
    unfold daemons_wanted at hok
    by_cases hm : ws.start_method = start_method_T.INTERNAL_REMANAGED
    · simp only [hm, if_true] at hok ⊢
      rw [start_daemons_ok MHD_start_daemon _ ws hok]
      simp
    · simp only [hm, if_false] at hok ⊢
      have h0 : MHD_start_daemon ws.daemons = true := by simpa using hok 0 (by omega)
      simp [h0]
  · intro hfail blocking
    unfold webserver.start
    unfold daemons_wanted at hfail
    by_cases hm : ws.start_method = start_method_T.INTERNAL_REMANAGED
    · simp only [hm, if_true] at hfail ⊢
      have h2 := start_daemons_fail MHD_start_daemon _ ws hfail
      simp only [h2, Bool.false_eq_true, if_false]
    · simp only [hm, if_false] at hfail ⊢
      obtain ⟨i, hi, hmhd⟩ := hfail
      have hi0 : i = 0 := by omega
      subst hi0
      simp only [Nat.add_zero] at hmhd
      simp [hmhd]
  · intro blocking
    unfold webserver.start
    simp only []
    repeat' split
    all_goals simp
  · unfold webserver.start_wait webserver.is_running
    cases h : ws.running <;> simp
  · unfold webserver.start_wait webserver.is_running
    cases h : ws.running <;> simp

/-- Witness of C28 on the example server: a start that is not blocking and
whose daemon is created returns false and leaves the server running. -/
theorem C28_witness :
    (demo_server.start (fun _ => true) false).outcome = start_outcome.returned false
    ∧ (demo_server.start (fun _ => true) false).ws.is_running = true :=
  ⟨((C28_start_return_value demo_server (fun _ => true)).1 (fun _ _ => rfl)).1,
   ((C28_start_return_value demo_server (fun _ => true)).1 (fun _ _ => rfl)).2.1⟩

/-! ## Order of the holder set -/

/-- C29: the comparison object of `lockers` is not a strict weak ordering:
every thread identifier is ordered before itself, the relation is symmetric
and not asymmetric, and membership in the set does not tell which threads
were inserted: after the insertion of `T` into the empty set `count(T)` is 0,
and `count(U)` is 1 for every other thread `U`, which was never inserted. -/
theorem C29_comparator_is_not_a_strict_weak_order :
    (∀ t, pthread_t_comparator t t = true)
    ∧ (∀ t u, pthread_t_comparator t u = pthread_t_comparator u t)
    ∧ ¬ strict_weak pthread_t_comparator
    ∧ (∀ T, sset_count pthread_t_comparator T (sset_insert pthread_t_comparator T []) = 0)
    ∧ (∀ T U, U ≠ T →
        sset_count pthread_t_comparator U (sset_insert pthread_t_comparator T []) = 1) := by
  refine ⟨?_, ?_, ?_, ?_, ?_⟩
  · intro t
    simp [pthread_t_comparator]
  · intro t u
    simp only [pthread_t_comparator]
    by_cases h : t = u
    · rw [h]
    · have h' : ¬ u = t := fun e => h e.symm
      simp [h, h']
  · intro hsw
    have := hsw.irrefl (0 : pthread_t)
    simp [pthread_t_comparator] at this
  · intro T
    simp [sset_insert, sset_count, pthread_t_comparator]
  · intro T U hne
    have h' : ¬ T = U := fun e => hne e.symm
    simp [sset_insert, sset_count, pthread_t_comparator, hne, h']

end httpserver
